import Mathlib

/-!
# libARStream reader: reassembly of fragmented frames

A shallow embedding of `Sources/ARSTREAMING_Reader.c` and a verification of
the statements made about it.

Conventions of the embedding.

* C pointers are addresses (`Nat`, `0` is `NULL`).  A frame buffer is an
  address together with the bytes found at each offset from it.
* `uint16_t`, `uint32_t`, `uint8_t` values are `Nat`; C `int` values are `Int`.
  The offsets `cpIndex`, `cpSize`, `endIndex` are non negative and are kept
  in `Nat` (they are assumed to fit an `int`).
* The locks and the condition variable are not represented: the data loop is
  modelled as the sequence of its iterations that read a packet.
* The host callback is an external function.  Each invocation is recorded as
  a `CallbackCall`; the values the host gives back (for the two causes whose
  result is used) are taken, in order, from a list of `HostAnswer`.
* A `float` is represented by the rational number that is its value.  The
  float operations of the efficiency estimate (conversion of a `uint32_t`,
  division) round to the nearest float of 24 significant bits, ties to even;
  the `uint32_t` sums that feed them are taken modulo `2 ^ 32`.
-/

namespace ARStream

/-! ## Network headers (`ARSTREAMING_NetworkHeaders.h`) -/

/-- Modelled from the spec: the compile-time constants of
`ARSTREAMING_NetworkHeaders.h`, a header that is used by the reader but is not
among the sources.  `FRAGMENT_SIZE` is the maximum payload of a fragment,
`FLAG_FLUSH_FRAME` is the mask of the flush bit of `frameFlags`. -/
structure NetworkHeaders where
  FRAGMENT_SIZE : Nat
  FLAG_FLUSH_FRAME : Nat
deriving DecidableEq, Repr

/-- Modelled from the spec: the fragment header `ARSTREAMING_NetworkHeaders_DataHeader_t`
(its declaration is in the missing header): a 16-bit frame number and three
8-bit fields. -/
structure ARSTREAMING_NetworkHeaders_DataHeader_t where
  frameNumber : Nat
  fragmentNumber : Nat
  fragmentsPerFrame : Nat
  frameFlags : Nat
deriving DecidableEq, Repr

/-- Modelled from the spec: the acknowledge packet
`ARSTREAMING_NetworkHeaders_AckPacket_t` (declared in the missing header): a
16-bit frame number and a 128-bit bitmap kept as two 64-bit halves. -/
structure ARSTREAMING_NetworkHeaders_AckPacket_t where
  frameNumber : Nat
  highPacketsAck : Nat
  lowPacketsAck : Nat
deriving DecidableEq, Repr

/-- Modelled from the spec: `IsSet(i)` of the missing `ARSTREAMING_NetworkHeaders.c`:
the bit for fragment `i` is bit `i mod 64` of the half selected by `i / 64`. -/
def ARSTREAMING_NetworkHeaders_AckPacketFlagIsSet
    (packet : ARSTREAMING_NetworkHeaders_AckPacket_t) (flag : Nat) : Bool :=
  if flag < 64 then packet.lowPacketsAck.testBit flag
  else if flag < 128 then packet.highPacketsAck.testBit (flag - 64)
  else false

/-- Modelled from the spec: `Set(i)` of the missing `ARSTREAMING_NetworkHeaders.c`:
set bit `i` (`0 ≤ i < 128`); other indices leave the packet as it is. -/
def ARSTREAMING_NetworkHeaders_AckPacketSetFlag
    (packet : ARSTREAMING_NetworkHeaders_AckPacket_t) (flag : Nat) :
    ARSTREAMING_NetworkHeaders_AckPacket_t :=
  if flag < 64 then { packet with lowPacketsAck := packet.lowPacketsAck ||| (1 <<< flag) }
  else if flag < 128 then
    { packet with highPacketsAck := packet.highPacketsAck ||| (1 <<< (flag - 64)) }
  else packet

/-- Modelled from the spec: `Reset()` of the missing `ARSTREAMING_NetworkHeaders.c`:
clear all bits (the frame number is kept). -/
def ARSTREAMING_NetworkHeaders_AckPacketReset
    (packet : ARSTREAMING_NetworkHeaders_AckPacket_t) :
    ARSTREAMING_NetworkHeaders_AckPacket_t :=
  { packet with highPacketsAck := 0, lowPacketsAck := 0 }

/-- Modelled from the spec: `AllSet(k)` of the missing `ARSTREAMING_NetworkHeaders.c`:
true iff bits `0..k-1` are all 1. -/
def ARSTREAMING_NetworkHeaders_AckPacketAllFlagsSet
    (packet : ARSTREAMING_NetworkHeaders_AckPacket_t) (maxFlag : Nat) : Bool :=
  (List.range maxFlag).all (fun i => ARSTREAMING_NetworkHeaders_AckPacketFlagIsSet packet i)

/-! ## Reader state -/

/-- Number of frames of the efficiency window. -/
def ARSTREAMING_READER_EFFICIENCY_AVERAGE_NB_FRAMES : Nat := 15

/-- Largest value of a `uint16_t`. -/
def UINT16_MAX : Nat := 65535

/-- A frame buffer as seen through a `uint8_t *`: its address (`0` is `NULL`)
and the byte stored at each offset. -/
structure FrameBuffer where
  ptr : Nat
  mem : Nat → Nat

/-- The C `memcpy (dst + off, src, n)`: the bytes of `dst` after the copy. -/
def memcpy (dst : Nat → Nat) (off : Nat) (src : Nat → Nat) (n : Nat) : Nat → Nat :=
  fun j => if off ≤ j ∧ j < off + n then src (j - off) else dst j

/-- The bytes of a received payload, read by offset. -/
def payloadBytes (payload : List Nat) : Nat → Nat :=
  fun k => payload.getD k 0

/-- Error codes of the library. -/
inductive eARSTREAMING_ERROR where
  | ARSTREAMING_OK
  | ARSTREAMING_ERROR_BAD_PARAMETERS
  | ARSTREAMING_ERROR_ALLOC
  | ARSTREAMING_ERROR_BUSY
deriving DecidableEq, Repr

/-- Causes given to the host callback. -/
inductive eARSTREAMING_READER_CAUSE where
  | ARSTREAMING_READER_CAUSE_FRAME_COMPLETE
  | ARSTREAMING_READER_CAUSE_FRAME_TOO_SMALL
  | ARSTREAMING_READER_CAUSE_COPY_COMPLETE
  | ARSTREAMING_READER_CAUSE_CANCEL
deriving DecidableEq, Repr

open eARSTREAMING_ERROR eARSTREAMING_READER_CAUSE

/-- The fields of `struct ARSTREAMING_Reader_t` (locks and condition left out). -/
structure ARSTREAMING_Reader_t where
  manager : Nat
  dataBufferID : Int
  ackBufferID : Int
  callback : Nat
  custom : Nat
  currentFrameBufferSize : Nat
  currentFrameSize : Nat
  currentFrameBuffer : FrameBuffer
  ackPacket : ARSTREAMING_NetworkHeaders_AckPacket_t
  threadsShouldStop : Int
  dataThreadStarted : Int
  ackThreadStarted : Int
  efficiency_nbUseful : List Int
  efficiency_nbTotal : List Int
  efficiency_index : Int

/-! ## Construction and deletion -/

/-- What the environment does during `ARSTREAMING_Reader_New`: the block given
by `malloc` (`none` is `NULL`; the block has indeterminate content) and the
return codes of the three lock and condition initialisations. -/
structure NewEnvironment where
  malloc : Option ARSTREAMING_Reader_t
  ackPacketMutexInitRet : Int
  ackSendMutexInitRet : Int
  ackSendCondInitRet : Int

/-- The function `ARSTREAMING_Reader_New`: the returned reader (`none` is `NULL`)
and the error code written through `error`. -/
def ARSTREAMING_Reader_New (manager : Nat) (dataBufferID ackBufferID : Int) (callback : Nat)
    (frameBuffer : FrameBuffer) (frameBufferSize : Nat) (custom : Nat)
    (env : NewEnvironment) : Option ARSTREAMING_Reader_t × eARSTREAMING_ERROR :=
  if manager = 0 ∨ callback = 0 ∨ frameBuffer.ptr = 0 ∨ frameBufferSize = 0 then
    (none, ARSTREAMING_ERROR_BAD_PARAMETERS)
  else
    match env.malloc with
    | none => (none, ARSTREAMING_ERROR_ALLOC)
    | some block =>
      if env.ackPacketMutexInitRet ≠ 0 then (none, ARSTREAMING_ERROR_ALLOC)
      else if env.ackSendMutexInitRet ≠ 0 then (none, ARSTREAMING_ERROR_ALLOC)
      else if env.ackSendCondInitRet ≠ 0 then (none, ARSTREAMING_ERROR_ALLOC)
      else
        (some { block with
                  manager := manager
                  dataBufferID := dataBufferID
                  ackBufferID := ackBufferID
                  callback := callback
                  custom := custom
                  currentFrameBufferSize := frameBufferSize
                  currentFrameBuffer := frameBuffer
                  currentFrameSize := 0
                  threadsShouldStop := 0
                  dataThreadStarted := 0
                  ackThreadStarted := 0
                  efficiency_index := 0
                  efficiency_nbTotal :=
                    List.replicate ARSTREAMING_READER_EFFICIENCY_AVERAGE_NB_FRAMES 0
                  efficiency_nbUseful :=
                    List.replicate ARSTREAMING_READER_EFFICIENCY_AVERAGE_NB_FRAMES 0 },
         ARSTREAMING_OK)

/-- The function `ARSTREAMING_Reader_StopReader`. -/
def ARSTREAMING_Reader_StopReader (reader : Option ARSTREAMING_Reader_t) :
    Option ARSTREAMING_Reader_t :=
  match reader with
  | none => none
  | some r => some { r with threadsShouldStop := 1 }

/-- The function `ARSTREAMING_Reader_Delete`.  The argument is the
`ARSTREAMING_Reader_t **`: `none` is a null handle, `some none` a handle to
`NULL`.  The result is the return value and the handle after the call. -/
def ARSTREAMING_Reader_Delete (reader : Option (Option ARSTREAMING_Reader_t)) :
    eARSTREAMING_ERROR × Option (Option ARSTREAMING_Reader_t) :=
  match reader with
  | some (some r) =>
    let canDelete : Int := if r.dataThreadStarted = 0 ∧ r.ackThreadStarted = 0 then 1 else 0
    if canDelete = 1 then (ARSTREAMING_OK, some none)
    else (ARSTREAMING_ERROR_BUSY, some (some r))
  | other => (ARSTREAMING_ERROR_BAD_PARAMETERS, other)

/-! ## The data loop -/

/-- A packet read from the network: the header and the payload bytes that
follow it (`recvSize` is the header size plus the payload length). -/
structure Packet where
  header : ARSTREAMING_NetworkHeaders_DataHeader_t
  payload : List Nat
deriving DecidableEq, Repr

/-- One invocation of the host callback: the arguments passed. -/
structure CallbackCall where
  cause : eARSTREAMING_READER_CAUSE
  framePointer : FrameBuffer
  frameSize : Nat
  numberOfSkippedFrames : Int
  isFlushFrame : Int

/-- What the host gives back from a callback invocation: the returned buffer
and the value it stores through `newBufferCapacity` (`none` when it stores
nothing). -/
structure HostAnswer where
  buffer : FrameBuffer
  newBufferCapacity : Option Nat

/-- The reader together with the local variables of
`ARSTREAMING_Reader_RunDataThread` that live across iterations. -/
structure DataThread where
  reader : ARSTREAMING_Reader_t
  previousFNum : Nat
  skipCurrentFrame : Int

/-- Entry of `ARSTREAMING_Reader_RunDataThread`, up to the loop. -/
def dataThreadStart (reader : ARSTREAMING_Reader_t) : DataThread :=
  { reader := { reader with dataThreadStarted := 1 }
    previousFNum := UINT16_MAX
    skipCurrentFrame := 0 }

/-- New-frame detection of the data loop (the `if` on the frame number). -/
def newFrameDetection (s : DataThread) (header : ARSTREAMING_NetworkHeaders_DataHeader_t) :
    DataThread :=
  if header.frameNumber ≠ s.reader.ackPacket.frameNumber then
    let idx : Int :=
      Int.tmod (s.reader.efficiency_index + 1) ARSTREAMING_READER_EFFICIENCY_AVERAGE_NB_FRAMES
    { s with
        skipCurrentFrame := 0
        reader := { s.reader with
          efficiency_index := idx
          efficiency_nbTotal := s.reader.efficiency_nbTotal.set idx.toNat 0
          efficiency_nbUseful := s.reader.efficiency_nbUseful.set idx.toNat 0
          currentFrameSize := 0
          ackPacket := ARSTREAMING_NetworkHeaders_AckPacketReset
            { s.reader.ackPacket with frameNumber := header.frameNumber } } }
  else s

/-- Acknowledge bookkeeping of the data loop: test and set the flag of the
fragment, count it.  Returns the new reader and `packetWasAlreadyAck`. -/
def ackFragment (r : ARSTREAMING_Reader_t) (header : ARSTREAMING_NetworkHeaders_DataHeader_t) :
    ARSTREAMING_Reader_t × Bool :=
  let packetWasAlreadyAck :=
    ARSTREAMING_NetworkHeaders_AckPacketFlagIsSet r.ackPacket header.fragmentNumber
  let ack := ARSTREAMING_NetworkHeaders_AckPacketSetFlag r.ackPacket header.fragmentNumber
  let idx := r.efficiency_index.toNat
  let total := r.efficiency_nbTotal.set idx (r.efficiency_nbTotal.getD idx 0 + 1)
  let useful :=
    if packetWasAlreadyAck = false then
      r.efficiency_nbUseful.set idx (r.efficiency_nbUseful.getD idx 0 + 1)
    else r.efficiency_nbUseful
  ({ r with ackPacket := ack, efficiency_nbTotal := total, efficiency_nbUseful := useful },
   packetWasAlreadyAck)

/-- The body of the capacity loop: one `FRAME_TOO_SMALL` round with the host.
Returns the new state and the two callback invocations made. -/
def tooSmallRound (s : DataThread) (answer : HostAnswer) : DataThread × List CallbackCall :=
  let r := s.reader
  let nextFrameBufferSize := answer.newBufferCapacity.getD 0
  let tooSmall : CallbackCall :=
    ⟨ARSTREAMING_READER_CAUSE_FRAME_TOO_SMALL, r.currentFrameBuffer, r.currentFrameSize, 0, 0⟩
  let copyComplete : CallbackCall :=
    ⟨ARSTREAMING_READER_CAUSE_COPY_COMPLETE, r.currentFrameBuffer, r.currentFrameSize, 0, 0⟩
  if nextFrameBufferSize ≥ r.currentFrameSize ∧ nextFrameBufferSize > 0 then
    ({ s with reader := { r with
          currentFrameBuffer :=
            { answer.buffer with
                mem := memcpy answer.buffer.mem 0 r.currentFrameBuffer.mem r.currentFrameSize }
          currentFrameBufferSize := nextFrameBufferSize } },
     [tooSmall, copyComplete])
  else
    ({ s with
        skipCurrentFrame := 1
        reader := { r with
          currentFrameBuffer := answer.buffer
          currentFrameBufferSize := nextFrameBufferSize } },
     [tooSmall, copyComplete])

/-- The capacity loop `while (endIndex > cap && skipCurrentFrame == 0)`.  Every
round takes one answer of the host; `none` when the answers run out while the
loop is still asking. -/
def capacityLoop (endIndex : Nat) :
    DataThread → List HostAnswer → Option (DataThread × List CallbackCall × List HostAnswer)
  | s, [] =>
    if endIndex > s.reader.currentFrameBufferSize ∧ s.skipCurrentFrame = 0 then none
    else some (s, [], [])
  | s, answer :: rest =>
    if endIndex > s.reader.currentFrameBufferSize ∧ s.skipCurrentFrame = 0 then
      match capacityLoop endIndex (tooSmallRound s answer).1 rest with
      | none => none
      | some (s1, calls, rest1) => some (s1, (tooSmallRound s answer).2 ++ calls, rest1)
    else some (s, [], answer :: rest)

/-- Copy of the payload and update of the filled size (only run when the
frame is not skipped). -/
def storeFragment (r : ARSTREAMING_Reader_t) (packetWasAlreadyAck : Bool)
    (cpIndex : Nat) (payload : List Nat) : ARSTREAMING_Reader_t :=
  let endIndex := cpIndex + payload.length
  let buffer : FrameBuffer :=
    if packetWasAlreadyAck = false then
      { r.currentFrameBuffer with
          mem := memcpy r.currentFrameBuffer.mem cpIndex (payloadBytes payload) payload.length }
    else r.currentFrameBuffer
  { r with
      currentFrameBuffer := buffer
      currentFrameSize := if endIndex > r.currentFrameSize then endIndex else r.currentFrameSize }

/-- Completion test of the data loop and the `FRAME_COMPLETE` invocation. -/
def reportFrame (cfg : NetworkHeaders) (s : DataThread)
    (header : ARSTREAMING_NetworkHeaders_DataHeader_t) (answers : List HostAnswer) :
    Option (DataThread × List CallbackCall × List HostAnswer) :=
  if ARSTREAMING_NetworkHeaders_AckPacketAllFlagsSet s.reader.ackPacket header.fragmentsPerFrame
      = true ∧ header.frameNumber ≠ s.previousFNum then
    let nbMissedFrame : Int :=
      if (header.frameNumber : Int) ≠ (s.previousFNum : Int) + 1 then
        (header.frameNumber : Int) - (s.previousFNum : Int) - 1
      else 0
    let isFlushFrame : Int :=
      if header.frameFlags &&& cfg.FLAG_FLUSH_FRAME ≠ 0 then 1 else 0
    let call : CallbackCall :=
      ⟨ARSTREAMING_READER_CAUSE_FRAME_COMPLETE, s.reader.currentFrameBuffer,
        s.reader.currentFrameSize, nbMissedFrame, isFlushFrame⟩
    match answers with
    | [] => none
    | answer :: rest =>
      some ({ s with
                previousFNum := header.frameNumber
                reader := { s.reader with
                  currentFrameBuffer := answer.buffer
                  currentFrameBufferSize :=
                    answer.newBufferCapacity.getD s.reader.currentFrameBufferSize } },
            [call], rest)
  else some (s, [], answers)

/-- One iteration of the data loop in which a packet was read. -/
def dataLoopIteration (cfg : NetworkHeaders) (s : DataThread) (packet : Packet)
    (answers : List HostAnswer) : Option (DataThread × List CallbackCall × List HostAnswer) :=
  let header := packet.header
  let s1 := newFrameDetection s header
  let acked := ackFragment s1.reader header
  let packetWasAlreadyAck := acked.2
  let s2 : DataThread := { s1 with reader := acked.1 }
  let cpIndex := cfg.FRAGMENT_SIZE * header.fragmentNumber
  let cpSize := packet.payload.length
  let endIndex := cpIndex + cpSize
  match capacityLoop endIndex s2 answers with
  | none => none
  | some (s3, calls, rest) =>
    if s3.skipCurrentFrame = 0 then
      let s4 : DataThread :=
        { s3 with reader := storeFragment s3.reader packetWasAlreadyAck cpIndex packet.payload }
      match reportFrame cfg s4 header rest with
      | none => none
      | some (s5, calls1, rest1) => some (s5, calls ++ calls1, rest1)
    else some (s3, calls, rest)

/-- The iterations of the data loop over the packets read, in order.  The
trace pairs every callback invocation with the header of the packet that was
being processed. -/
def dataLoop (cfg : NetworkHeaders) :
    DataThread → List Packet → List HostAnswer →
      Option (DataThread × List (ARSTREAMING_NetworkHeaders_DataHeader_t × CallbackCall)
        × List HostAnswer)
  | s, [], answers => some (s, [], answers)
  | s, packet :: packets, answers =>
    match dataLoopIteration cfg s packet answers with
    | none => none
    | some (s1, calls, rest) =>
      match dataLoop cfg s1 packets rest with
      | none => none
      | some (s2, trace, rest1) =>
        some (s2, calls.map (fun c => (packet.header, c)) ++ trace, rest1)

/-- The function `ARSTREAMING_Reader_RunDataThread` on a non-null reader, the
receive buffer being allocated, for the packets read before the stop request
is seen (iterations whose read fails or times out change nothing and are left
out): the reader at exit, the trace of the loop and the final `CANCEL`
invocation. -/
def ARSTREAMING_Reader_RunDataThread (cfg : NetworkHeaders) (reader : ARSTREAMING_Reader_t)
    (packets : List Packet) (answers : List HostAnswer) :
    Option (ARSTREAMING_Reader_t
      × List (ARSTREAMING_NetworkHeaders_DataHeader_t × CallbackCall) × CallbackCall) :=
  match dataLoop cfg (dataThreadStart reader) packets answers with
  | none => none
  | some (s, trace, _) =>
    some ({ s.reader with dataThreadStarted := 0 }, trace,
      ⟨ARSTREAMING_READER_CAUSE_CANCEL, s.reader.currentFrameBuffer,
        s.reader.currentFrameSize, 0, 0⟩)

/-! ## Reading a trace -/

/-- The `FRAME_COMPLETE` invocations of a trace, in order: the frame number of
the packet being processed and the skipped-frame count passed. -/
def completeReports
    (trace : List (ARSTREAMING_NetworkHeaders_DataHeader_t × CallbackCall)) : List (Nat × Int) :=
  (trace.filter
      (fun e => decide (e.2.cause = ARSTREAMING_READER_CAUSE_FRAME_COMPLETE))).map
    (fun e => (e.1.frameNumber, e.2.numberOfSkippedFrames))

/-- What links a report to the one before it: the frame number differs and
the count is the signed difference of the frame numbers, less one. -/
def ReportStep (x y : Nat × Int) : Prop :=
  y.1 ≠ x.1 ∧ y.2 = (y.1 : Int) - (x.1 : Int) - 1

/-- The state of the data loop once the acknowledge bookkeeping of a packet
is done (new-frame detection, flag, counters). -/
def afterAck (s : DataThread) (header : ARSTREAMING_NetworkHeaders_DataHeader_t) : DataThread :=
  { (newFrameDetection s header) with
      reader := (ackFragment (newFrameDetection s header).reader header).1 }

/-- The value of `packetWasAlreadyAck` for a packet. -/
def wasAlreadyAck (s : DataThread) (header : ARSTREAMING_NetworkHeaders_DataHeader_t) : Bool :=
  (ackFragment (newFrameDetection s header).reader header).2

/-- The value of `endIndex` for a packet. -/
def endIndexOf (cfg : NetworkHeaders) (packet : Packet) : Nat :=
  cfg.FRAGMENT_SIZE * packet.header.fragmentNumber + packet.payload.length

/-- The `FRAME_COMPLETE` invocation made for a packet from a state. -/
def completeCall (cfg : NetworkHeaders) (s : DataThread)
    (header : ARSTREAMING_NetworkHeaders_DataHeader_t) : CallbackCall :=
  ⟨ARSTREAMING_READER_CAUSE_FRAME_COMPLETE, s.reader.currentFrameBuffer,
    s.reader.currentFrameSize, (header.frameNumber : Int) - (s.previousFNum : Int) - 1,
    if header.frameFlags &&& cfg.FLAG_FLUSH_FRAME ≠ 0 then 1 else 0⟩

/-! ## Concrete readers, hosts and streams -/

/-- A buffer at address `p`, all bytes 0. -/
def zeroBuffer (p : Nat) : FrameBuffer := ⟨p, fun _ => 0⟩

/-- The host gives back the zeroed buffer at `p` and reports capacity `cap`. -/
def hostGives (p cap : Nat) : HostAnswer := ⟨zeroBuffer p, some cap⟩

/-- Some content of a freshly allocated block. -/
def rawBlock : ARSTREAMING_Reader_t :=
  { manager := 0, dataBufferID := 0, ackBufferID := 0, callback := 0, custom := 0
    currentFrameBufferSize := 0, currentFrameSize := 0, currentFrameBuffer := zeroBuffer 0
    ackPacket := ⟨0, 0, 0⟩
    threadsShouldStop := 0, dataThreadStarted := 0, ackThreadStarted := 0
    efficiency_nbUseful := [], efficiency_nbTotal := [], efficiency_index := 0 }

/-- An environment in which the allocation and the initialisations succeed. -/
def goodEnvironment : NewEnvironment := ⟨some rawBlock, 0, 0, 0⟩

/-- The reader built by `ARSTREAMING_Reader_New` on the buffer at address 100
with capacity `cap`. -/
def newReader (cap : Nat) : ARSTREAMING_Reader_t :=
  (ARSTREAMING_Reader_New 1 125 13 1 (zeroBuffer 100) cap 0 goodEnvironment).1.getD rawBlock

/-- A packet from its header fields and payload. -/
def mkPacket (frameNumber fragmentNumber fragmentsPerFrame frameFlags : Nat)
    (payload : List Nat) : Packet :=
  ⟨⟨frameNumber, fragmentNumber, fragmentsPerFrame, frameFlags⟩, payload⟩

/-- The result of the data loop on a new reader, with a fallback when the
host answers run out. -/
def loopResult (cfg : NetworkHeaders) (cap : Nat) (packets : List Packet)
    (answers : List HostAnswer) :
    DataThread × List (ARSTREAMING_NetworkHeaders_DataHeader_t × CallbackCall)
      × List HostAnswer :=
  (dataLoop cfg (dataThreadStart (newReader cap)) packets answers).getD
    (dataThreadStart (newReader cap), [], [])

/-- Scenario S1: one frame of three fragments, in order. -/
def streamS1 : List Packet :=
  [mkPacket 7 0 3 0 [65, 65, 65], mkPacket 7 1 3 0 [66, 66, 66], mkPacket 7 2 3 0 [67, 67]]

/-- Frames 5, 6 and then 5 again, one fragment each. -/
def streamLate : List Packet :=
  [mkPacket 5 0 1 0 [1], mkPacket 6 0 1 0 [2], mkPacket 5 0 1 0 [3]]

/-- Scenario S6: frame 5, then frame 8, one fragment each. -/
def streamS6 : List Packet :=
  [mkPacket 5 0 1 0 [1], mkPacket 8 0 1 0 [2]]

/-- The state of the data loop after the first fragment of scenario S4
(fragment size 4, capacity 4, four bytes received). -/
def stateS4 : DataThread :=
  (loopResult ⟨4, 1⟩ 4 [mkPacket 9 0 2 1 [65, 66, 67, 68]] []).1

/-- The result of one iteration, with a fallback when the host answers run
out. -/
def iterationResult (cfg : NetworkHeaders) (s : DataThread) (packet : Packet)
    (answers : List HostAnswer) : DataThread × List CallbackCall × List HostAnswer :=
  (dataLoopIteration cfg s packet answers).getD (s, [], [])

/-- The state of scenario S5 after the host answered `FRAME_TOO_SMALL` with
capacity 3. -/
def stateS5 : DataThread :=
  (iterationResult ⟨4, 1⟩ stateS4 (mkPacket 9 1 2 1 [69, 70, 71, 72]) [hostGives 200 3]).1

/-- Scenario S3: a frame of two fragments, the first one received twice. -/
def streamS3 : List Packet :=
  [mkPacket 7 0 2 0 [88, 88], mkPacket 7 0 2 0 [89, 89], mkPacket 7 1 2 0 [90, 90]]

/-- The state of scenario S3 after the first fragment. -/
def stateS3 : DataThread :=
  (loopResult ⟨2, 1⟩ 9 [mkPacket 7 0 2 0 [88, 88]] []).1

/-! ## Reassembly of one frame: what is kept true along the way -/

/-- The first-received packet of a stream that carries fragment `i`. -/
def firstFragment (packets : List Packet) (i : Nat) : Option Packet :=
  packets.find? (fun p => decide (p.header.fragmentNumber = i))

/-- The payload of packet `p`, taken as fragment `i`, is in the frame buffer of
the reader: it lies below the filled size, at offset `FRAGMENT_SIZE * i`. -/
def Stored (cfg : NetworkHeaders) (r : ARSTREAMING_Reader_t) (i : Nat) (p : Packet) : Prop :=
  p.payload.length ≤ cfg.FRAGMENT_SIZE ∧
  cfg.FRAGMENT_SIZE * i + p.payload.length ≤ r.currentFrameSize ∧
  ∀ j, j < p.payload.length →
    r.currentFrameBuffer.mem (cfg.FRAGMENT_SIZE * i + j) = payloadBytes p.payload j

/-- The state of the data loop while frame `f` is reassembled, the packets
`seen` having been processed: the acknowledge packet is for `f`, its bits are
the fragment numbers seen and, as long as the frame is neither skipped nor
reported, the first packet seen of every fragment is stored. -/
def Reassembling (cfg : NetworkHeaders) (f : Nat) (s : DataThread) (seen : List Packet) : Prop :=
  s.reader.ackPacket.frameNumber = f ∧
  (∀ k, ARSTREAMING_NetworkHeaders_AckPacketFlagIsSet s.reader.ackPacket k = true ↔
    (firstFragment seen k).isSome = true) ∧
  (s.skipCurrentFrame = 0 → s.previousFNum ≠ f →
    ∀ k q, firstFragment seen k = some q → Stored cfg s.reader k q)

/-- A packet of the frame `f` of `F` fragments. -/
def FragmentOf (cfg : NetworkHeaders) (f F : Nat) (p : Packet) : Prop :=
  p.header.frameNumber = f ∧ p.header.fragmentsPerFrame = F ∧
  p.header.fragmentNumber < F ∧ p.payload.length ≤ cfg.FRAGMENT_SIZE

instance (cfg : NetworkHeaders) (f F : Nat) (p : Packet) : Decidable (FragmentOf cfg f F p) := by
  unfold FragmentOf
  infer_instance

/-- Scenario S2: the fragments of scenario S1 in the order 2, 0, 1. -/
def streamS2 : List Packet :=
  [mkPacket 7 2 3 0 [67, 67], mkPacket 7 0 3 0 [65, 65, 65], mkPacket 7 1 3 0 [66, 66, 66]]

/-! ## Efficiency estimate -/

/-- The number of values of a `uint32_t`. -/
def UINT32_MODULUS : Nat := 4294967296

/-- The C statement `acc += x` for a `uint32_t acc` and an `int x`: `x` is
converted to `uint32_t` and the sum is reduced modulo `2 ^ 32`. -/
def addToUInt32 (acc : Nat) (x : Int) : Nat :=
  (((acc : Int) + x) % (UINT32_MODULUS : Int)).toNat

/-- The summing loop of `ARSTREAMING_Reader_GetEstimatedEfficiency`: the values of
`totalPackets` and `usefulPackets` after the fifteen rounds. -/
def efficiencySums (reader : ARSTREAMING_Reader_t) : Nat × Nat :=
  (List.range ARSTREAMING_READER_EFFICIENCY_AVERAGE_NB_FRAMES).foldl
    (fun acc i =>
      (addToUInt32 acc.1 (reader.efficiency_nbTotal.getD i 0),
       addToUInt32 acc.2 (reader.efficiency_nbUseful.getD i 0)))
    (0, 0)

/-- The integer nearest to `num / den`; when two integers are equally near,
the even one (the rounding of the float operations: to nearest, ties to
even). -/
def roundHalfEven (num den : Nat) : Nat :=
  if 2 * (num % den) < den then num / den
  else if 2 * (num % den) > den then num / den + 1
  else if (num / den) % 2 = 0 then num / den else num / den + 1

/-- The number of low bits that a natural number has beyond 24 significant
bits: 0 below `2 ^ 24`, and `k` when `2 ^ (k + 23) ≤ n < 2 ^ (k + 24)`
(for `k` up to the first argument). -/
def excessBits : Nat → Nat → Nat
  | 0, _ => 0
  | fuel + 1, n => if n < 16777216 then 0 else excessBits fuel (n / 2) + 1

/-- The conversion of a `uint32_t` (`n < 2 ^ 32`) to `float`: the value of the
float (binary32, 24 significant bits) nearest to `n`, ties to even.  Values
below `2 ^ 24` are kept; a value with `2 ^ (k + 23) ≤ n < 2 ^ (k + 24)` goes to
the nearest multiple of `2 ^ k`.  The value of the float is an integer. -/
def uint32ToFloat (n : Nat) : Nat :=
  roundHalfEven n (2 ^ excessBits 8 n) * 2 ^ excessBits 8 n

/-- The least `s` (up to the third argument) with `b ≤ a * 2 ^ s`: the
quotient `a / b` lies in `[2 ^ (-s), 2 ^ (1 - s))`. -/
def floatDivShift (a b : Nat) : Nat → Nat
  | 0 => 0
  | fuel + 1 => if b ≤ a then 0 else floatDivShift (2 * a) b fuel + 1

/-- The division of the floats of (integer) values `a` and `b`, for
`0 ≤ a ≤ b`, `0 < b` and both at most `2 ^ 32`: the value of the float
nearest to `a / b`, ties to even.  With `2 ^ (-s) ≤ a / b < 2 ^ (1 - s)` the
floats are spaced by `2 ^ (-s - 23)`; in this range a quotient other than 0 is
at least `2 ^ (-32)`, so the result is a normal float. -/
def floatDiv (a b : Nat) : ℚ :=
  if a = 0 then 0
  else
    (roundHalfEven (a * 2 ^ (floatDivShift a b 32 + 23)) b : ℚ) /
      (2 ^ (floatDivShift a b 32 + 23) : ℚ)

/-- The function `ARSTREAMING_Reader_GetEstimatedEfficiency`: the value of the
`float` returned and the reader after the call.  In the last branch both
counts are converted to `float` (the products by `1.f` are exact) and the
two floats are divided. -/
def ARSTREAMING_Reader_GetEstimatedEfficiency (reader : ARSTREAMING_Reader_t) :
    ℚ × ARSTREAMING_Reader_t :=
  let totalPackets := (efficiencySums reader).1
  let usefulPackets := (efficiencySums reader).2
  let retVal : ℚ :=
    if totalPackets = 0 then 0
    else if usefulPackets > totalPackets then 1
    else floatDiv (1 * uint32ToFloat usefulPackets) (1 * uint32ToFloat totalPackets)
  (retVal, reader)

/-- The sum of the fifteen slots of an efficiency array, as an integer. -/
def slotSum (a : List Int) : Int :=
  ((List.range ARSTREAMING_READER_EFFICIENCY_AVERAGE_NB_FRAMES).map (fun i => a.getD i 0)).sum

/-- A reader whose `nbTotal` slots add up to `2 ^ 32`: three frames of one
fragment each, received 2147483647 times, 2147483647 times and twice. -/
def wrappingReader : ARSTREAMING_Reader_t :=
  { rawBlock with
      efficiency_nbTotal := [2147483647, 2147483647, 2, 0, 0, 0, 0, 0, 0, 0, 0, 0, 0, 0, 0]
      efficiency_nbUseful := [1, 1, 1, 0, 0, 0, 0, 0, 0, 0, 0, 0, 0, 0, 0] }

/-- A reader with 16777217 fragments counted, 16777216 of them useful. -/
def largeCountReader : ARSTREAMING_Reader_t :=
  { rawBlock with
      efficiency_nbTotal := [16777217, 0, 0, 0, 0, 0, 0, 0, 0, 0, 0, 0, 0, 0, 0]
      efficiency_nbUseful := [16777216, 0, 0, 0, 0, 0, 0, 0, 0, 0, 0, 0, 0, 0, 0] }

/-- The efficiency counters of a reader are well formed: both arrays have
their fifteen slots, in every slot `0 ≤ nbUseful[i] ≤ nbTotal[i]`, and the
index is in `[0, 15)`. -/
def EfficiencyInvariant (r : ARSTREAMING_Reader_t) : Prop :=
  r.efficiency_nbUseful.length = 15 ∧ r.efficiency_nbTotal.length = 15 ∧
  (∀ i, i < 15 →
    0 ≤ r.efficiency_nbUseful.getD i 0 ∧
    r.efficiency_nbUseful.getD i 0 ≤ r.efficiency_nbTotal.getD i 0) ∧
  0 ≤ r.efficiency_index ∧ r.efficiency_index < 15

/-- The reader at the end of scenario S3 (three fragments counted, two of
them useful). -/
def readerS3 : ARSTREAMING_Reader_t :=
  (loopResult ⟨2, 1⟩ 9 streamS3 [hostGives 200 9]).1.reader

/-! ## Counting the fragments of one frame -/

/-- The number of distinct fragment numbers carried by the packets. -/
def distinctFragments (packets : List Packet) : Nat :=
  (packets.map (fun p => p.header.fragmentNumber)).dedup.length

/-- The number of bits set among the positions `[0, F)` of the bitmap. -/
def bitCount (packet : ARSTREAMING_NetworkHeaders_AckPacket_t) (F : Nat) : Nat :=
  ((List.range F).filter
    (fun i => ARSTREAMING_NetworkHeaders_AckPacketFlagIsSet packet i)).length

/-- The bookkeeping of the reader while frame `f` is received, the packets
`seen` having been processed: the acknowledge packet is for `f`, its bits
are the fragment numbers seen, `nbUseful[idx]` counts the distinct fragment
numbers and `nbTotal[idx]` the packets. -/
def Counting (f : Nat) (r : ARSTREAMING_Reader_t) (seen : List Packet) : Prop :=
  r.ackPacket.frameNumber = f ∧
  (∀ k, ARSTREAMING_NetworkHeaders_AckPacketFlagIsSet r.ackPacket k = true ↔
    (firstFragment seen k).isSome = true) ∧
  r.efficiency_index.toNat < r.efficiency_nbUseful.length ∧
  r.efficiency_index.toNat < r.efficiency_nbTotal.length ∧
  r.efficiency_nbUseful.getD r.efficiency_index.toNat 0 = (distinctFragments seen : Int) ∧
  r.efficiency_nbTotal.getD r.efficiency_index.toNat 0 = (seen.length : Int)

/-- The acknowledge packet while frame `f` is received, the packets `seen`
having been processed: it is for `f` and its bits are the fragment numbers
seen. -/
def Marking (f : Nat) (r : ARSTREAMING_Reader_t) (seen : List Packet) : Prop :=
  r.ackPacket.frameNumber = f ∧
  ∀ k, ARSTREAMING_NetworkHeaders_AckPacketFlagIsSet r.ackPacket k = true ↔
    (firstFragment seen k).isSome = true

/-- The state of the data loop after frame 5, of one fragment, was received
and reported. -/
def stateFrame5 : DataThread :=
  (loopResult ⟨3, 1⟩ 9 [mkPacket 5 0 1 0 [1]] [hostGives 200 9]).1

/-- A stream of one frame with a duplicate: fragments 2, 0, 2, 1 of frame 7. -/
def streamDuplicate : List Packet :=
  [mkPacket 7 2 3 0 [67, 67], mkPacket 7 0 3 0 [65, 65, 65], mkPacket 7 2 3 0 [68, 68],
   mkPacket 7 1 3 0 [66, 66, 66]]

/-! ## Filled size and stored fragments while a frame is being received -/

/-- The largest end offset `FRAGMENT_SIZE * fragmentNumber + payloadLength` among
the packets (0 when there is none). -/
def maxEndOffset (cfg : NetworkHeaders) (packets : List Packet) : Nat :=
  (packets.map (endIndexOf cfg)).foldr max 0

/-- The filled size while frame `f` is received, the packets `seen` having
been processed: as long as the frame is not skipped, the size is within the
capacity and is the largest end offset seen. -/
def Filling (cfg : NetworkHeaders) (f : Nat) (s : DataThread) (seen : List Packet) : Prop :=
  s.reader.ackPacket.frameNumber = f ∧
  (s.skipCurrentFrame = 0 →
    s.reader.currentFrameSize ≤ s.reader.currentFrameBufferSize ∧
    s.reader.currentFrameSize = maxEndOffset cfg seen)

/-- The filled size while frame `f` is received, the packets `seen` having
been processed: as long as the frame is not skipped, the size is the largest
end offset seen. -/
def Sizing (cfg : NetworkHeaders) (f : Nat) (s : DataThread) (seen : List Packet) : Prop :=
  s.reader.ackPacket.frameNumber = f ∧
  (s.skipCurrentFrame = 0 → s.reader.currentFrameSize = maxEndOffset cfg seen)

/-- The buffer while frame `f` is received, the packets `seen` having been
processed: the bits are the fragment numbers seen and, as long as the frame
is not skipped, the first packet seen of every fragment is stored. -/
def Holding (cfg : NetworkHeaders) (f : Nat) (s : DataThread) (seen : List Packet) : Prop :=
  s.reader.ackPacket.frameNumber = f ∧
  (∀ k, ARSTREAMING_NetworkHeaders_AckPacketFlagIsSet s.reader.ackPacket k = true ↔
    (firstFragment seen k).isSome = true) ∧
  (s.skipCurrentFrame = 0 → ∀ k q, firstFragment seen k = some q → Stored cfg s.reader k q)

/-- The two fragments of scenario S4. -/
def streamS4 : List Packet :=
  [mkPacket 9 0 2 1 [65, 66, 67, 68], mkPacket 9 1 2 1 [69, 70, 71, 72]]

/-! ## The copies made by an iteration -/

/-- One `memcpy` made by the data loop: the capacity of the destination buffer
(`currentFrameBufferSize` for the frame buffer, the capacity reported by the
host for a replacement buffer), the offset written at and the number of
bytes. -/
structure CopyRecord where
  capacity : Nat
  offset : Nat
  length : Nat
deriving DecidableEq, Repr

/-- The `memcpy` of one round of the capacity loop: the already-received bytes
go to the start of the replacement buffer when the host reported a capacity
that is at least the filled size and is not 0. -/
def tooSmallRoundCopies (s : DataThread) (answer : HostAnswer) : List CopyRecord :=
  if answer.newBufferCapacity.getD 0 ≥ s.reader.currentFrameSize ∧
      answer.newBufferCapacity.getD 0 > 0 then
    [⟨answer.newBufferCapacity.getD 0, 0, s.reader.currentFrameSize⟩]
  else []

/-- The copies made by the capacity loop, round after round, for as long as
the host answers are given. -/
def capacityLoopCopies (endIndex : Nat) : DataThread → List HostAnswer → List CopyRecord
  | _, [] => []
  | s, answer :: rest =>
    if endIndex > s.reader.currentFrameBufferSize ∧ s.skipCurrentFrame = 0 then
      tooSmallRoundCopies s answer ++
        capacityLoopCopies endIndex (tooSmallRound s answer).1 rest
    else []

/-- The copies made by one iteration of the data loop: those of the capacity
loop, then the copy of the payload into the frame buffer when the frame is
not skipped and the fragment was not acknowledged before. -/
def iterationCopies (cfg : NetworkHeaders) (s : DataThread) (packet : Packet)
    (answers : List HostAnswer) : List CopyRecord :=
  capacityLoopCopies (endIndexOf cfg packet) (afterAck s packet.header) answers ++
    match capacityLoop (endIndexOf cfg packet) (afterAck s packet.header) answers with
    | none => []
    | some (s3, _, _) =>
      if s3.skipCurrentFrame = 0 ∧ wasAlreadyAck s packet.header = false then
        [⟨s3.reader.currentFrameBufferSize,
          cfg.FRAGMENT_SIZE * packet.header.fragmentNumber, packet.payload.length⟩]
      else []

/-! ## Construction and deletion: results -/

/-- C9: `ARSTREAMING_Reader_New` returns no reader and reports `BAD_PARAMETERS`
exactly when the manager, the callback or the initial buffer is null or the
initial capacity is 0; for all other arguments, when the allocation and the
three initialisations succeed, it returns a reader and reports `OK`, with the
supplied buffer and capacity, size 0, the three thread flags 0, index 0 and
fifteen zero slots in both efficiency arrays. -/
theorem ARSTREAMING_Reader_New_result (manager : Nat) (dataBufferID ackBufferID : Int)
    (callback : Nat) (frameBuffer : FrameBuffer) (frameBufferSize : Nat) (custom : Nat)
    (env : NewEnvironment) :
    (((ARSTREAMING_Reader_New manager dataBufferID ackBufferID callback frameBuffer
          frameBufferSize custom env).1 = none ∧
        (ARSTREAMING_Reader_New manager dataBufferID ackBufferID callback frameBuffer
          frameBufferSize custom env).2 = ARSTREAMING_ERROR_BAD_PARAMETERS) ↔
      (manager = 0 ∨ callback = 0 ∨ frameBuffer.ptr = 0 ∨ frameBufferSize = 0)) ∧
    (¬ (manager = 0 ∨ callback = 0 ∨ frameBuffer.ptr = 0 ∨ frameBufferSize = 0) →
      ∀ block, env.malloc = some block → env.ackPacketMutexInitRet = 0 →
        env.ackSendMutexInitRet = 0 → env.ackSendCondInitRet = 0 →
        ∃ r, ARSTREAMING_Reader_New manager dataBufferID ackBufferID callback frameBuffer
              frameBufferSize custom env = (some r, ARSTREAMING_OK) ∧
          r.currentFrameBuffer = frameBuffer ∧
          r.currentFrameBufferSize = frameBufferSize ∧
          r.currentFrameSize = 0 ∧
          r.threadsShouldStop = 0 ∧ r.dataThreadStarted = 0 ∧ r.ackThreadStarted = 0 ∧
          r.efficiency_index = 0 ∧
          r.efficiency_nbUseful = List.replicate 15 0 ∧
          r.efficiency_nbTotal = List.replicate 15 0) := by
  constructor
  · constructor
    · intro h
      by_contra hbad
      have h2 := h.2
      unfold ARSTREAMING_Reader_New at h2
      rw [if_neg hbad] at h2
      split at h2
      · simp at h2
      · split_ifs at h2
    · intro hbad
      simp [ARSTREAMING_Reader_New, hbad]
  · intro hgood block hm h1 h2 h3
    simp [ARSTREAMING_Reader_New, hgood, hm, h1, h2, h3,
      ARSTREAMING_READER_EFFICIENCY_AVERAGE_NB_FRAMES]

/-- C10: on a non-null reader `ARSTREAMING_Reader_Delete` returns `OK` and nulls
the handle exactly when `dataThreadStarted` and `ackThreadStarted` are both 0,
and otherwise returns `BUSY` and leaves the handle and the reader as they
were; on a null handle or a handle to null it returns `BAD_PARAMETERS`. -/
theorem ARSTREAMING_Reader_Delete_result :
    (∀ r : ARSTREAMING_Reader_t,
      (((ARSTREAMING_Reader_Delete (some (some r))).1 = ARSTREAMING_OK ↔
          (r.dataThreadStarted = 0 ∧ r.ackThreadStarted = 0)) ∧
        ((r.dataThreadStarted = 0 ∧ r.ackThreadStarted = 0) →
          ARSTREAMING_Reader_Delete (some (some r)) = (ARSTREAMING_OK, some none)) ∧
        (¬ (r.dataThreadStarted = 0 ∧ r.ackThreadStarted = 0) →
          ARSTREAMING_Reader_Delete (some (some r)) =
            (ARSTREAMING_ERROR_BUSY, some (some r))))) ∧
    ARSTREAMING_Reader_Delete none = (ARSTREAMING_ERROR_BAD_PARAMETERS, none) ∧
    ARSTREAMING_Reader_Delete (some none) = (ARSTREAMING_ERROR_BAD_PARAMETERS, some none) := by
  refine ⟨fun r => ?_, rfl, rfl⟩
  by_cases h : r.dataThreadStarted = 0 ∧ r.ackThreadStarted = 0
  · simp [ARSTREAMING_Reader_Delete, h]
  · simp [ARSTREAMING_Reader_Delete, h]

theorem ARSTREAMING_Reader_New_result_witness :
    ∃ r, ARSTREAMING_Reader_New 1 125 13 1 (zeroBuffer 100) 4 0 goodEnvironment
          = (some r, ARSTREAMING_OK) ∧
      r.currentFrameBuffer = zeroBuffer 100 ∧
      r.currentFrameBufferSize = 4 ∧
      r.currentFrameSize = 0 ∧
      r.threadsShouldStop = 0 ∧ r.dataThreadStarted = 0 ∧ r.ackThreadStarted = 0 ∧
      r.efficiency_index = 0 ∧
      r.efficiency_nbUseful = List.replicate 15 0 ∧
      r.efficiency_nbTotal = List.replicate 15 0 :=
  (ARSTREAMING_Reader_New_result 1 125 13 1 (zeroBuffer 100) 4 0 goodEnvironment).2
    (by decide) rawBlock rfl rfl rfl rfl

theorem ARSTREAMING_Reader_Delete_result_witness :
    ARSTREAMING_Reader_Delete (some (some (newReader 4))) = (ARSTREAMING_OK, some none) ∧
    ARSTREAMING_Reader_Delete (some (some (dataThreadStart (newReader 4)).reader)) =
      (ARSTREAMING_ERROR_BUSY, some (some (dataThreadStart (newReader 4)).reader)) :=
  ⟨(ARSTREAMING_Reader_Delete_result.1 (newReader 4)).2.1 (by decide),
   (ARSTREAMING_Reader_Delete_result.1 (dataThreadStart (newReader 4)).reader).2.2 (by decide)⟩

/-! ## The capacity loop -/

theorem capacityLoop_of_skip (e : Nat) (s : DataThread) (answers : List HostAnswer)
    (h : s.skipCurrentFrame ≠ 0) : capacityLoop e s answers = some (s, [], answers) := by
  cases answers <;> simp [capacityLoop, h]

theorem capacityLoop_of_fits (e : Nat) (s : DataThread) (answers : List HostAnswer)
    (h : e ≤ s.reader.currentFrameBufferSize) :
    capacityLoop e s answers = some (s, [], answers) := by
  have h1 : ¬ (e > s.reader.currentFrameBufferSize) := by omega
  cases answers <;> simp [capacityLoop, h1]

theorem capacityLoop_round (e : Nat) (s : DataThread) (answer : HostAnswer)
    (rest : List HostAnswer)
    (h : e > s.reader.currentFrameBufferSize ∧ s.skipCurrentFrame = 0) :
    capacityLoop e s (answer :: rest) =
      match capacityLoop e (tooSmallRound s answer).1 rest with
      | none => none
      | some (s1, calls, rest1) => some (s1, (tooSmallRound s answer).2 ++ calls, rest1) := by
  simp only [capacityLoop, if_pos h]

theorem tooSmallRound_calls (s : DataThread) (answer : HostAnswer) :
    (tooSmallRound s answer).2 =
      [⟨ARSTREAMING_READER_CAUSE_FRAME_TOO_SMALL, s.reader.currentFrameBuffer,
          s.reader.currentFrameSize, 0, 0⟩,
       ⟨ARSTREAMING_READER_CAUSE_COPY_COMPLETE, s.reader.currentFrameBuffer,
          s.reader.currentFrameSize, 0, 0⟩] := by
  unfold tooSmallRound
  simp only []
  split_ifs <;> rfl

theorem tooSmallRound_frame (s : DataThread) (answer : HostAnswer) :
    (tooSmallRound s answer).1 =
      { s with
          skipCurrentFrame := (tooSmallRound s answer).1.skipCurrentFrame
          reader := { s.reader with
            currentFrameBuffer := (tooSmallRound s answer).1.reader.currentFrameBuffer
            currentFrameBufferSize := (tooSmallRound s answer).1.reader.currentFrameBufferSize } } := by
  unfold tooSmallRound
  simp only []
  split_ifs <;> rfl

/-- The capacity loop touches only the skip mark, the buffer and its capacity,
and it invokes the callback only for `FRAME_TOO_SMALL` and `COPY_COMPLETE`. -/
theorem capacityLoop_frame (e : Nat) :
    ∀ (answers : List HostAnswer) (s s1 : DataThread) (calls : List CallbackCall)
      (rest : List HostAnswer),
      capacityLoop e s answers = some (s1, calls, rest) →
      s1 = { s with
              skipCurrentFrame := s1.skipCurrentFrame
              reader := { s.reader with
                currentFrameBuffer := s1.reader.currentFrameBuffer
                currentFrameBufferSize := s1.reader.currentFrameBufferSize } } ∧
      (∀ c ∈ calls, c.cause ≠ ARSTREAMING_READER_CAUSE_FRAME_COMPLETE) := by
  intro answers
  induction answers with
  | nil =>
    intro s s1 calls rest h
    simp only [capacityLoop] at h
    split_ifs at h
    simp only [Option.some.injEq, Prod.mk.injEq] at h
    obtain ⟨rfl, rfl, rfl⟩ := h
    simp
  | cons a as ih =>
    intro s s1 calls rest h
    simp only [capacityLoop] at h
    split_ifs at h with hg
    · cases hrec : capacityLoop e (tooSmallRound s a).1 as with
      | none => simp [hrec] at h
      | some res =>
        obtain ⟨s2, calls2, rest2⟩ := res
        simp only [hrec, Option.some.injEq, Prod.mk.injEq] at h
        obtain ⟨rfl, rfl, rfl⟩ := h
        obtain ⟨hs, hc⟩ := ih _ _ _ _ hrec
        constructor
        · rw [hs, tooSmallRound_frame]
        · intro c hcm
          rw [List.mem_append, tooSmallRound_calls] at hcm
          rcases hcm with hcm | hcm
          · simp at hcm
            rcases hcm with rfl | rfl <;> simp
          · exact hc c hcm
    · simp only [Option.some.injEq, Prod.mk.injEq] at h
      obtain ⟨rfl, rfl, rfl⟩ := h
      simp

/-! ## One iteration, phase by phase -/

theorem dataLoopIteration_eq (cfg : NetworkHeaders) (s : DataThread) (packet : Packet)
    (answers : List HostAnswer) :
    dataLoopIteration cfg s packet answers =
      match capacityLoop (endIndexOf cfg packet) (afterAck s packet.header) answers with
      | none => none
      | some (s3, calls, rest) =>
        if s3.skipCurrentFrame = 0 then
          match reportFrame cfg
              { s3 with reader := (storeFragment s3.reader (wasAlreadyAck s packet.header)
                  (cfg.FRAGMENT_SIZE * packet.header.fragmentNumber) packet.payload) }
              packet.header rest with
          | none => none
          | some (s5, calls1, rest1) => some (s5, calls ++ calls1, rest1)
        else some (s3, calls, rest) := rfl

/-- The two outcomes of the completion test. -/
theorem reportFrame_cases (cfg : NetworkHeaders) (s s1 : DataThread)
    (header : ARSTREAMING_NetworkHeaders_DataHeader_t) (answers rest : List HostAnswer)
    (calls : List CallbackCall) (h : reportFrame cfg s header answers = some (s1, calls, rest)) :
    (¬ (ARSTREAMING_NetworkHeaders_AckPacketAllFlagsSet s.reader.ackPacket
          header.fragmentsPerFrame = true ∧ header.frameNumber ≠ s.previousFNum) ∧
      s1 = s ∧ calls = [] ∧ rest = answers) ∨
    (ARSTREAMING_NetworkHeaders_AckPacketAllFlagsSet s.reader.ackPacket
          header.fragmentsPerFrame = true ∧ header.frameNumber ≠ s.previousFNum ∧
      calls = [completeCall cfg s header] ∧
      ∃ answer, answers = answer :: rest ∧
        s1 = { s with
                previousFNum := header.frameNumber
                reader := { s.reader with
                  currentFrameBuffer := answer.buffer
                  currentFrameBufferSize :=
                    answer.newBufferCapacity.getD s.reader.currentFrameBufferSize } }) := by
  by_cases hc : ARSTREAMING_NetworkHeaders_AckPacketAllFlagsSet s.reader.ackPacket
      header.fragmentsPerFrame = true ∧ header.frameNumber ≠ s.previousFNum
  · right
    refine ⟨hc.1, hc.2, ?_⟩
    unfold reportFrame at h
    rw [if_pos hc] at h
    cases answers with
    | nil => simp at h
    | cons a as =>
      simp only [Option.some.injEq, Prod.mk.injEq] at h
      obtain ⟨rfl, rfl, rfl⟩ := h
      refine ⟨?_, a, rfl, rfl⟩
      unfold completeCall
      by_cases hn : (header.frameNumber : Int) = (s.previousFNum : Int) + 1
      · simp [hn]
      · simp [hn]
  · left
    unfold reportFrame at h
    rw [if_neg hc] at h
    simp only [Option.some.injEq, Prod.mk.injEq] at h
    obtain ⟨rfl, rfl, rfl⟩ := h
    exact ⟨hc, rfl, rfl, rfl⟩

/-- The outcomes of one iteration: the frame is skipped, or the fragment is
stored and the completion test is run. -/
theorem dataLoopIteration_cases (cfg : NetworkHeaders) (s s1 : DataThread) (packet : Packet)
    (answers rest : List HostAnswer) (calls : List CallbackCall)
    (h : dataLoopIteration cfg s packet answers = some (s1, calls, rest)) :
    ∃ s3 calls0 rest0,
      capacityLoop (endIndexOf cfg packet) (afterAck s packet.header) answers
        = some (s3, calls0, rest0) ∧
      ((s3.skipCurrentFrame ≠ 0 ∧ s1 = s3 ∧ calls = calls0 ∧ rest = rest0) ∨
       (s3.skipCurrentFrame = 0 ∧ ∃ calls1,
          reportFrame cfg
              { s3 with reader := (storeFragment s3.reader (wasAlreadyAck s packet.header)
                  (cfg.FRAGMENT_SIZE * packet.header.fragmentNumber) packet.payload) }
              packet.header rest0 = some (s1, calls1, rest) ∧
          calls = calls0 ++ calls1)) := by
  rw [dataLoopIteration_eq] at h
  cases hcap : capacityLoop (endIndexOf cfg packet) (afterAck s packet.header) answers with
  | none => simp [hcap] at h
  | some res =>
    obtain ⟨s3, calls0, rest0⟩ := res
    refine ⟨s3, calls0, rest0, rfl, ?_⟩
    simp only [hcap] at h
    split_ifs at h with hk
    · right
      refine ⟨hk, ?_⟩
      cases hrep : reportFrame cfg
              { s3 with reader := (storeFragment s3.reader (wasAlreadyAck s packet.header)
                  (cfg.FRAGMENT_SIZE * packet.header.fragmentNumber) packet.payload) }
              packet.header rest0 with
      | none => simp [hrep] at h
      | some res1 =>
        obtain ⟨s5, calls1, rest1⟩ := res1
        simp only [hrep, Option.some.injEq, Prod.mk.injEq] at h
        obtain ⟨rfl, rfl, rfl⟩ := h
        exact ⟨calls1, rfl, rfl⟩
    · left
      simp only [Option.some.injEq, Prod.mk.injEq] at h
      obtain ⟨rfl, rfl, rfl⟩ := h
      exact ⟨hk, rfl, rfl, rfl⟩

theorem afterAck_previousFNum (s : DataThread)
    (header : ARSTREAMING_NetworkHeaders_DataHeader_t) :
    (afterAck s header).previousFNum = s.previousFNum := by
  unfold afterAck newFrameDetection
  split_ifs <;> rfl

theorem completeReports_append
    (a b : List (ARSTREAMING_NetworkHeaders_DataHeader_t × CallbackCall)) :
    completeReports (a ++ b) = completeReports a ++ completeReports b := by
  simp [completeReports]

theorem completeReports_of_no_complete (header : ARSTREAMING_NetworkHeaders_DataHeader_t)
    (calls : List CallbackCall)
    (h : ∀ c ∈ calls, c.cause ≠ ARSTREAMING_READER_CAUSE_FRAME_COMPLETE) :
    completeReports (calls.map (fun c => (header, c))) = [] := by
  simp only [completeReports, List.map_eq_nil_iff, List.filter_eq_nil_iff, List.mem_map]
  rintro ⟨hd, c⟩ ⟨c1, hc1, heq⟩
  simp only [Prod.mk.injEq] at heq
  obtain ⟨-, rfl⟩ := heq
  simpa using h c1 hc1

/-- One iteration reports at most one frame; when it does, the frame number
differs from `previousFNum`, the count is the signed difference less one, and
`previousFNum` becomes the frame number. -/
theorem dataLoopIteration_reports (cfg : NetworkHeaders) (s s1 : DataThread) (packet : Packet)
    (answers rest : List HostAnswer) (calls : List CallbackCall)
    (h : dataLoopIteration cfg s packet answers = some (s1, calls, rest)) :
    (completeReports (calls.map (fun c => (packet.header, c))) = [] ∧
      s1.previousFNum = s.previousFNum) ∨
    (packet.header.frameNumber ≠ s.previousFNum ∧
      completeReports (calls.map (fun c => (packet.header, c))) =
        [(packet.header.frameNumber,
          (packet.header.frameNumber : Int) - (s.previousFNum : Int) - 1)] ∧
      s1.previousFNum = packet.header.frameNumber) := by
  obtain ⟨s3, calls0, rest0, hcap, hcase⟩ := dataLoopIteration_cases cfg s s1 packet answers rest calls h
  obtain ⟨hframe, hnc⟩ := capacityLoop_frame _ _ _ _ _ _ hcap
  have hp3 : s3.previousFNum = s.previousFNum := by
    rw [hframe]; exact afterAck_previousFNum s packet.header
  rcases hcase with ⟨-, rfl, rfl, rfl⟩ | ⟨-, calls1, hrep, rfl⟩
  · left
    exact ⟨completeReports_of_no_complete _ _ hnc, hp3⟩
  · rcases reportFrame_cases cfg _ _ _ _ _ _ hrep with ⟨-, rfl, rfl, rfl⟩ | ⟨-, hne, rfl, a, -, rfl⟩
    · left
      refine ⟨?_, hp3⟩
      rw [List.append_nil]
      exact completeReports_of_no_complete _ _ hnc
    · right
      refine ⟨by simpa [hp3] using hne, ?_, rfl⟩
      rw [List.map_append, completeReports_append, completeReports_of_no_complete _ _ hnc]
      simp [completeReports, completeCall, hp3]

/-- Along any run of the data loop, the reports form a chain from the
`previousFNum` of the start; the run ends with `previousFNum` equal to the last
reported frame number. -/
theorem dataLoop_reports_chain (cfg : NetworkHeaders) :
    ∀ (packets : List Packet) (s s1 : DataThread) (answers rest : List HostAnswer)
      (trace : List (ARSTREAMING_NetworkHeaders_DataHeader_t × CallbackCall)) (m : Int),
      dataLoop cfg s packets answers = some (s1, trace, rest) →
      List.Chain ReportStep (s.previousFNum, m) (completeReports trace) ∧
      s1.previousFNum = (((s.previousFNum, m) :: completeReports trace).getLast
        (List.cons_ne_nil _ _)).1 := by
  intro packets
  induction packets with
  | nil =>
    intro s s1 answers rest trace m h
    simp only [dataLoop, Option.some.injEq, Prod.mk.injEq] at h
    obtain ⟨rfl, rfl, rfl⟩ := h
    simp [completeReports]
  | cons p ps ih =>
    intro s s1 answers rest trace m h
    simp only [dataLoop] at h
    cases hit : dataLoopIteration cfg s p answers with
    | none => simp [hit] at h
    | some res =>
      obtain ⟨s2, calls, rest2⟩ := res
      simp only [hit] at h
      cases hrun : dataLoop cfg s2 ps rest2 with
      | none => simp [hrun] at h
      | some res2 =>
        obtain ⟨s3, trace3, rest3⟩ := res2
        simp only [hrun, Option.some.injEq, Prod.mk.injEq] at h
        obtain ⟨rfl, rfl, rfl⟩ := h
        rw [completeReports_append]
        rcases dataLoopIteration_reports cfg s s2 p answers rest2 calls hit with
          ⟨h0, hp⟩ | ⟨hne, h1, hp⟩
        · obtain ⟨hch, hlast⟩ := ih s2 s3 rest2 rest3 trace3 m hrun
          rw [h0, List.nil_append]
          rw [hp] at hch hlast
          exact ⟨hch, hlast⟩
        · obtain ⟨hch, hlast⟩ := ih s2 s3 rest2 rest3 trace3
            ((p.header.frameNumber : Int) - (s.previousFNum : Int) - 1) hrun
          rw [h1]
          rw [hp] at hch hlast
          refine ⟨?_, ?_⟩
          · simp only [List.singleton_append, List.chain_cons]
            exact ⟨⟨hne, rfl⟩, hch⟩
          · rw [hlast]
            simp [List.getLast_cons]

/-! ## Reports of complete frames -/

/-- C3, as stated, fails: in the stream of frames 5, 6, 5 (one fragment each)
frame number 5 is reported with `FRAME_COMPLETE` twice. -/
theorem frame_complete_twice_for_frame_5 :
    (dataLoop ⟨4, 1⟩ (dataThreadStart (newReader 4)) streamLate
        [hostGives 200 8, hostGives 300 8, hostGives 400 8]).map
      (fun r => (completeReports r.2.1).map Prod.fst) = some [5, 6, 5] := by
  decide

/-- C3, amended: in every run of the data loop, two `FRAME_COMPLETE` invocations
that follow each other are for different frame numbers, and the first one is
for a frame number other than the `previousFNum` of the start. -/
theorem frame_complete_not_repeated (cfg : NetworkHeaders) (s : DataThread)
    (packets : List Packet) (answers : List HostAnswer)
    (r : DataThread × List (ARSTREAMING_NetworkHeaders_DataHeader_t × CallbackCall)
      × List HostAnswer)
    (h : dataLoop cfg s packets answers = some r) :
    List.Chain (fun a b => b ≠ a) s.previousFNum ((completeReports r.2.1).map Prod.fst) := by
  obtain ⟨s1, trace, rest⟩ := r
  have hch := (dataLoop_reports_chain cfg packets s s1 answers rest trace 0 h).1
  have hmap : List.Chain (fun a b : Nat => b ≠ a) (Prod.fst (s.previousFNum, (0 : Int)))
      ((completeReports trace).map Prod.fst) :=
    List.chain_map_of_chain Prod.fst (fun a b hab => hab.1) hch
  exact hmap

theorem frame_complete_not_repeated_witness :
    List.Chain (fun a b => b ≠ a) 65535 [5, 6, 5] :=
  frame_complete_not_repeated ⟨4, 1⟩ (dataThreadStart (newReader 4)) streamLate
    [hostGives 200 8, hostGives 300 8, hostGives 400 8]
    (loopResult ⟨4, 1⟩ 4 streamLate [hostGives 200 8, hostGives 300 8, hostGives 400 8]) rfl

/-- C4, as stated, fails: in scenario S1 the first complete frame, frame 7, is
reported with a skipped-frame count of -65529, not 0. -/
theorem first_frame_count_negative :
    (dataLoop ⟨3, 1⟩ (dataThreadStart (newReader 9)) streamS1 [hostGives 200 9]).map
      (fun r => completeReports r.2.1) = some [(7, -65529)] := by
  decide

/-- C4, amended: in every run of the data loop, the skipped-frame count passed
with `FRAME_COMPLETE` is the frame number minus the previously reported frame
number (the `previousFNum` of the start, for the first report of the run) minus
one, as a signed integer; when the frame number is the larger of the two this
is `max 0` of that difference and is not negative. -/
theorem skipped_count_signed_difference (cfg : NetworkHeaders) (s : DataThread)
    (packets : List Packet) (answers : List HostAnswer)
    (r : DataThread × List (ARSTREAMING_NetworkHeaders_DataHeader_t × CallbackCall)
      × List HostAnswer)
    (h : dataLoop cfg s packets answers = some r) :
    List.Chain
      (fun x y : Nat × Int =>
        y.2 = (y.1 : Int) - (x.1 : Int) - 1 ∧
        (x.1 < y.1 → y.2 = max 0 ((y.1 : Int) - (x.1 : Int) - 1) ∧ 0 ≤ y.2))
      (s.previousFNum, 0) (completeReports r.2.1) := by
  obtain ⟨s1, trace, rest⟩ := r
  have hch := (dataLoop_reports_chain cfg packets s s1 answers rest trace 0 h).1
  refine List.Chain.imp ?_ hch
  intro x y hxy
  refine ⟨hxy.2, fun hlt => ?_⟩
  rw [hxy.2]
  constructor
  · rw [max_eq_right]; omega
  · omega

theorem skipped_count_signed_difference_witness :
    List.Chain
      (fun x y : Nat × Int =>
        y.2 = (y.1 : Int) - (x.1 : Int) - 1 ∧
        (x.1 < y.1 → y.2 = max 0 ((y.1 : Int) - (x.1 : Int) - 1) ∧ 0 ≤ y.2))
      (65535, 0) [(5, -65531), (8, 2)] :=
  skipped_count_signed_difference ⟨4, 1⟩ (dataThreadStart (newReader 4)) streamS6
    [hostGives 200 8, hostGives 300 8]
    (loopResult ⟨4, 1⟩ 4 streamS6 [hostGives 200 8, hostGives 300 8]) rfl

/-- C5: when a `FRAME_COMPLETE` for frame `f` follows the report of frame `p`
(the last reported frame, or the `previousFNum` of the start) with
`p < f ≤ 65535`, the skipped-frame count passed is exactly `f - p - 1`. -/
theorem skipped_count_of_gap (cfg : NetworkHeaders) (s : DataThread)
    (packets : List Packet) (answers : List HostAnswer)
    (r : DataThread × List (ARSTREAMING_NetworkHeaders_DataHeader_t × CallbackCall)
      × List HostAnswer)
    (h : dataLoop cfg s packets answers = some r)
    (pre post : List (Nat × Int)) (p f : Nat) (mp m : Int)
    (hadj : (s.previousFNum, 0) :: completeReports r.2.1 = pre ++ (p, mp) :: (f, m) :: post)
    (hpf : p < f) (_hf : f ≤ UINT16_MAX) :
    m = ((f - p - 1 : Nat) : Int) := by
  obtain ⟨s1, trace, rest⟩ := r
  have hch := (dataLoop_reports_chain cfg packets s s1 answers rest trace 0 h).1
  have hch1 : List.Chain' ReportStep ((s.previousFNum, 0) :: completeReports trace) := hch
  rw [hadj] at hch1
  have hstep : ReportStep (p, mp) (f, m) :=
    (List.chain'_cons.1 (List.Chain'.right_of_append hch1)).1
  have hm : m = (f : Int) - (p : Int) - 1 := hstep.2
  rw [hm]
  omega

theorem skipped_count_of_gap_witness : (2 : Int) = ((8 - 5 - 1 : Nat) : Int) :=
  skipped_count_of_gap ⟨4, 1⟩ (dataThreadStart (newReader 4)) streamS6
    [hostGives 200 8, hostGives 300 8]
    (loopResult ⟨4, 1⟩ 4 streamS6 [hostGives 200 8, hostGives 300 8]) rfl
    [(65535, 0)] [] 5 8 (-65531) 2 (by decide) (by decide) (by decide)

/-! ## Capacity renegotiation and skipped frames -/

/-- C2 fails on the code: on a new reader, the single fragment of frame 65535
sets all the bits of the frame (here bit 0 of 1), the frame is not skipped,
nothing was reported before, and yet no callback is invoked. -/
theorem first_frame_65535_not_reported :
    (dataLoop ⟨4, 1⟩ (dataThreadStart (newReader 4)) [mkPacket 65535 0 1 0 [1]]
        [hostGives 200 8]).map
      (fun r => (r.2.1.map (fun e => e.2.cause),
        ARSTREAMING_NetworkHeaders_AckPacketAllFlagsSet r.1.reader.ackPacket 1,
        r.1.reader.ackPacket.frameNumber, r.1.skipCurrentFrame)) =
      some ([], true, 65535, 0) := by
  decide

/-- No `FRAME_COMPLETE` is raised by an iteration for a packet whose frame number
equals `previousFNum`, whatever the bitmap holds. -/
theorem no_report_of_previousFNum (cfg : NetworkHeaders) (s s1 : DataThread) (packet : Packet)
    (answers rest : List HostAnswer) (calls : List CallbackCall)
    (hf : packet.header.frameNumber = s.previousFNum)
    (h : dataLoopIteration cfg s packet answers = some (s1, calls, rest)) :
    ∀ c ∈ calls, c.cause ≠ ARSTREAMING_READER_CAUSE_FRAME_COMPLETE := by
  obtain ⟨s3, calls0, rest0, hcap, hcase⟩ :=
    dataLoopIteration_cases cfg s s1 packet answers rest calls h
  obtain ⟨hframe, hnc⟩ := capacityLoop_frame _ _ _ _ _ _ hcap
  have hp3 : s3.previousFNum = s.previousFNum := by
    rw [hframe]; exact afterAck_previousFNum s packet.header
  rcases hcase with ⟨-, -, rfl, -⟩ | ⟨-, calls1, hrep, rfl⟩
  · exact hnc
  · rcases reportFrame_cases cfg _ _ _ _ _ _ hrep with ⟨-, -, rfl, -⟩ | ⟨-, hne, -, -⟩
    · simpa using hnc
    · exact absurd (hf.trans hp3.symm) hne

/-- An iteration that ends with all the bits of the frame set, the frame not
skipped and a frame number other than `previousFNum` raises `FRAME_COMPLETE`. -/
theorem report_of_all_flags_set (cfg : NetworkHeaders) (s s1 : DataThread) (packet : Packet)
    (answers rest : List HostAnswer) (calls : List CallbackCall)
    (h : dataLoopIteration cfg s packet answers = some (s1, calls, rest))
    (hskip : s1.skipCurrentFrame = 0)
    (hall : ARSTREAMING_NetworkHeaders_AckPacketAllFlagsSet s1.reader.ackPacket
      packet.header.fragmentsPerFrame = true)
    (hne : packet.header.frameNumber ≠ s.previousFNum) :
    ∃ c ∈ calls, c.cause = ARSTREAMING_READER_CAUSE_FRAME_COMPLETE := by
  obtain ⟨s3, calls0, rest0, hcap, hcase⟩ :=
    dataLoopIteration_cases cfg s s1 packet answers rest calls h
  obtain ⟨hframe, -⟩ := capacityLoop_frame _ _ _ _ _ _ hcap
  have hp3 : s3.previousFNum = s.previousFNum := by
    rw [hframe]; exact afterAck_previousFNum s packet.header
  rcases hcase with ⟨h3, rfl, -, -⟩ | ⟨-, calls1, hrep, rfl⟩
  · exact absurd hskip h3
  · rcases reportFrame_cases cfg _ _ _ _ _ _ hrep with ⟨hno, rfl, -, -⟩ | ⟨-, -, rfl, -⟩
    · exact absurd ⟨hall, by rw [← hp3] at hne; exact hne⟩ hno
    · exact ⟨_, List.mem_append_right _ (List.mem_singleton_self _), rfl⟩

/-- Scenario S4: the second fragment does not fit, the host gives a buffer
of capacity 8, the frame is delivered as "ABCDEFGH" with the flush flag. -/
theorem scenario_S4 :
    (dataLoop ⟨4, 1⟩ (dataThreadStart (newReader 4))
        [mkPacket 9 0 2 1 [65, 66, 67, 68], mkPacket 9 1 2 1 [69, 70, 71, 72]]
        [hostGives 200 8, hostGives 300 8]).map
      (fun r => r.2.1.map (fun e => (e.2.cause, e.2.framePointer.ptr, e.2.isFlushFrame,
        (List.range e.2.frameSize).map e.2.framePointer.mem))) =
      some [(ARSTREAMING_READER_CAUSE_FRAME_TOO_SMALL, 100, 0, [65, 66, 67, 68]),
            (ARSTREAMING_READER_CAUSE_COPY_COMPLETE, 100, 0, [65, 66, 67, 68]),
            (ARSTREAMING_READER_CAUSE_FRAME_COMPLETE, 200, 1,
              [65, 66, 67, 68, 69, 70, 71, 72])] := by
  decide

/-- C6, as stated, fails at size 0: the second fragment of a frame arrives
first, `FRAME_TOO_SMALL` is raised with size 0, the host returns capacity 0,
which equals the size, and the frame is marked skipped. -/
theorem capacity_zero_equal_to_size_skips :
    (dataLoopIteration ⟨4, 1⟩ (dataThreadStart (newReader 4)) (mkPacket 5 1 2 0 [1])
        [hostGives 200 0]).map
      (fun r => (r.2.1.map (fun c => (c.cause, c.frameSize)), r.1.skipCurrentFrame)) =
      some ([(ARSTREAMING_READER_CAUSE_FRAME_TOO_SMALL, 0),
             (ARSTREAMING_READER_CAUSE_COPY_COMPLETE, 0)], 1) := by
  decide

/-- C6, amended: in a state in which `FRAME_TOO_SMALL` is raised, a returned
capacity equal to the current size and greater than 0 takes the copy path
(the first `size` bytes of the old buffer are in the new one, the rest of the
new buffer is untouched, the skip mark is not set, the loop goes on with the
new buffer); a returned capacity one less than the current size, or the
capacity 0, marks the frame skipped, copies nothing and ends the loop. -/
theorem too_small_boundary (e : Nat) (s : DataThread) (answer : HostAnswer)
    (rest : List HostAnswer)
    (hguard : e > s.reader.currentFrameBufferSize ∧ s.skipCurrentFrame = 0) :
    (answer.newBufferCapacity = some s.reader.currentFrameSize →
      0 < s.reader.currentFrameSize →
      (tooSmallRound s answer).1.skipCurrentFrame = 0 ∧
      (tooSmallRound s answer).1.reader.currentFrameBuffer.ptr = answer.buffer.ptr ∧
      (∀ j, j < s.reader.currentFrameSize →
        (tooSmallRound s answer).1.reader.currentFrameBuffer.mem j =
          s.reader.currentFrameBuffer.mem j) ∧
      (∀ j, s.reader.currentFrameSize ≤ j →
        (tooSmallRound s answer).1.reader.currentFrameBuffer.mem j = answer.buffer.mem j) ∧
      (tooSmallRound s answer).1.reader.currentFrameBufferSize = s.reader.currentFrameSize ∧
      capacityLoop e s (answer :: rest) =
        match capacityLoop e (tooSmallRound s answer).1 rest with
        | none => none
        | some (s1, calls, rest1) => some (s1, (tooSmallRound s answer).2 ++ calls, rest1)) ∧
    (∀ c, answer.newBufferCapacity = some c → (c + 1 = s.reader.currentFrameSize ∨ c = 0) →
      capacityLoop e s (answer :: rest) =
        some ({ s with
                  skipCurrentFrame := 1
                  reader := { s.reader with
                    currentFrameBuffer := answer.buffer
                    currentFrameBufferSize := c } },
              [⟨ARSTREAMING_READER_CAUSE_FRAME_TOO_SMALL, s.reader.currentFrameBuffer,
                  s.reader.currentFrameSize, 0, 0⟩,
               ⟨ARSTREAMING_READER_CAUSE_COPY_COMPLETE, s.reader.currentFrameBuffer,
                  s.reader.currentFrameSize, 0, 0⟩],
              rest)) := by
  constructor
  · intro hcap hpos
    have hcond : (answer.newBufferCapacity.getD 0 ≥ s.reader.currentFrameSize ∧
        answer.newBufferCapacity.getD 0 > 0) := by
      rw [hcap]; simp; exact hpos
    refine ⟨?_, ?_, ?_, ?_, ?_, capacityLoop_round e s answer rest hguard⟩
    · simp only [tooSmallRound, if_pos hcond]; exact hguard.2
    · simp only [tooSmallRound, if_pos hcond]
    · intro j hj
      simp only [tooSmallRound, if_pos hcond, memcpy]
      simp [hj]
    · intro j hj
      simp only [tooSmallRound, if_pos hcond, memcpy]
      have : ¬ j < s.reader.currentFrameSize := by omega
      simp [this]
    · simp only [tooSmallRound, if_pos hcond]
      rw [hcap]; rfl
  · intro c hcap hc
    have hcond : ¬ (answer.newBufferCapacity.getD 0 ≥ s.reader.currentFrameSize ∧
        answer.newBufferCapacity.getD 0 > 0) := by
      rw [hcap]; simp only [Option.getD_some]; omega
    have hround : tooSmallRound s answer =
        ({ s with
              skipCurrentFrame := 1
              reader := { s.reader with
                currentFrameBuffer := answer.buffer
                currentFrameBufferSize := c } },
          [⟨ARSTREAMING_READER_CAUSE_FRAME_TOO_SMALL, s.reader.currentFrameBuffer,
              s.reader.currentFrameSize, 0, 0⟩,
           ⟨ARSTREAMING_READER_CAUSE_COPY_COMPLETE, s.reader.currentFrameBuffer,
              s.reader.currentFrameSize, 0, 0⟩]) := by
      simp only [tooSmallRound, if_neg hcond]
      rw [hcap]; rfl
    rw [capacityLoop_round e s answer rest hguard, hround]
    rw [capacityLoop_of_skip]
    · rfl
    · simp

theorem too_small_boundary_witness :
    (tooSmallRound stateS4 (hostGives 200 4)).1.skipCurrentFrame = 0 ∧
    capacityLoop 8 stateS4 [hostGives 200 3] =
      some ({ stateS4 with
                skipCurrentFrame := 1
                reader := { stateS4.reader with
                  currentFrameBuffer := (hostGives 200 3).buffer
                  currentFrameBufferSize := 3 } },
            [⟨ARSTREAMING_READER_CAUSE_FRAME_TOO_SMALL, stateS4.reader.currentFrameBuffer,
                stateS4.reader.currentFrameSize, 0, 0⟩,
             ⟨ARSTREAMING_READER_CAUSE_COPY_COMPLETE, stateS4.reader.currentFrameBuffer,
                stateS4.reader.currentFrameSize, 0, 0⟩],
            []) :=
  ⟨((too_small_boundary 8 stateS4 (hostGives 200 4) [] (by decide)).1 rfl (by decide)).1,
   (too_small_boundary 8 stateS4 (hostGives 200 3) [] (by decide)).2 3 rfl
     (Or.inl (by decide))⟩

theorem setFlag_frameNumber (p : ARSTREAMING_NetworkHeaders_AckPacket_t) (i : Nat) :
    (ARSTREAMING_NetworkHeaders_AckPacketSetFlag p i).frameNumber = p.frameNumber := by
  unfold ARSTREAMING_NetworkHeaders_AckPacketSetFlag
  split_ifs <;> rfl

theorem newFrameDetection_same (s : DataThread)
    (header : ARSTREAMING_NetworkHeaders_DataHeader_t)
    (h : header.frameNumber = s.reader.ackPacket.frameNumber) :
    newFrameDetection s header = s := by
  simp [newFrameDetection, h]

theorem afterAck_same (s : DataThread) (header : ARSTREAMING_NetworkHeaders_DataHeader_t)
    (h : header.frameNumber = s.reader.ackPacket.frameNumber) :
    afterAck s header = { s with reader := (ackFragment s.reader header).1 } := by
  unfold afterAck
  rw [newFrameDetection_same s header h]

theorem afterAck_frameNumber (s : DataThread)
    (header : ARSTREAMING_NetworkHeaders_DataHeader_t) :
    (afterAck s header).reader.ackPacket.frameNumber = header.frameNumber := by
  by_cases h : header.frameNumber = s.reader.ackPacket.frameNumber
  · rw [afterAck_same s header h]
    simp only [ackFragment, setFlag_frameNumber]
    exact h.symm
  · simp only [afterAck, newFrameDetection, if_pos h, ackFragment, setFlag_frameNumber,
      ARSTREAMING_NetworkHeaders_AckPacketReset]

/-- The frame number of the acknowledge packet after an iteration is the one
of the packet processed. -/
theorem dataLoopIteration_frameNumber (cfg : NetworkHeaders) (s s1 : DataThread)
    (packet : Packet) (answers rest : List HostAnswer) (calls : List CallbackCall)
    (h : dataLoopIteration cfg s packet answers = some (s1, calls, rest)) :
    s1.reader.ackPacket.frameNumber = packet.header.frameNumber := by
  obtain ⟨s3, calls0, rest0, hcap, hcase⟩ :=
    dataLoopIteration_cases cfg s s1 packet answers rest calls h
  obtain ⟨hframe, -⟩ := capacityLoop_frame _ _ _ _ _ _ hcap
  have h3 : s3.reader.ackPacket.frameNumber = packet.header.frameNumber := by
    rw [hframe]; exact afterAck_frameNumber s packet.header
  rcases hcase with ⟨-, rfl, -, -⟩ | ⟨-, calls1, hrep, -⟩
  · exact h3
  · rcases reportFrame_cases cfg _ _ _ _ _ _ hrep with ⟨-, rfl, -, -⟩ | ⟨-, -, -, a, -, rfl⟩
    · exact h3
    · exact h3

/-- An iteration on a skipped frame, for a packet of that frame: no callback,
no host answer taken, skip mark, buffer, capacity and size as before. -/
theorem dataLoopIteration_of_skipped (cfg : NetworkHeaders) (s : DataThread) (packet : Packet)
    (answers : List HostAnswer) (hskip : s.skipCurrentFrame ≠ 0)
    (hf : packet.header.frameNumber = s.reader.ackPacket.frameNumber) :
    dataLoopIteration cfg s packet answers =
      some ({ s with reader := (ackFragment s.reader packet.header).1 }, [], answers) := by
  have hskip1 : ({ s with reader := (ackFragment s.reader packet.header).1 } :
      DataThread).skipCurrentFrame ≠ 0 := hskip
  rw [dataLoopIteration_eq, afterAck_same s packet.header hf,
    capacityLoop_of_skip _ _ _ hskip1]
  simp only [if_neg hskip]

/-- When the capacity loop sets the skip mark, its last two invocations are
the `FRAME_TOO_SMALL` that was answered with the skip and one `COPY_COMPLETE`,
both on the buffer held when the question was asked. -/
theorem capacityLoop_skip_calls (e : Nat) :
    ∀ (answers : List HostAnswer) (s s1 : DataThread) (calls : List CallbackCall)
      (rest : List HostAnswer),
      capacityLoop e s answers = some (s1, calls, rest) →
      s.skipCurrentFrame = 0 → s1.skipCurrentFrame ≠ 0 →
      ∃ pre old size,
        calls = pre ++
          [⟨ARSTREAMING_READER_CAUSE_FRAME_TOO_SMALL, old, size, 0, 0⟩,
           ⟨ARSTREAMING_READER_CAUSE_COPY_COMPLETE, old, size, 0, 0⟩] ∧
        (∀ c ∈ pre, c.cause ≠ ARSTREAMING_READER_CAUSE_FRAME_COMPLETE) := by
  intro answers
  induction answers with
  | nil =>
    intro s s1 calls rest h h0 h1
    simp only [capacityLoop] at h
    split_ifs at h
    simp only [Option.some.injEq, Prod.mk.injEq] at h
    obtain ⟨rfl, -, -⟩ := h
    exact absurd h0 h1
  | cons a as ih =>
    intro s s1 calls rest h h0 h1
    by_cases hg : e > s.reader.currentFrameBufferSize ∧ s.skipCurrentFrame = 0
    · rw [capacityLoop_round e s a as hg] at h
      by_cases ht : (tooSmallRound s a).1.skipCurrentFrame = 0
      · cases hrec : capacityLoop e (tooSmallRound s a).1 as with
        | none => simp [hrec] at h
        | some res =>
          obtain ⟨s2, calls2, rest2⟩ := res
          simp only [hrec, Option.some.injEq, Prod.mk.injEq] at h
          obtain ⟨rfl, rfl, rfl⟩ := h
          obtain ⟨pre, old, size, hcalls, hpre⟩ := ih _ _ _ _ hrec ht h1
          refine ⟨(tooSmallRound s a).2 ++ pre, old, size, ?_, ?_⟩
          · rw [hcalls, List.append_assoc]
          · intro c hc
            rw [List.mem_append, tooSmallRound_calls] at hc
            rcases hc with hc | hc
            · simp at hc
              rcases hc with rfl | rfl <;> simp
            · exact hpre c hc
      · rw [capacityLoop_of_skip _ _ _ ht] at h
        simp only [Option.some.injEq, Prod.mk.injEq] at h
        obtain ⟨rfl, rfl, rfl⟩ := h
        refine ⟨[], s.reader.currentFrameBuffer, s.reader.currentFrameSize, ?_, by simp⟩
        rw [tooSmallRound_calls]
        simp
    · simp only [capacityLoop, if_neg hg, Option.some.injEq, Prod.mk.injEq] at h
      obtain ⟨rfl, -, -⟩ := h
      exact absurd h0 h1

/-- A run over packets of a skipped frame: empty trace, no host answer taken,
skip mark, buffer and capacity as before. -/
theorem dataLoop_of_skipped (cfg : NetworkHeaders) :
    ∀ (packets : List Packet) (s : DataThread) (answers : List HostAnswer),
      s.skipCurrentFrame ≠ 0 →
      (∀ p ∈ packets, p.header.frameNumber = s.reader.ackPacket.frameNumber) →
      ∃ s2, dataLoop cfg s packets answers = some (s2, [], answers) ∧
        s2.skipCurrentFrame = s.skipCurrentFrame ∧
        s2.reader.currentFrameBuffer = s.reader.currentFrameBuffer ∧
        s2.reader.currentFrameBufferSize = s.reader.currentFrameBufferSize := by
  intro packets
  induction packets with
  | nil =>
    intro s answers _ _
    exact ⟨s, rfl, rfl, rfl, rfl⟩
  | cons p ps ih =>
    intro s answers hskip hall
    have hp := hall p (List.mem_cons_self _ _)
    have hit := dataLoopIteration_of_skipped cfg s p answers hskip hp
    have hfn : ({ s with reader := (ackFragment s.reader p.header).1 } :
        DataThread).reader.ackPacket.frameNumber = s.reader.ackPacket.frameNumber := by
      simp only [ackFragment, setFlag_frameNumber]
    obtain ⟨s2, hrun, h1, h2, h3⟩ :=
      ih { s with reader := (ackFragment s.reader p.header).1 } answers hskip
        (fun q hq => by rw [hfn]; exact hall q (List.mem_cons_of_mem _ hq))
    refine ⟨s2, ?_, h1, h2, h3⟩
    simp only [dataLoop, hit, hrun, List.map_nil, List.nil_append]

/-- C7: when an iteration for frame `f` ends with the frame marked skipped by
the host answer to `FRAME_TOO_SMALL`, its invocations end with that
`FRAME_TOO_SMALL` and exactly one `COPY_COMPLETE` on the same (old) buffer and
contain no `FRAME_COMPLETE`; and every run over later fragments of frame `f`
makes no invocation at all (no `FRAME_COMPLETE`, no `FRAME_TOO_SMALL`), takes no
host answer and leaves the frame buffer and its capacity as they were. -/
theorem skipped_frame_is_silent (cfg : NetworkHeaders) (s s1 : DataThread) (packet : Packet)
    (answers rest : List HostAnswer) (calls : List CallbackCall)
    (h : dataLoopIteration cfg s packet answers = some (s1, calls, rest))
    (h0 : (afterAck s packet.header).skipCurrentFrame = 0)
    (h1 : s1.skipCurrentFrame ≠ 0) :
    (∃ pre old size,
        calls = pre ++
          [⟨ARSTREAMING_READER_CAUSE_FRAME_TOO_SMALL, old, size, 0, 0⟩,
           ⟨ARSTREAMING_READER_CAUSE_COPY_COMPLETE, old, size, 0, 0⟩] ∧
        (∀ c ∈ pre, c.cause ≠ ARSTREAMING_READER_CAUSE_FRAME_COMPLETE)) ∧
    ∀ (later : List Packet) (answers1 : List HostAnswer),
      (∀ p ∈ later, p.header.frameNumber = packet.header.frameNumber) →
      ∃ s2, dataLoop cfg s1 later answers1 = some (s2, [], answers1) ∧
        s2.skipCurrentFrame = s1.skipCurrentFrame ∧
        s2.reader.currentFrameBuffer = s1.reader.currentFrameBuffer ∧
        s2.reader.currentFrameBufferSize = s1.reader.currentFrameBufferSize := by
  have hfn := dataLoopIteration_frameNumber cfg s s1 packet answers rest calls h
  constructor
  · obtain ⟨s3, calls0, rest0, hcap, hcase⟩ :=
      dataLoopIteration_cases cfg s s1 packet answers rest calls h
    rcases hcase with ⟨h3, rfl, rfl, rfl⟩ | ⟨h3, calls1, hrep, rfl⟩
    · exact capacityLoop_skip_calls _ _ _ _ _ _ hcap h0 h3
    · exfalso
      rcases reportFrame_cases cfg _ _ _ _ _ _ hrep with ⟨-, rfl, -, -⟩ | ⟨-, -, -, a, -, rfl⟩
      · exact h1 h3
      · exact h1 h3
  · intro later answers1 hall
    exact dataLoop_of_skipped cfg later s1 answers1 h1 (fun p hp => by rw [hfn]; exact hall p hp)

theorem skipped_frame_is_silent_witness :
    ∃ s2, dataLoop ⟨4, 1⟩ stateS5
        [mkPacket 9 1 2 1 [69, 70, 71, 72], mkPacket 9 0 2 1 [65, 66, 67, 68]]
        [hostGives 300 8] = some (s2, [], [hostGives 300 8]) ∧
      s2.skipCurrentFrame = stateS5.skipCurrentFrame ∧
      s2.reader.currentFrameBuffer = stateS5.reader.currentFrameBuffer ∧
      s2.reader.currentFrameBufferSize = stateS5.reader.currentFrameBufferSize :=
  (skipped_frame_is_silent ⟨4, 1⟩ stateS4 stateS5 (mkPacket 9 1 2 1 [69, 70, 71, 72])
    [hostGives 200 3] []
    (iterationResult ⟨4, 1⟩ stateS4 (mkPacket 9 1 2 1 [69, 70, 71, 72]) [hostGives 200 3]).2.1
    rfl (by decide) (by decide)).2
    [mkPacket 9 1 2 1 [69, 70, 71, 72], mkPacket 9 0 2 1 [65, 66, 67, 68]]
    [hostGives 300 8] (by decide)

/-! ## Duplicate fragments -/

theorem setFlag_of_isSet (p : ARSTREAMING_NetworkHeaders_AckPacket_t) (i : Nat)
    (h : ARSTREAMING_NetworkHeaders_AckPacketFlagIsSet p i = true) :
    ARSTREAMING_NetworkHeaders_AckPacketSetFlag p i = p := by
  have hbit : ∀ n k : Nat, n.testBit k = true → n ||| (1 <<< k) = n := by
    intro n k hk
    apply Nat.eq_of_testBit_eq
    intro j
    rw [Nat.testBit_or, Nat.one_shiftLeft, Nat.testBit_two_pow]
    by_cases hj : k = j
    · subst hj; simp [hk]
    · simp [hj]
  unfold ARSTREAMING_NetworkHeaders_AckPacketFlagIsSet at h
  unfold ARSTREAMING_NetworkHeaders_AckPacketSetFlag
  split_ifs at h ⊢ with h1 h2
  · rw [hbit _ _ h]
  · rw [hbit _ _ h]

theorem capacityLoop_keeps_bytes (e : Nat) :
    ∀ (answers : List HostAnswer) (s s1 : DataThread) (calls : List CallbackCall)
      (rest : List HostAnswer),
      capacityLoop e s answers = some (s1, calls, rest) → s1.skipCurrentFrame = 0 →
      s.skipCurrentFrame = 0 ∧ e ≤ s1.reader.currentFrameBufferSize ∧
      ∀ j, j < s.reader.currentFrameSize →
        s1.reader.currentFrameBuffer.mem j = s.reader.currentFrameBuffer.mem j := by
  intro answers
  induction answers with
  | nil =>
    intro s s1 calls rest h h1
    simp only [capacityLoop] at h
    split_ifs at h with hg
    simp only [Option.some.injEq, Prod.mk.injEq] at h
    obtain ⟨rfl, -, -⟩ := h
    refine ⟨h1, ?_, fun j _ => rfl⟩
    by_contra hlt
    exact hg ⟨by omega, h1⟩
  | cons a as ih =>
    intro s s1 calls rest h h1
    by_cases hg : e > s.reader.currentFrameBufferSize ∧ s.skipCurrentFrame = 0
    · rw [capacityLoop_round e s a as hg] at h
      cases hrec : capacityLoop e (tooSmallRound s a).1 as with
      | none => simp [hrec] at h
      | some res =>
        obtain ⟨s2, calls2, rest2⟩ := res
        simp only [hrec, Option.some.injEq, Prod.mk.injEq] at h
        obtain ⟨rfl, -, -⟩ := h
        obtain ⟨ht, hfit, hmem⟩ := ih _ _ _ _ hrec h1
        refine ⟨hg.2, hfit, ?_⟩
        intro j hj
        by_cases hcond : (a.newBufferCapacity.getD 0 ≥ s.reader.currentFrameSize ∧
            a.newBufferCapacity.getD 0 > 0)
        · have hsz : (tooSmallRound s a).1.reader.currentFrameSize = s.reader.currentFrameSize := by
            simp only [tooSmallRound, if_pos hcond]
          rw [hmem j (by rw [hsz]; exact hj)]
          simp only [tooSmallRound, if_pos hcond, memcpy]
          simp [hj]
        · exfalso
          simp only [tooSmallRound, if_neg hcond] at ht
          exact absurd ht (by decide)
    · simp only [capacityLoop, if_neg hg, Option.some.injEq, Prod.mk.injEq] at h
      obtain ⟨rfl, -, -⟩ := h
      refine ⟨h1, ?_, fun j _ => rfl⟩
      by_contra hlt
      exact hg ⟨by omega, h1⟩

/-- The acknowledge packet and the efficiency counters after an iteration are
those left by the acknowledge bookkeeping. -/
theorem dataLoopIteration_bookkeeping (cfg : NetworkHeaders) (s s1 : DataThread)
    (packet : Packet) (answers rest : List HostAnswer) (calls : List CallbackCall)
    (h : dataLoopIteration cfg s packet answers = some (s1, calls, rest)) :
    s1.reader.ackPacket = (afterAck s packet.header).reader.ackPacket ∧
    s1.reader.efficiency_nbTotal = (afterAck s packet.header).reader.efficiency_nbTotal ∧
    s1.reader.efficiency_nbUseful = (afterAck s packet.header).reader.efficiency_nbUseful ∧
    s1.reader.efficiency_index = (afterAck s packet.header).reader.efficiency_index := by
  obtain ⟨s3, calls0, rest0, hcap, hcase⟩ :=
    dataLoopIteration_cases cfg s s1 packet answers rest calls h
  obtain ⟨hframe, -⟩ := capacityLoop_frame _ _ _ _ _ _ hcap
  have h3 : s3.reader.ackPacket = (afterAck s packet.header).reader.ackPacket ∧
      s3.reader.efficiency_nbTotal = (afterAck s packet.header).reader.efficiency_nbTotal ∧
      s3.reader.efficiency_nbUseful = (afterAck s packet.header).reader.efficiency_nbUseful ∧
      s3.reader.efficiency_index = (afterAck s packet.header).reader.efficiency_index := by
    rw [hframe]; exact ⟨rfl, rfl, rfl, rfl⟩
  rcases hcase with ⟨-, rfl, -, -⟩ | ⟨-, calls1, hrep, -⟩
  · exact h3
  · rcases reportFrame_cases cfg _ _ _ _ _ _ hrep with ⟨-, rfl, -, -⟩ | ⟨-, -, -, a, -, rfl⟩
    · exact h3
    · exact h3

theorem wasAlreadyAck_same (s : DataThread) (header : ARSTREAMING_NetworkHeaders_DataHeader_t)
    (hf : header.frameNumber = s.reader.ackPacket.frameNumber) :
    wasAlreadyAck s header =
      ARSTREAMING_NetworkHeaders_AckPacketFlagIsSet s.reader.ackPacket header.fragmentNumber := by
  unfold wasAlreadyAck
  rw [newFrameDetection_same s header hf]
  rfl

theorem storeFragment_dup (r : ARSTREAMING_Reader_t) (cpIndex : Nat) (payload : List Nat) :
    storeFragment r true cpIndex payload =
      { r with currentFrameSize :=
          if cpIndex + payload.length > r.currentFrameSize then cpIndex + payload.length
          else r.currentFrameSize } := by
  simp [storeFragment]

/-- C8: an iteration that processes a duplicate (a fragment of the current
frame whose bit is already set) adds exactly 1 to `nbTotal[idx]` (the slot
`idx` of the array being written, and read back when it exists), leaves
`nbUseful`, the index and the acknowledge packet as they were, and does not
use the bytes of the duplicate: any payload of the same length gives the same
state and the same invocations, the received bytes of the frame (offsets
below the filled size) are those found in the buffer handed to
`FRAME_COMPLETE`, and in the buffer kept when the frame is not skipped. -/
theorem duplicate_fragment (cfg : NetworkHeaders) (s s1 : DataThread) (packet : Packet)
    (answers rest : List HostAnswer) (calls : List CallbackCall)
    (hf : packet.header.frameNumber = s.reader.ackPacket.frameNumber)
    (hdup : ARSTREAMING_NetworkHeaders_AckPacketFlagIsSet s.reader.ackPacket
      packet.header.fragmentNumber = true)
    (h : dataLoopIteration cfg s packet answers = some (s1, calls, rest)) :
    s1.reader.efficiency_nbTotal =
      s.reader.efficiency_nbTotal.set s.reader.efficiency_index.toNat
        (s.reader.efficiency_nbTotal.getD s.reader.efficiency_index.toNat 0 + 1) ∧
    (s.reader.efficiency_index.toNat < s.reader.efficiency_nbTotal.length →
      s1.reader.efficiency_nbTotal.getD s.reader.efficiency_index.toNat 0 =
        s.reader.efficiency_nbTotal.getD s.reader.efficiency_index.toNat 0 + 1) ∧
    s1.reader.efficiency_nbUseful = s.reader.efficiency_nbUseful ∧
    s1.reader.efficiency_index = s.reader.efficiency_index ∧
    s1.reader.ackPacket = s.reader.ackPacket ∧
    (∀ payload : List Nat, payload.length = packet.payload.length →
      dataLoopIteration cfg s ⟨packet.header, payload⟩ answers = some (s1, calls, rest)) ∧
    (∀ c ∈ calls, c.cause = ARSTREAMING_READER_CAUSE_FRAME_COMPLETE →
      ∀ j, j < s.reader.currentFrameSize →
        c.framePointer.mem j = s.reader.currentFrameBuffer.mem j) ∧
    (s1.skipCurrentFrame = 0 →
      (∀ c ∈ calls, c.cause ≠ ARSTREAMING_READER_CAUSE_FRAME_COMPLETE) →
      ∀ j, j < s.reader.currentFrameSize →
        s1.reader.currentFrameBuffer.mem j = s.reader.currentFrameBuffer.mem j) := by
  have hwas : wasAlreadyAck s packet.header = true := by
    rw [wasAlreadyAck_same s packet.header hf]; exact hdup
  have hack : afterAck s packet.header =
      { s with reader := { s.reader with
          efficiency_nbTotal :=
            s.reader.efficiency_nbTotal.set s.reader.efficiency_index.toNat
              (s.reader.efficiency_nbTotal.getD s.reader.efficiency_index.toNat 0 + 1) } } := by
    rw [afterAck_same s packet.header hf]
    simp only [ackFragment, hdup, setFlag_of_isSet _ _ hdup]
    rfl
  obtain ⟨hb1, hb2, hb3, hb4⟩ := dataLoopIteration_bookkeeping cfg s s1 packet answers rest calls h
  rw [hack] at hb1 hb2 hb3 hb4
  refine ⟨hb2, ?_, hb3, hb4, hb1, ?_, ?_, ?_⟩
  · intro hidx
    rw [hb2]
    simp [List.getD_eq_getElem?_getD, List.getElem?_set, hidx]
  · intro payload hlen
    rw [← h, dataLoopIteration_eq, dataLoopIteration_eq]
    simp only [endIndexOf, hwas, storeFragment_dup, hlen]
  · obtain ⟨s3, calls0, rest0, hcap, hcase⟩ :=
      dataLoopIteration_cases cfg s s1 packet answers rest calls h
    obtain ⟨-, hnc⟩ := capacityLoop_frame _ _ _ _ _ _ hcap
    intro c hc hcause j hj
    rcases hcase with ⟨-, rfl, rfl, rfl⟩ | ⟨h3, calls1, hrep, rfl⟩
    · exact absurd hcause (hnc c hc)
    · obtain ⟨-, -, hmem⟩ := capacityLoop_keeps_bytes _ _ _ _ _ _ hcap h3
      rw [hack] at hmem
      rw [List.mem_append] at hc
      rcases hc with hc | hc
      · exact absurd hcause (hnc c hc)
      · rcases reportFrame_cases cfg _ _ _ _ _ _ hrep with
          ⟨-, -, rfl, -⟩ | ⟨-, -, rfl, a, -, -⟩
        · simp at hc
        · simp only [List.mem_singleton] at hc
          subst hc
          simp only [completeCall, hwas, storeFragment_dup]
          exact hmem j hj
  · obtain ⟨s3, calls0, rest0, hcap, hcase⟩ :=
      dataLoopIteration_cases cfg s s1 packet answers rest calls h
    intro hskip hnone j hj
    rcases hcase with ⟨h3, rfl, rfl, rfl⟩ | ⟨h3, calls1, hrep, rfl⟩
    · exact absurd hskip h3
    · obtain ⟨-, -, hmem⟩ := capacityLoop_keeps_bytes _ _ _ _ _ _ hcap h3
      rw [hack] at hmem
      rcases reportFrame_cases cfg _ _ _ _ _ _ hrep with
        ⟨-, rfl, rfl, -⟩ | ⟨-, -, rfl, a, -, -⟩
      · simp only [hwas, storeFragment_dup]
        exact hmem j hj
      · exfalso
        exact hnone _ (List.mem_append_right _ (List.mem_singleton_self _)) rfl

/-- In scenario S3 the second packet is a duplicate: processing it changes
neither bit nor byte, and the frame is delivered as "XXZZ". -/
theorem duplicate_fragment_witness :
    (iterationResult ⟨2, 1⟩ stateS3 (mkPacket 7 0 2 0 [89, 89]) []).1.reader.ackPacket
      = stateS3.reader.ackPacket ∧
    (dataLoop ⟨2, 1⟩ (dataThreadStart (newReader 9)) streamS3 [hostGives 200 9]).map
      (fun r => r.2.1.map (fun e => (e.2.cause, (List.range e.2.frameSize).map
        e.2.framePointer.mem))) =
      some [(ARSTREAMING_READER_CAUSE_FRAME_COMPLETE, [88, 88, 90, 90])] :=
  ⟨(duplicate_fragment ⟨2, 1⟩ stateS3
      (iterationResult ⟨2, 1⟩ stateS3 (mkPacket 7 0 2 0 [89, 89]) []).1
      (mkPacket 7 0 2 0 [89, 89]) []
      (iterationResult ⟨2, 1⟩ stateS3 (mkPacket 7 0 2 0 [89, 89]) []).2.2
      (iterationResult ⟨2, 1⟩ stateS3 (mkPacket 7 0 2 0 [89, 89]) []).2.1
      (by decide) (by decide) rfl).2.2.2.2.1,
   by decide⟩

/-! ## The acknowledge bitmap -/

theorem isSet_reset (p : ARSTREAMING_NetworkHeaders_AckPacket_t) (k : Nat) :
    ARSTREAMING_NetworkHeaders_AckPacketFlagIsSet
      (ARSTREAMING_NetworkHeaders_AckPacketReset p) k = false := by
  unfold ARSTREAMING_NetworkHeaders_AckPacketFlagIsSet ARSTREAMING_NetworkHeaders_AckPacketReset
  split_ifs <;> simp

theorem isSet_setFlag (p : ARSTREAMING_NetworkHeaders_AckPacket_t) (i k : Nat) (hi : i < 128) :
    ARSTREAMING_NetworkHeaders_AckPacketFlagIsSet
      (ARSTREAMING_NetworkHeaders_AckPacketSetFlag p i) k =
      (decide (k = i) || ARSTREAMING_NetworkHeaders_AckPacketFlagIsSet p k) := by
  unfold ARSTREAMING_NetworkHeaders_AckPacketFlagIsSet ARSTREAMING_NetworkHeaders_AckPacketSetFlag
  by_cases h1 : i < 64
  · by_cases h2 : k < 64
    · simp only [h1, h2, if_true, Nat.testBit_or, Nat.one_shiftLeft, Nat.testBit_two_pow]
      by_cases hik : i = k
      · subst hik; simp
      · have : ¬ k = i := fun h => hik h.symm
        simp [hik, this]
    · have hne : ¬ k = i := by omega
      simp only [h1, h2, if_true, if_false, hne, decide_False, Bool.false_or]
  · have h3 : i < 128 := hi
    by_cases h2 : k < 64
    · have hne : ¬ k = i := by omega
      simp only [h1, h2, h3, if_true, if_false, hne, decide_False, Bool.false_or]
    · by_cases h4 : k < 128
      · simp only [h1, h2, h3, h4, if_true, if_false, Nat.testBit_or, Nat.one_shiftLeft,
          Nat.testBit_two_pow]
        by_cases hik : i = k
        · subst hik; simp
        · have h5 : ¬ k = i := fun h => hik h.symm
          have h6 : ¬ i - 64 = k - 64 := by omega
          simp [h5, h6]
      · have hne : ¬ k = i := by omega
        simp only [h1, h2, h3, h4, if_true, if_false, hne, decide_False, Bool.false_or]

theorem isSet_of_allFlagsSet (p : ARSTREAMING_NetworkHeaders_AckPacket_t) (F i : Nat)
    (h : ARSTREAMING_NetworkHeaders_AckPacketAllFlagsSet p F = true) (hi : i < F) :
    ARSTREAMING_NetworkHeaders_AckPacketFlagIsSet p i = true := by
  unfold ARSTREAMING_NetworkHeaders_AckPacketAllFlagsSet at h
  rw [List.all_eq_true] at h
  exact h i (List.mem_range.2 hi)

theorem firstFragment_append_of_some (l l1 : List Packet) (i : Nat) (q : Packet)
    (h : firstFragment l i = some q) : firstFragment (l ++ l1) i = some q := by
  unfold firstFragment at h ⊢
  rw [List.find?_append, h]
  rfl

theorem firstFragment_snoc_of_none (l : List Packet) (p : Packet)
    (h : firstFragment l p.header.fragmentNumber = none) :
    firstFragment (l ++ [p]) p.header.fragmentNumber = some p := by
  unfold firstFragment at h ⊢
  rw [List.find?_append, h]
  simp

theorem firstFragment_snoc_of_ne (l : List Packet) (p : Packet) (k : Nat)
    (h : k ≠ p.header.fragmentNumber) :
    firstFragment (l ++ [p]) k = firstFragment l k := by
  unfold firstFragment
  rw [List.find?_append]
  have : ¬ p.header.fragmentNumber = k := fun h1 => h h1.symm
  cases List.find? (fun p => decide (p.header.fragmentNumber = k)) l <;> simp [this]

/-! ## Reassembly of one frame -/

/-- The first packet of a frame, read by a reader that is on another frame,
starts the reassembly with nothing seen. -/
theorem reassembling_start (cfg : NetworkHeaders) (f : Nat) (s : DataThread)
    (header : ARSTREAMING_NetworkHeaders_DataHeader_t)
    (hf : header.frameNumber = f) (hs : s.reader.ackPacket.frameNumber ≠ f) :
    Reassembling cfg f (newFrameDetection s header) [] := by
  have hne : header.frameNumber ≠ s.reader.ackPacket.frameNumber := by
    rw [hf]; exact fun h => hs h.symm
  refine ⟨?_, ?_, ?_⟩
  · simp only [newFrameDetection, if_pos hne, ARSTREAMING_NetworkHeaders_AckPacketReset]
    exact hf
  · intro k
    simp only [newFrameDetection, if_pos hne, isSet_reset, firstFragment, List.find?_nil]
    simp
  · intro _ _ k q hq
    simp [firstFragment] at hq

/-- The bits after the acknowledge bookkeeping are the fragment numbers seen,
the packet included. -/
theorem afterAck_bits (s : DataThread) (seen : List Packet) (p : Packet)
    (hi : p.header.fragmentNumber < 128)
    (hbits : ∀ k, ARSTREAMING_NetworkHeaders_AckPacketFlagIsSet
        (newFrameDetection s p.header).reader.ackPacket k = true ↔
      (firstFragment seen k).isSome = true) :
    ∀ k, ARSTREAMING_NetworkHeaders_AckPacketFlagIsSet
        (afterAck s p.header).reader.ackPacket k = true ↔
      (firstFragment (seen ++ [p]) k).isSome = true := by
  intro k
  have hack : (afterAck s p.header).reader.ackPacket =
      ARSTREAMING_NetworkHeaders_AckPacketSetFlag
        (newFrameDetection s p.header).reader.ackPacket p.header.fragmentNumber := rfl
  rw [hack, isSet_setFlag _ _ _ hi]
  by_cases hk : k = p.header.fragmentNumber
  · subst hk
    simp only [decide_True, Bool.true_or, true_iff]
    cases hfirst : firstFragment seen p.header.fragmentNumber with
    | none => rw [firstFragment_snoc_of_none seen p hfirst]; rfl
    | some q => rw [firstFragment_append_of_some seen [p] _ q hfirst]; rfl
  · rw [firstFragment_snoc_of_ne seen p k hk]
    simp only [hk, decide_False, Bool.false_or]
    exact hbits k

theorem stored_of_same_bytes (cfg : NetworkHeaders) (r r1 : ARSTREAMING_Reader_t) (k : Nat)
    (q : Packet) (hsize : r.currentFrameSize ≤ r1.currentFrameSize)
    (hmem : ∀ j, j < r.currentFrameSize →
      r1.currentFrameBuffer.mem j = r.currentFrameBuffer.mem j)
    (h : Stored cfg r k q) : Stored cfg r1 k q := by
  obtain ⟨h1, h2, h3⟩ := h
  refine ⟨h1, by omega, ?_⟩
  intro j hj
  rw [hmem _ (by omega)]
  exact h3 j hj

/-- Storing fragment `i` leaves the stored fragment `k ≠ i` in place. -/
theorem stored_storeFragment_of_ne (cfg : NetworkHeaders) (r : ARSTREAMING_Reader_t)
    (was : Bool) (i k : Nat) (payload : List Nat) (q : Packet)
    (hlen : payload.length ≤ cfg.FRAGMENT_SIZE) (hk : k ≠ i) (h : Stored cfg r k q) :
    Stored cfg (storeFragment r was (cfg.FRAGMENT_SIZE * i) payload) k q := by
  obtain ⟨h1, h2, h3⟩ := h
  refine ⟨h1, ?_, ?_⟩
  · simp only [storeFragment]
    split_ifs <;> omega
  · intro j hj
    rw [← h3 j hj]
    cases was with
    | true => simp [storeFragment]
    | false =>
      simp only [storeFragment, if_true, memcpy]
      have hout : ¬ (cfg.FRAGMENT_SIZE * i ≤ cfg.FRAGMENT_SIZE * k + j ∧
          cfg.FRAGMENT_SIZE * k + j < cfg.FRAGMENT_SIZE * i + payload.length) := by
        rcases Nat.lt_or_gt_of_ne hk with hlt | hgt
        · have hm : cfg.FRAGMENT_SIZE * (k + 1) ≤ cfg.FRAGMENT_SIZE * i :=
            Nat.mul_le_mul_left _ hlt
          rw [Nat.mul_add, Nat.mul_one] at hm
          omega
        · have hm : cfg.FRAGMENT_SIZE * (i + 1) ≤ cfg.FRAGMENT_SIZE * k :=
            Nat.mul_le_mul_left _ hgt
          rw [Nat.mul_add, Nat.mul_one] at hm
          omega
      rw [if_neg hout]

/-- Storing a fragment that was not acknowledged yet puts its payload in the
buffer. -/
theorem stored_storeFragment_new (cfg : NetworkHeaders) (r : ARSTREAMING_Reader_t)
    (p : Packet) (hlen : p.payload.length ≤ cfg.FRAGMENT_SIZE) :
    Stored cfg
      (storeFragment r false (cfg.FRAGMENT_SIZE * p.header.fragmentNumber) p.payload)
      p.header.fragmentNumber p := by
  refine ⟨hlen, ?_, ?_⟩
  · simp only [storeFragment]
    split_ifs <;> omega
  · intro j hj
    simp only [storeFragment, if_true, memcpy]
    have hin : cfg.FRAGMENT_SIZE * p.header.fragmentNumber ≤
          cfg.FRAGMENT_SIZE * p.header.fragmentNumber + j ∧
        cfg.FRAGMENT_SIZE * p.header.fragmentNumber + j <
          cfg.FRAGMENT_SIZE * p.header.fragmentNumber + p.payload.length := by omega
    rw [if_pos hin]
    congr 1
    omega

/-- Processing a duplicate keeps what is stored. -/
theorem stored_storeFragment_dup (cfg : NetworkHeaders) (r : ARSTREAMING_Reader_t)
    (cpIndex k : Nat) (payload : List Nat) (q : Packet) (h : Stored cfg r k q) :
    Stored cfg (storeFragment r true cpIndex payload) k q := by
  obtain ⟨h1, h2, h3⟩ := h
  rw [storeFragment_dup]
  refine ⟨h1, ?_, h3⟩
  show _ ≤ (if cpIndex + payload.length > r.currentFrameSize then cpIndex + payload.length
    else r.currentFrameSize)
  split_ifs <;> omega

/-- After the store of the packet, the first packet seen of every fragment
is stored. -/
theorem stored_after_store (cfg : NetworkHeaders) (r : ARSTREAMING_Reader_t)
    (seen : List Packet) (p : Packet) (was : Bool)
    (hlen : p.payload.length ≤ cfg.FRAGMENT_SIZE)
    (hwas : was = (firstFragment seen p.header.fragmentNumber).isSome)
    (hst : ∀ k q, firstFragment seen k = some q → Stored cfg r k q) :
    ∀ k q, firstFragment (seen ++ [p]) k = some q →
      Stored cfg (storeFragment r was (cfg.FRAGMENT_SIZE * p.header.fragmentNumber) p.payload)
        k q := by
  intro k q hq
  by_cases hk : k = p.header.fragmentNumber
  · subst hk
    cases hfirst : firstFragment seen p.header.fragmentNumber with
    | none =>
      rw [firstFragment_snoc_of_none seen p hfirst] at hq
      simp only [Option.some.injEq] at hq
      subst hq
      have hw : was = false := by rw [hwas, hfirst]; rfl
      rw [hw]
      exact stored_storeFragment_new cfg r p hlen
    | some q0 =>
      rw [firstFragment_append_of_some seen [p] _ q0 hfirst] at hq
      simp only [Option.some.injEq] at hq
      subst hq
      have hw : was = true := by rw [hwas, hfirst]; rfl
      rw [hw]
      exact stored_storeFragment_dup cfg r _ _ _ _ (hst _ _ hfirst)
  · rw [firstFragment_snoc_of_ne seen p k hk] at hq
    exact stored_storeFragment_of_ne cfg r was _ k p.payload q hlen hk (hst k q hq)

/-- One iteration on a packet of the frame being reassembled keeps the
reassembly state, and a buffer handed to `FRAME_COMPLETE` holds, for every
fragment of the frame, the payload of the first packet seen of it. -/
theorem dataLoopIteration_reassembling (cfg : NetworkHeaders) (f F : Nat)
    (s s1 : DataThread) (seen : List Packet) (p : Packet)
    (answers rest : List HostAnswer) (calls : List CallbackCall)
    (hF : F ≤ 128) (hp : FragmentOf cfg f F p)
    (hinv : Reassembling cfg f (newFrameDetection s p.header) seen)
    (h : dataLoopIteration cfg s p answers = some (s1, calls, rest)) :
    Reassembling cfg f s1 (seen ++ [p]) ∧
    ∀ c ∈ calls, c.cause = ARSTREAMING_READER_CAUSE_FRAME_COMPLETE →
      ∀ i, i < F → ∃ q, firstFragment (seen ++ [p]) i = some q ∧
        ∀ j, j < q.payload.length →
          c.framePointer.mem (cfg.FRAGMENT_SIZE * i + j) = payloadBytes q.payload j := by
  obtain ⟨hpf, hpF, hpi, hplen⟩ := hp
  obtain ⟨hfn, hbits, hstored⟩ := hinv
  have hi128 : p.header.fragmentNumber < 128 := by omega
  have hbits2 := afterAck_bits s seen p hi128 hbits
  have hfn2 : (afterAck s p.header).reader.ackPacket.frameNumber = f := by
    rw [afterAck_frameNumber]; exact hpf
  have hwas : wasAlreadyAck s p.header = (firstFragment seen p.header.fragmentNumber).isSome := by
    have hw : wasAlreadyAck s p.header =
        ARSTREAMING_NetworkHeaders_AckPacketFlagIsSet
          (newFrameDetection s p.header).reader.ackPacket p.header.fragmentNumber := rfl
    rw [hw]
    have := hbits p.header.fragmentNumber
    cases hA : ARSTREAMING_NetworkHeaders_AckPacketFlagIsSet
          (newFrameDetection s p.header).reader.ackPacket p.header.fragmentNumber <;>
      cases hB : (firstFragment seen p.header.fragmentNumber).isSome <;> simp_all
  obtain ⟨s3, calls0, rest0, hcap, hcase⟩ := dataLoopIteration_cases cfg s s1 p answers rest calls h
  obtain ⟨hframe, hnc⟩ := capacityLoop_frame _ _ _ _ _ _ hcap
  have hack3 : s3.reader.ackPacket = (afterAck s p.header).reader.ackPacket := by
    rw [hframe]
  have hprev3 : s3.previousFNum = (newFrameDetection s p.header).previousFNum := by
    rw [hframe]; rfl
  rcases hcase with ⟨h3, rfl, rfl, rfl⟩ | ⟨h3, calls1, hrep, rfl⟩
  · refine ⟨⟨by rw [hack3]; exact hfn2, by rw [hack3]; exact hbits2, ?_⟩, ?_⟩
    · intro h0; exact absurd h0 h3
    · intro c hc hcause; exact absurd hcause (hnc c hc)
  · obtain ⟨hskip2, -, hmem⟩ := capacityLoop_keeps_bytes _ _ _ _ _ _ hcap h3
    have hstored4 : s3.previousFNum ≠ f → ∀ k q, firstFragment (seen ++ [p]) k = some q →
        Stored cfg (storeFragment s3.reader (wasAlreadyAck s p.header)
          (cfg.FRAGMENT_SIZE * p.header.fragmentNumber) p.payload) k q := by
      intro hprev
      apply stored_after_store cfg s3.reader seen p _ hplen hwas
      intro k q hq
      have hst0 : Stored cfg (afterAck s p.header).reader k q :=
        hstored hskip2 (by rw [← hprev3]; exact hprev) k q hq
      have hsizeA : s3.reader.currentFrameSize =
          (afterAck s p.header).reader.currentFrameSize := by rw [hframe]
      exact stored_of_same_bytes cfg (afterAck s p.header).reader s3.reader k q
        (by rw [hsizeA]) hmem hst0
    rcases reportFrame_cases cfg _ _ _ _ _ _ hrep with
      ⟨-, rfl, rfl, -⟩ | ⟨hall, hne, rfl, a, -, rfl⟩
    · refine ⟨⟨?_, ?_, ?_⟩, ?_⟩
      · show s3.reader.ackPacket.frameNumber = f
        rw [hack3]; exact hfn2
      · show ∀ k, ARSTREAMING_NetworkHeaders_AckPacketFlagIsSet s3.reader.ackPacket k = true ↔
          (firstFragment (seen ++ [p]) k).isSome = true
        rw [hack3]; exact hbits2
      · intro _ hprev
        exact hstored4 hprev
      · intro c hc hcause
        rw [List.append_nil] at hc
        exact absurd hcause (hnc c hc)
    · refine ⟨⟨?_, ?_, ?_⟩, ?_⟩
      · show s3.reader.ackPacket.frameNumber = f
        rw [hack3]; exact hfn2
      · show ∀ k, ARSTREAMING_NetworkHeaders_AckPacketFlagIsSet s3.reader.ackPacket k = true ↔
          (firstFragment (seen ++ [p]) k).isSome = true
        rw [hack3]; exact hbits2
      · intro _ hprev
        exact absurd hpf hprev
      · intro c hc hcause i hi
        rw [List.mem_append] at hc
        rcases hc with hc | hc
        · exact absurd hcause (hnc c hc)
        · simp only [List.mem_singleton] at hc
          subst hc
          have hne1 : s3.previousFNum ≠ f := by
            intro heq
            apply hne
            show p.header.frameNumber = s3.previousFNum
            rw [hpf, heq]
          have hbit : ARSTREAMING_NetworkHeaders_AckPacketFlagIsSet
              (afterAck s p.header).reader.ackPacket i = true := by
            rw [← hack3]
            exact isSet_of_allFlagsSet s3.reader.ackPacket _ _ hall (by rw [hpF]; exact hi)
          have hsome := (hbits2 i).1 hbit
          obtain ⟨q, hq⟩ := Option.isSome_iff_exists.1 hsome
          exact ⟨q, hq, (hstored4 hne1 i q hq).2.2⟩

/-- The run of the data loop over packets of the frame being reassembled:
every buffer handed to `FRAME_COMPLETE` holds, for every fragment, the payload
of the first packet received of it. -/
theorem dataLoop_reassembling (cfg : NetworkHeaders) (f F : Nat) (hF : F ≤ 128) :
    ∀ (packets seen : List Packet) (s : DataThread) (answers : List HostAnswer)
      (r : DataThread × List (ARSTREAMING_NetworkHeaders_DataHeader_t × CallbackCall)
        × List HostAnswer),
      (∀ p ∈ packets, FragmentOf cfg f F p) →
      (seen = [] ∧ s.reader.ackPacket.frameNumber ≠ f ∨ Reassembling cfg f s seen) →
      dataLoop cfg s packets answers = some r →
      ∀ e ∈ r.2.1, e.2.cause = ARSTREAMING_READER_CAUSE_FRAME_COMPLETE →
        ∀ i, i < F → ∃ q, firstFragment (seen ++ packets) i = some q ∧
          ∀ j, j < q.payload.length →
            e.2.framePointer.mem (cfg.FRAGMENT_SIZE * i + j) = payloadBytes q.payload j := by
  intro packets
  induction packets with
  | nil =>
    intro seen s answers r _ _ h e he
    simp only [dataLoop, Option.some.injEq] at h
    subst h
    simp at he
  | cons p ps ih =>
    intro seen s answers r hall hinv h e he hcause i hi
    have hp : FragmentOf cfg f F p := hall p (List.mem_cons_self _ _)
    have hinv0 : Reassembling cfg f (newFrameDetection s p.header) seen := by
      rcases hinv with ⟨rfl, hne⟩ | hre
      · exact reassembling_start cfg f s p.header hp.1 hne
      · rw [newFrameDetection_same s p.header (by rw [hp.1, hre.1])]
        exact hre
    simp only [dataLoop] at h
    cases hit : dataLoopIteration cfg s p answers with
    | none => simp [hit] at h
    | some res =>
      obtain ⟨s2, calls, rest2⟩ := res
      simp only [hit] at h
      cases hrun : dataLoop cfg s2 ps rest2 with
      | none => simp [hrun] at h
      | some res2 =>
        obtain ⟨s3, trace3, rest3⟩ := res2
        simp only [hrun, Option.some.injEq] at h
        subst h
        obtain ⟨hinv2, hcalls⟩ :=
          dataLoopIteration_reassembling cfg f F s s2 seen p answers rest2 calls hF hp hinv0 hit
        have happ : seen ++ p :: ps = (seen ++ [p]) ++ ps := by simp
        simp only [List.mem_append, List.mem_map] at he
        rcases he with ⟨c, hc, rfl⟩ | he
        · obtain ⟨q, hq, hbytes⟩ := hcalls c hc hcause i hi
          refine ⟨q, ?_, hbytes⟩
          rw [happ]
          exact firstFragment_append_of_some _ _ _ _ hq
        · rw [happ]
          exact ih (seen ++ [p]) s2 rest2 (s3, trace3, rest3)
            (fun q hq => hall q (List.mem_cons_of_mem _ hq)) (Or.inr hinv2) hrun e he hcause i hi

/-- C1: one frame `f` of `F` fragments (`1 ≤ F ≤ 128`, fragment numbers below `F`,
payloads of at most `FRAGMENT_SIZE` bytes), delivered in any order and with
any duplicates to a reader that is on another frame, whatever the host
answers (buffer replacements through `FRAME_TOO_SMALL` included): whenever
`FRAME_COMPLETE` is raised, the delivered buffer holds at offsets
`[i * FRAGMENT_SIZE, i * FRAGMENT_SIZE + li)` the payload of the first-received
fragment `i`, for every `i < F`. -/
theorem frame_complete_delivers_first_payloads (cfg : NetworkHeaders) (f F : Nat)
    (s : DataThread) (packets : List Packet) (answers : List HostAnswer)
    (r : DataThread × List (ARSTREAMING_NetworkHeaders_DataHeader_t × CallbackCall)
      × List HostAnswer)
    (hF : 1 ≤ F ∧ F ≤ 128)
    (hstart : s.reader.ackPacket.frameNumber ≠ f)
    (hpackets : ∀ p ∈ packets, FragmentOf cfg f F p)
    (h : dataLoop cfg s packets answers = some r) :
    ∀ e ∈ r.2.1, e.2.cause = ARSTREAMING_READER_CAUSE_FRAME_COMPLETE →
      ∀ i, i < F → ∃ q, firstFragment packets i = some q ∧
        ∀ j, j < q.payload.length →
          e.2.framePointer.mem (i * cfg.FRAGMENT_SIZE + j) = q.payload.getD j 0 := by
  intro e he hcause i hi
  obtain ⟨q, hq, hbytes⟩ := dataLoop_reassembling cfg f F hF.2 packets [] s answers r hpackets
    (Or.inl ⟨rfl, hstart⟩) h e he hcause i hi
  refine ⟨q, by simpa using hq, ?_⟩
  intro j hj
  rw [Nat.mul_comm]
  exact hbytes j hj

/-- Scenario S2: the fragments arrive in the order 2, 0, 1; `FRAME_COMPLETE` is
raised once, with the buffer "AAABBBCC". -/
theorem frame_complete_delivers_first_payloads_witness :
    ((loopResult ⟨3, 1⟩ 9 streamS2 [hostGives 200 9]).2.1.map
      (fun e => (e.2.cause, (List.range e.2.frameSize).map e.2.framePointer.mem)) =
      [(ARSTREAMING_READER_CAUSE_FRAME_COMPLETE, [65, 65, 65, 66, 66, 66, 67, 67])]) ∧
    ∀ e ∈ (loopResult ⟨3, 1⟩ 9 streamS2 [hostGives 200 9]).2.1,
      e.2.cause = ARSTREAMING_READER_CAUSE_FRAME_COMPLETE →
      ∀ i, i < 3 → ∃ q, firstFragment streamS2 i = some q ∧
        ∀ j, j < q.payload.length →
          e.2.framePointer.mem (i * 3 + j) = q.payload.getD j 0 :=
  ⟨by decide,
   frame_complete_delivers_first_payloads ⟨3, 1⟩ 7 3 (dataThreadStart (newReader 9)) streamS2
    [hostGives 200 9] (loopResult ⟨3, 1⟩ 9 streamS2 [hostGives 200 9])
    (by decide) (by decide) (by decide) rfl⟩

/-! ## The loop returns when the host answers

The data loop can only fail to return while the host keeps giving buffers
that are neither large enough nor a request to skip.  With suitable answers
every iteration and every run returns. -/

theorem capacityLoop_of_not_guard (e : Nat) (s : DataThread) (answers : List HostAnswer)
    (h : ¬ (e > s.reader.currentFrameBufferSize ∧ s.skipCurrentFrame = 0)) :
    capacityLoop e s answers = some (s, [], answers) := by
  cases answers <;> simp only [capacityLoop, if_neg h]

theorem reportFrame_returns (cfg : NetworkHeaders) (s : DataThread)
    (header : ARSTREAMING_NetworkHeaders_DataHeader_t) :
    ∃ pre s1 calls, ∀ tail : List HostAnswer,
      reportFrame cfg s header (pre ++ tail) = some (s1, calls, tail) := by
  by_cases hc : ARSTREAMING_NetworkHeaders_AckPacketAllFlagsSet s.reader.ackPacket
      header.fragmentsPerFrame = true ∧ header.frameNumber ≠ s.previousFNum
  · cases hrep : reportFrame cfg s header [⟨zeroBuffer 0, none⟩] with
    | none => simp [reportFrame, hc] at hrep
    | some res =>
      obtain ⟨s1, calls, rest⟩ := res
      refine ⟨[⟨zeroBuffer 0, none⟩], s1, calls, fun tail => ?_⟩
      simp only [reportFrame, if_pos hc, Option.some.injEq, Prod.mk.injEq] at hrep
      obtain ⟨rfl, rfl, -⟩ := hrep
      simp only [reportFrame, if_pos hc, List.singleton_append]
  · refine ⟨[], s, [], fun tail => ?_⟩
    simp only [reportFrame, if_neg hc, List.nil_append]

/-- For every state and packet there are host answers with which the
iteration returns, whatever answers follow them. -/
theorem dataLoopIteration_returns (cfg : NetworkHeaders) (s : DataThread) (packet : Packet) :
    ∃ pre s1 calls, ∀ tail : List HostAnswer,
      dataLoopIteration cfg s packet (pre ++ tail) = some (s1, calls, tail) := by
  by_cases hg : endIndexOf cfg packet > (afterAck s packet.header).reader.currentFrameBufferSize ∧
      (afterAck s packet.header).skipCurrentFrame = 0
  · refine ⟨[⟨zeroBuffer 0, none⟩],
      (tooSmallRound (afterAck s packet.header) ⟨zeroBuffer 0, none⟩).1,
      (tooSmallRound (afterAck s packet.header) ⟨zeroBuffer 0, none⟩).2, fun tail => ?_⟩
    have hskip : (tooSmallRound (afterAck s packet.header) ⟨zeroBuffer 0, none⟩).1.skipCurrentFrame
        ≠ 0 := by
      simp [tooSmallRound]
    rw [dataLoopIteration_eq, List.singleton_append, capacityLoop_round _ _ _ _ hg,
      capacityLoop_of_skip _ _ _ hskip]
    simp only [if_neg hskip, List.append_nil]
  · by_cases hk : (afterAck s packet.header).skipCurrentFrame = 0
    · obtain ⟨pre, s1, calls, hrep⟩ := reportFrame_returns cfg
        { (afterAck s packet.header) with
            reader := (storeFragment (afterAck s packet.header).reader
              (wasAlreadyAck s packet.header)
              (cfg.FRAGMENT_SIZE * packet.header.fragmentNumber) packet.payload) }
        packet.header
      refine ⟨pre, s1, [] ++ calls, fun tail => ?_⟩
      rw [dataLoopIteration_eq, capacityLoop_of_not_guard _ _ _ hg]
      simp only [if_pos hk, hrep tail]
    · refine ⟨[], afterAck s packet.header, [], fun tail => ?_⟩
      rw [dataLoopIteration_eq, capacityLoop_of_not_guard _ _ _ hg]
      simp only [if_neg hk, List.nil_append]

/-- For every state and stream of packets there are host answers with which
the run of the data loop returns. -/
theorem dataLoop_returns (cfg : NetworkHeaders) :
    ∀ (packets : List Packet) (s : DataThread),
      ∃ pre s1 trace, ∀ tail : List HostAnswer,
        dataLoop cfg s packets (pre ++ tail) = some (s1, trace, tail) := by
  intro packets
  induction packets with
  | nil =>
    intro s
    exact ⟨[], s, [], fun tail => rfl⟩
  | cons p ps ih =>
    intro s
    obtain ⟨pre1, s1, calls, h1⟩ := dataLoopIteration_returns cfg s p
    obtain ⟨pre2, s2, trace, h2⟩ := ih s1
    refine ⟨pre1 ++ pre2, s2, calls.map (fun c => (p.header, c)) ++ trace, fun tail => ?_⟩
    simp only [dataLoop, List.append_assoc, h1 (pre2 ++ tail), h2 tail]

/-! ## Efficiency estimate: results -/

theorem efficiencySums_fold (f g : Nat → Int) :
    ∀ (l : List Nat) (a b : Nat), a < 4294967296 → b < 4294967296 →
      l.foldl (fun acc i => (addToUInt32 acc.1 (f i), addToUInt32 acc.2 (g i))) (a, b) =
        ((((a : Int) + (l.map f).sum) % 4294967296).toNat,
         (((b : Int) + (l.map g).sum) % 4294967296).toNat) := by
  intro l
  induction l with
  | nil =>
    intro a b ha hb
    simp only [List.foldl_nil, List.map_nil, List.sum_nil, Prod.mk.injEq]
    constructor <;> omega
  | cons i l ih =>
    intro a b ha hb
    simp only [List.foldl_cons, List.map_cons, List.sum_cons]
    rw [ih (addToUInt32 a (f i)) (addToUInt32 b (g i))
      (by simp only [addToUInt32, UINT32_MODULUS]; omega)
      (by simp only [addToUInt32, UINT32_MODULUS]; omega)]
    simp only [addToUInt32, UINT32_MODULUS, Prod.mk.injEq]
    constructor <;> omega

/-- The two counts computed by the summing loop are the sums of the slots
reduced modulo `2 ^ 32`. -/
theorem efficiencySums_eq (r : ARSTREAMING_Reader_t) :
    efficiencySums r =
      ((slotSum r.efficiency_nbTotal % 4294967296).toNat,
       (slotSum r.efficiency_nbUseful % 4294967296).toNat) := by
  unfold efficiencySums slotSum
  rw [efficiencySums_fold (fun i => r.efficiency_nbTotal.getD i 0)
      (fun i => r.efficiency_nbUseful.getD i 0) _ 0 0 (by decide) (by decide)]
  simp

theorem roundHalfEven_cases (num den : Nat) :
    roundHalfEven num den = num / den ∧ 2 * (num % den) ≤ den ∨
    roundHalfEven num den = num / den + 1 ∧ den ≤ 2 * (num % den) := by
  unfold roundHalfEven
  split_ifs with h1 h2 h3
  · exact Or.inl ⟨rfl, by omega⟩
  · exact Or.inr ⟨rfl, by omega⟩
  · exact Or.inl ⟨rfl, by omega⟩
  · exact Or.inr ⟨rfl, by omega⟩

/-- Rounding does not go below an integer that the quotient is not below. -/
theorem roundHalfEven_lower (num den g : Nat) (hden : 0 < den) (h : g * den ≤ num) :
    g ≤ roundHalfEven num den := by
  have hg : g ≤ num / den := (Nat.le_div_iff_mul_le hden).2 h
  rcases roundHalfEven_cases num den with ⟨h1, _⟩ | ⟨h1, _⟩ <;> omega

/-- Rounding does not go above an integer that the quotient is not above. -/
theorem roundHalfEven_upper (num den g : Nat) (hden : 0 < den) (h : num ≤ g * den) :
    roundHalfEven num den ≤ g := by
  have hdm := Nat.div_add_mod num den
  have hg : num / den ≤ g := by
    apply Nat.div_le_of_le_mul
    rw [Nat.mul_comm]; exact h
  rcases roundHalfEven_cases num den with ⟨h1, _⟩ | ⟨h1, h2⟩
  · omega
  · rw [h1]
    by_contra hc
    have heq : num / den = g := by omega
    rw [heq, Nat.mul_comm] at hdm
    omega

/-- Rounding is monotone in the numerator. -/
theorem roundHalfEven_mono (num num2 den : Nat) (h : num ≤ num2) :
    roundHalfEven num den ≤ roundHalfEven num2 den := by
  have hdiv : num / den ≤ num2 / den := Nat.div_le_div_right h
  have hdm := Nat.div_add_mod num den
  have hdm2 := Nat.div_add_mod num2 den
  by_cases hlt : num / den < num2 / den
  · rcases roundHalfEven_cases num den with ⟨h1, _⟩ | ⟨h1, _⟩ <;>
    rcases roundHalfEven_cases num2 den with ⟨h2, _⟩ | ⟨h2, _⟩ <;> omega
  · have heq : num / den = num2 / den := by omega
    have hrem : num % den ≤ num2 % den := by
      rw [heq] at hdm
      omega
    unfold roundHalfEven
    rw [heq]
    split_ifs <;> omega

/-- The rounded quotient is within one half of the quotient. -/
theorem roundHalfEven_near (num den : Nat) (hden : 0 < den) :
    2 * num ≤ 2 * (den * roundHalfEven num den) + den ∧
    2 * (den * roundHalfEven num den) ≤ 2 * num + den := by
  have hdm := Nat.div_add_mod num den
  have hlt := Nat.mod_lt num hden
  rcases roundHalfEven_cases num den with ⟨h1, h2⟩ | ⟨h1, h2⟩
  · rw [h1]; constructor <;> omega
  · rw [h1, Nat.mul_add, Nat.mul_one]; constructor <;> omega

theorem excessBits_spec : ∀ (fuel n : Nat), n < 2 ^ fuel * 16777216 →
    n < 2 ^ excessBits fuel n * 16777216 ∧
    (excessBits fuel n = 0 ∨ 2 ^ excessBits fuel n * 8388608 ≤ n) := by
  intro fuel
  induction fuel with
  | zero =>
    intro n hn
    simp only [excessBits]
    exact ⟨hn, Or.inl trivial⟩
  | succ fuel ih =>
    intro n hn
    simp only [excessBits]
    by_cases h : n < 16777216
    · rw [if_pos h]
      exact ⟨by simpa using h, Or.inl rfl⟩
    · rw [if_neg h]
      rw [pow_succ] at hn
      obtain ⟨h1, h2⟩ := ih (n / 2) (by omega)
      rw [pow_succ]
      refine ⟨by omega, Or.inr ?_⟩
      rcases h2 with h2 | h2
      · rw [h2]; simp only [pow_zero]; omega
      · omega

theorem excessBits_mono : ∀ (fuel n m : Nat), n ≤ m →
    excessBits fuel n ≤ excessBits fuel m := by
  intro fuel
  induction fuel with
  | zero => intro n m _; simp [excessBits]
  | succ fuel ih =>
    intro n m h
    simp only [excessBits]
    by_cases hn : n < 16777216
    · rw [if_pos hn]; exact Nat.zero_le _
    · rw [if_neg hn, if_neg (by omega)]
      have := ih (n / 2) (m / 2) (Nat.div_le_div_right h)
      omega

/-- The conversion keeps a number of 24 bits or fewer. -/
theorem uint32ToFloat_small (n : Nat) (h : n < 16777216) : uint32ToFloat n = n := by
  have hk : excessBits 8 n = 0 := by simp [excessBits, h]
  unfold uint32ToFloat
  rw [hk]
  have := roundHalfEven_near n (2 ^ 0) (by decide)
  simp only [pow_zero, one_mul, mul_one] at this ⊢
  omega

/-- The conversion is off by at most one part in `2 ^ 24`. -/
theorem uint32ToFloat_near (n : Nat) (h : n < 4294967296) :
    uint32ToFloat n * 16777216 ≤ n * 16777217 ∧
    n * 16777215 ≤ uint32ToFloat n * 16777216 := by
  obtain ⟨h1, h2⟩ := excessBits_spec 8 n (by simpa using h)
  have hd : 0 < 2 ^ excessBits 8 n := Nat.two_pow_pos _
  have hnear := roundHalfEven_near n (2 ^ excessBits 8 n) hd
  unfold uint32ToFloat
  rw [Nat.mul_comm (roundHalfEven n (2 ^ excessBits 8 n))]
  generalize 2 ^ excessBits 8 n * roundHalfEven n (2 ^ excessBits 8 n) = fl at hnear ⊢
  rcases h2 with h2 | h2
  · rw [h2] at hnear
    simp only [pow_zero] at hnear
    omega
  · generalize 2 ^ excessBits 8 n = d at *
    omega

/-- The conversion is monotone. -/
theorem uint32ToFloat_mono (u t : Nat) (h : u ≤ t) (ht : t < 4294967296) :
    uint32ToFloat u ≤ uint32ToFloat t := by
  obtain ⟨hu1, hu2⟩ := excessBits_spec 8 u (by simp; omega)
  obtain ⟨ht1, ht2⟩ := excessBits_spec 8 t (by simpa using ht)
  have hk := excessBits_mono 8 u t h
  have hdu : 0 < 2 ^ excessBits 8 u := Nat.two_pow_pos _
  have hdt : 0 < 2 ^ excessBits 8 t := Nat.two_pow_pos _
  unfold uint32ToFloat
  by_cases hlt : excessBits 8 u < excessBits 8 t
  · have hup := roundHalfEven_upper u (2 ^ excessBits 8 u) 16777216 hdu
      (by rw [Nat.mul_comm]; omega)
    have hlo := roundHalfEven_lower t (2 ^ excessBits 8 t) 8388608 hdt
      (by rw [Nat.mul_comm]; omega)
    have hpow : 2 ^ excessBits 8 u * 2 ≤ 2 ^ excessBits 8 t := by
      rw [← pow_succ]
      exact Nat.pow_le_pow_right (by decide) hlt
    calc roundHalfEven u (2 ^ excessBits 8 u) * 2 ^ excessBits 8 u
        ≤ 16777216 * 2 ^ excessBits 8 u := Nat.mul_le_mul_right _ hup
      _ = 8388608 * (2 ^ excessBits 8 u * 2) := by ring
      _ ≤ 8388608 * 2 ^ excessBits 8 t := Nat.mul_le_mul_left _ hpow
      _ ≤ roundHalfEven t (2 ^ excessBits 8 t) * 2 ^ excessBits 8 t :=
          Nat.mul_le_mul_right _ hlo
  · have heq : excessBits 8 u = excessBits 8 t := by omega
    rw [heq]
    exact Nat.mul_le_mul_right _ (roundHalfEven_mono u t _ h)

theorem floatDivShift_spec (b : Nat) : ∀ (fuel a : Nat), b ≤ a * 2 ^ fuel →
    b ≤ a * 2 ^ floatDivShift a b fuel := by
  intro fuel
  induction fuel with
  | zero => intro a h; simpa [floatDivShift] using h
  | succ fuel ih =>
    intro a h
    simp only [floatDivShift]
    by_cases hb : b ≤ a
    · rw [if_pos hb]; simpa using hb
    · rw [if_neg hb]
      have := ih (2 * a) (by rw [pow_succ] at h; linarith)
      rw [pow_succ]
      linarith

theorem floatDiv_nonneg (a b : Nat) : 0 ≤ floatDiv a b := by
  unfold floatDiv
  split_ifs
  · exact le_refl _
  · positivity

/-- The quotient of a float by one that is not smaller is at most 1. -/
theorem floatDiv_le_one (a b : Nat) (hb : 0 < b) (h : a ≤ b) : floatDiv a b ≤ 1 := by
  unfold floatDiv
  split_ifs
  · exact zero_le_one
  · rw [div_le_one (by positivity)]
    have := roundHalfEven_upper (a * 2 ^ (floatDivShift a b 32 + 23)) b
      (2 ^ (floatDivShift a b 32 + 23)) hb
      (by rw [Nat.mul_comm]; exact Nat.mul_le_mul_left _ h)
    exact_mod_cast this

/-- The float quotient is off by at most one part in `2 ^ 24`. -/
theorem floatDiv_near (a b : Nat) (hb : 0 < b) (h : a ≠ 0 → b ≤ a * 4294967296) :
    floatDiv a b * (b : ℚ) * 16777216 ≤ (a : ℚ) * 16777217 ∧
    (a : ℚ) * 16777215 ≤ floatDiv a b * (b : ℚ) * 16777216 := by
  unfold floatDiv
  by_cases ha : a = 0
  · rw [if_pos ha, ha]; simp
  · rw [if_neg ha]
    have hs := floatDivShift_spec b 32 a (by simpa using h ha)
    have hnear := roundHalfEven_near (a * 2 ^ (floatDivShift a b 32 + 23)) b hb
    rw [pow_add] at hnear ⊢
    rw [pow_add]
    generalize floatDivShift a b 32 = s at *
    have hN : (0 : ℚ) < (2 : ℚ) ^ s * 2 ^ 23 := by positivity
    have hnat : b * roundHalfEven (a * (2 ^ s * 2 ^ 23)) b * 16777216 ≤
          a * (2 ^ s * 2 ^ 23) * 16777217 ∧
        a * (2 ^ s * 2 ^ 23) * 16777215 ≤
          b * roundHalfEven (a * (2 ^ s * 2 ^ 23)) b * 16777216 := by
      have e : a * (2 ^ s * 2 ^ 23) = a * 2 ^ s * 8388608 := by ring
      rw [e] at hnear ⊢
      generalize b * roundHalfEven (a * 2 ^ s * 8388608) b = bm at *
      generalize a * 2 ^ s = as at *
      omega
    generalize roundHalfEven (a * (2 ^ s * 2 ^ 23)) b = m at *
    have q1 : ((b * m * 16777216 : ℕ) : ℚ) ≤ ((a * (2 ^ s * 2 ^ 23) * 16777217 : ℕ) : ℚ) := by
      exact_mod_cast hnat.1
    have q2 : ((a * (2 ^ s * 2 ^ 23) * 16777215 : ℕ) : ℚ) ≤ ((b * m * 16777216 : ℕ) : ℚ) := by
      exact_mod_cast hnat.2
    push_cast at q1 q2
    constructor
    · rw [div_mul_eq_mul_div, div_mul_eq_mul_div, div_le_iff₀ hN]
      linarith
    · rw [div_mul_eq_mul_div, div_mul_eq_mul_div, le_div_iff₀ hN]
      linarith

/-- Three roundings of one part in `2 ^ 24` each stay within one part in
`2 ^ 22`. -/
theorem three_roundings (v A B U T : ℚ) (hv : 0 ≤ v) (hT : 0 < T)
    (h1 : v * B * 16777216 ≤ A * 16777217) (h1b : A * 16777215 ≤ v * B * 16777216)
    (h2 : A * 16777216 ≤ U * 16777217) (h2b : U * 16777215 ≤ A * 16777216)
    (h3 : B * 16777216 ≤ T * 16777217) (h3b : T * 16777215 ≤ B * 16777216) :
    |v - U / T| ≤ U / T / 4194304 := by
  have e1 := mul_le_mul_of_nonneg_left h3 hv
  have e2 := mul_le_mul_of_nonneg_left h3b hv
  have hu : v * T * 16777216 ≤ U * 16777220 := by nlinarith
  have hl : U * 16777212 ≤ v * T * 16777216 := by nlinarith
  have hvT : v = v * T / T := by field_simp
  rw [hvT, ← sub_div, abs_div, abs_of_pos hT, div_right_comm U T]
  apply div_le_div_of_nonneg_right _ hT.le
  rw [abs_le]
  constructor <;> linarith

theorem excessBits_le : ∀ (fuel n : Nat), excessBits fuel n ≤ fuel := by
  intro fuel
  induction fuel with
  | zero => intro n; simp [excessBits]
  | succ fuel ih =>
    intro n
    simp only [excessBits]
    split_ifs
    · exact Nat.zero_le _
    · have := ih (n / 2)
      omega

/-- The conversion of a `uint32_t` is at most `2 ^ 32`. -/
theorem uint32ToFloat_le (n : Nat) (h : n < 4294967296) : uint32ToFloat n ≤ 4294967296 := by
  obtain ⟨h1, -⟩ := excessBits_spec 8 n (by simpa using h)
  have hup := roundHalfEven_upper n (2 ^ excessBits 8 n) 16777216 (Nat.two_pow_pos _)
    (by rw [Nat.mul_comm]; omega)
  have hpow : 2 ^ excessBits 8 n ≤ 2 ^ 8 :=
    Nat.pow_le_pow_right (by decide) (excessBits_le 8 n)
  unfold uint32ToFloat
  calc roundHalfEven n (2 ^ excessBits 8 n) * 2 ^ excessBits 8 n
      ≤ 16777216 * 2 ^ excessBits 8 n := Nat.mul_le_mul_right _ hup
    _ ≤ 16777216 * 2 ^ 8 := Nat.mul_le_mul_left _ hpow
    _ = 4294967296 := by norm_num

/-- The conversion of a `uint32_t` that is not 0 is not 0. -/
theorem uint32ToFloat_pos (n : Nat) (h : n < 4294967296) (hn : 0 < n) :
    0 < uint32ToFloat n := by
  have := (uint32ToFloat_near n h).2
  omega

/-- The value computed from two `uint32_t` counts lies in `[0, 1]`. -/
theorem efficiency_range (t u : Nat) (ht : t < 4294967296) :
    (0 : ℚ) ≤ (if t = 0 then (0 : ℚ) else if u > t then 1
      else floatDiv (1 * uint32ToFloat u) (1 * uint32ToFloat t)) ∧
    (if t = 0 then (0 : ℚ) else if u > t then 1
      else floatDiv (1 * uint32ToFloat u) (1 * uint32ToFloat t)) ≤ 1 := by
  split_ifs with h1 h2
  · exact ⟨le_refl _, zero_le_one⟩
  · exact ⟨zero_le_one, le_refl _⟩
  · rw [one_mul, one_mul]
    exact ⟨floatDiv_nonneg _ _,
      floatDiv_le_one _ _ (uint32ToFloat_pos t ht (Nat.pos_of_ne_zero h1))
        (uint32ToFloat_mono u t (Nat.le_of_not_gt h2) ht)⟩

/-- The float quotient of two counts `u ≤ t` is within one part in `2 ^ 22` of
the exact quotient. -/
theorem efficiency_accuracy (t u : Nat) (ht : t < 4294967296) (h0 : t ≠ 0) (hle : u ≤ t) :
    |floatDiv (uint32ToFloat u) (uint32ToFloat t) - (u : ℚ) / (t : ℚ)| ≤
      (u : ℚ) / (t : ℚ) / 4194304 := by
  have hu : u < 4294967296 := by omega
  have hB := uint32ToFloat_pos t ht (Nat.pos_of_ne_zero h0)
  have hBle := uint32ToFloat_le t ht
  have hdiv := floatDiv_near (uint32ToFloat u) (uint32ToFloat t) hB (by intro ha; omega)
  have hnu := uint32ToFloat_near u hu
  have hnt := uint32ToFloat_near t ht
  have q1 : ((uint32ToFloat u * 16777216 : ℕ) : ℚ) ≤ ((u * 16777217 : ℕ) : ℚ) := by
    exact_mod_cast hnu.1
  have q2 : ((u * 16777215 : ℕ) : ℚ) ≤ ((uint32ToFloat u * 16777216 : ℕ) : ℚ) := by
    exact_mod_cast hnu.2
  have q3 : ((uint32ToFloat t * 16777216 : ℕ) : ℚ) ≤ ((t * 16777217 : ℕ) : ℚ) := by
    exact_mod_cast hnt.1
  have q4 : ((t * 16777215 : ℕ) : ℚ) ≤ ((uint32ToFloat t * 16777216 : ℕ) : ℚ) := by
    exact_mod_cast hnt.2
  push_cast at q1 q2 q3 q4
  exact three_roundings _ _ _ _ _ (floatDiv_nonneg _ _)
    (by exact_mod_cast Nat.pos_of_ne_zero h0) hdiv.1 hdiv.2 q1 q2 q3 q4

/-- With 16777216 useful fragments out of 16777217 the value returned is
exactly 1: the conversion to `float` rounds 16777217 to 16777216. -/
theorem efficiency_of_large_counts :
    slotSum largeCountReader.efficiency_nbTotal = 16777217 ∧
    slotSum largeCountReader.efficiency_nbUseful = 16777216 ∧
    uint32ToFloat 16777217 = 16777216 ∧
    (ARSTREAMING_Reader_GetEstimatedEfficiency largeCountReader).1 = 1 := by
  have hs : efficiencySums largeCountReader = (16777217, 16777216) := by decide
  have hcT : uint32ToFloat 16777217 = 16777216 := by decide
  have hcU : uint32ToFloat 16777216 = 16777216 := by decide
  have hshift : floatDivShift 16777216 16777216 32 = 0 := by decide
  have hround : roundHalfEven (16777216 * 2 ^ (0 + 23)) 16777216 = 8388608 := by decide
  refine ⟨by decide, by decide, hcT, ?_⟩
  simp only [ARSTREAMING_Reader_GetEstimatedEfficiency, hs, hcT, hcU, floatDiv, hshift, hround]
  norm_num

/-- C11, as stated, fails.  At the end of scenario S3 the counters are not
negative, the sums are 3 and 2, and the function returns the float nearest to
`2 / 3`, whose value is `11184811 / 16777216` (the float `0x3f2aaaab`), not
`2 / 3`.  With the counters of `wrappingReader`, none of them negative, the sum
of `nbTotal` is `2 ^ 32` and the sum of `nbUseful` is 3: the `uint32_t` total
wraps to 0 and the function returns 0, not `3 / 2 ^ 32`. -/
theorem efficiency_not_exact_quotient :
    ((∀ i, i < 15 →
        0 ≤ readerS3.efficiency_nbTotal.getD i 0 ∧
        0 ≤ readerS3.efficiency_nbUseful.getD i 0) ∧
      slotSum readerS3.efficiency_nbTotal = 3 ∧
      slotSum readerS3.efficiency_nbUseful = 2 ∧
      (ARSTREAMING_Reader_GetEstimatedEfficiency readerS3).1 = 11184811 / 16777216 ∧
      (ARSTREAMING_Reader_GetEstimatedEfficiency readerS3).1 ≠
        (slotSum readerS3.efficiency_nbUseful : ℚ) /
          (slotSum readerS3.efficiency_nbTotal : ℚ)) ∧
    ((∀ i, i < 15 →
        0 ≤ wrappingReader.efficiency_nbTotal.getD i 0 ∧
        0 ≤ wrappingReader.efficiency_nbUseful.getD i 0) ∧
      slotSum wrappingReader.efficiency_nbTotal = 4294967296 ∧
      slotSum wrappingReader.efficiency_nbUseful = 3 ∧
      (ARSTREAMING_Reader_GetEstimatedEfficiency wrappingReader).1 = 0 ∧
      (ARSTREAMING_Reader_GetEstimatedEfficiency wrappingReader).1 ≠
        (slotSum wrappingReader.efficiency_nbUseful : ℚ) /
          (slotSum wrappingReader.efficiency_nbTotal : ℚ)) := by
  have hT3 : slotSum readerS3.efficiency_nbTotal = 3 := by decide
  have hU3 : slotSum readerS3.efficiency_nbUseful = 2 := by decide
  have hs3 : efficiencySums readerS3 = (3, 2) := by decide
  have hc2 : uint32ToFloat 2 = 2 := by decide
  have hc3 : uint32ToFloat 3 = 3 := by decide
  have hshift : floatDivShift 2 3 32 = 1 := by decide
  have hround : roundHalfEven (2 * 2 ^ (1 + 23)) 3 = 11184811 := by decide
  have hv3 : (ARSTREAMING_Reader_GetEstimatedEfficiency readerS3).1 = 11184811 / 16777216 := by
    simp only [ARSTREAMING_Reader_GetEstimatedEfficiency, hs3, hc2, hc3, floatDiv, hshift,
      hround]
    norm_num
  have hT : slotSum wrappingReader.efficiency_nbTotal = 4294967296 := by decide
  have hU : slotSum wrappingReader.efficiency_nbUseful = 3 := by decide
  have hv : (ARSTREAMING_Reader_GetEstimatedEfficiency wrappingReader).1 = 0 := by
    simp only [ARSTREAMING_Reader_GetEstimatedEfficiency, efficiencySums_eq, hT, hU]
    norm_num
  refine ⟨⟨by decide, hT3, hU3, hv3, ?_⟩, ⟨by decide, hT, hU, hv, ?_⟩⟩
  · rw [hv3, hT3, hU3]
    norm_num
  · rw [hv, hT, hU]
    norm_num

/-- C11, amended: the value returned always lies in `[0, 1]` and the reader is
unchanged; for counters that are not negative and whose sums over the fifteen
slots are below `2 ^ 32`, the value is exactly 0 when the sum of `nbTotal` is 0,
exactly 1 when the sum of `nbUseful` exceeds the sum of `nbTotal`, and otherwise
the float quotient of the two sums converted to `float` (each operation
rounded to the nearest float, ties to even), which is within one part in
`2 ^ 22` of the exact quotient of the two sums. -/
theorem efficiency_value (r : ARSTREAMING_Reader_t) :
    (0 ≤ (ARSTREAMING_Reader_GetEstimatedEfficiency r).1 ∧
      (ARSTREAMING_Reader_GetEstimatedEfficiency r).1 ≤ 1 ∧
      (ARSTREAMING_Reader_GetEstimatedEfficiency r).2 = r) ∧
    ((∀ i, i < 15 →
        0 ≤ r.efficiency_nbTotal.getD i 0 ∧ 0 ≤ r.efficiency_nbUseful.getD i 0) →
      slotSum r.efficiency_nbTotal < 4294967296 →
      slotSum r.efficiency_nbUseful < 4294967296 →
      (ARSTREAMING_Reader_GetEstimatedEfficiency r).1 =
        (if slotSum r.efficiency_nbTotal = 0 then 0
        else if slotSum r.efficiency_nbUseful > slotSum r.efficiency_nbTotal then 1
        else floatDiv (uint32ToFloat (slotSum r.efficiency_nbUseful).toNat)
          (uint32ToFloat (slotSum r.efficiency_nbTotal).toNat)) ∧
      (slotSum r.efficiency_nbTotal ≠ 0 →
        slotSum r.efficiency_nbUseful ≤ slotSum r.efficiency_nbTotal →
        |(ARSTREAMING_Reader_GetEstimatedEfficiency r).1 -
            (slotSum r.efficiency_nbUseful : ℚ) / (slotSum r.efficiency_nbTotal : ℚ)| ≤
          (slotSum r.efficiency_nbUseful : ℚ) / (slotSum r.efficiency_nbTotal : ℚ) / 4194304)) := by
  have hlt : (efficiencySums r).1 < 4294967296 := by
    rw [efficiencySums_eq]; simp only []; omega
  constructor
  · exact ⟨(efficiency_range (efficiencySums r).1 (efficiencySums r).2 hlt).1,
      (efficiency_range (efficiencySums r).1 (efficiencySums r).2 hlt).2, rfl⟩
  · intro hnn hT hU
    have hsumT : 0 ≤ slotSum r.efficiency_nbTotal := by
      unfold slotSum
      apply List.sum_nonneg
      intro x hx
      simp only [List.mem_map, List.mem_range, ARSTREAMING_READER_EFFICIENCY_AVERAGE_NB_FRAMES]
        at hx
      obtain ⟨i, hi, rfl⟩ := hx
      exact (hnn i hi).1
    have hsumU : 0 ≤ slotSum r.efficiency_nbUseful := by
      unfold slotSum
      apply List.sum_nonneg
      intro x hx
      simp only [List.mem_map, List.mem_range, ARSTREAMING_READER_EFFICIENCY_AVERAGE_NB_FRAMES]
        at hx
      obtain ⟨i, hi, rfl⟩ := hx
      exact (hnn i hi).2
    have h1 : (efficiencySums r).1 = (slotSum r.efficiency_nbTotal).toNat := by
      rw [efficiencySums_eq]; simp only []; omega
    have h2 : (efficiencySums r).2 = (slotSum r.efficiency_nbUseful).toNat := by
      rw [efficiencySums_eq]; simp only []; omega
    have hval : (ARSTREAMING_Reader_GetEstimatedEfficiency r).1 =
        (if slotSum r.efficiency_nbTotal = 0 then 0
        else if slotSum r.efficiency_nbUseful > slotSum r.efficiency_nbTotal then 1
        else floatDiv (uint32ToFloat (slotSum r.efficiency_nbUseful).toNat)
          (uint32ToFloat (slotSum r.efficiency_nbTotal).toNat)) := by
      simp only [ARSTREAMING_Reader_GetEstimatedEfficiency]
      rw [h1, h2, one_mul, one_mul]
      by_cases hz : slotSum r.efficiency_nbTotal = 0
      · rw [if_pos hz, if_pos (by omega)]
      · rw [if_neg hz, if_neg (by omega)]
        by_cases hg : slotSum r.efficiency_nbUseful > slotSum r.efficiency_nbTotal
        · rw [if_pos hg, if_pos (by omega)]
        · rw [if_neg hg, if_neg (by omega)]
    refine ⟨hval, ?_⟩
    intro hz hle
    rw [hval, if_neg hz, if_neg (by omega)]
    have hacc := efficiency_accuracy (slotSum r.efficiency_nbTotal).toNat
      (slotSum r.efficiency_nbUseful).toNat (by omega) (by omega) (by omega)
    have cT : (((slotSum r.efficiency_nbTotal).toNat : ℕ) : ℚ) =
        (slotSum r.efficiency_nbTotal : ℚ) := by
      have : (((slotSum r.efficiency_nbTotal).toNat : ℕ) : ℤ) = slotSum r.efficiency_nbTotal :=
        Int.toNat_of_nonneg hsumT
      exact_mod_cast congrArg (fun z : ℤ => (z : ℚ)) this
    have cU : (((slotSum r.efficiency_nbUseful).toNat : ℕ) : ℚ) =
        (slotSum r.efficiency_nbUseful : ℚ) := by
      have : (((slotSum r.efficiency_nbUseful).toNat : ℕ) : ℤ) = slotSum r.efficiency_nbUseful :=
        Int.toNat_of_nonneg hsumU
      exact_mod_cast congrArg (fun z : ℤ => (z : ℚ)) this
    rw [cT, cU] at hacc
    exact hacc

theorem efficiency_value_witness :
    (ARSTREAMING_Reader_GetEstimatedEfficiency readerS3).1 =
      floatDiv (uint32ToFloat 2) (uint32ToFloat 3) ∧
    |(ARSTREAMING_Reader_GetEstimatedEfficiency readerS3).1 - 2 / 3| ≤ 2 / 3 / 4194304 := by
  have hT : slotSum readerS3.efficiency_nbTotal = 3 := by decide
  have hU : slotSum readerS3.efficiency_nbUseful = 2 := by decide
  have h := (efficiency_value readerS3).2 (by decide) (by decide) (by decide)
  rw [hT, hU] at h
  refine ⟨?_, ?_⟩
  · rw [h.1, if_neg (by decide), if_neg (by decide)]
    rfl
  · have := h.2 (by decide) (by decide)
    norm_num at this ⊢
    exact this

/-! ## The efficiency counters along the data loop -/

theorem getD_set_self (l : List Int) (i : Nat) (v : Int) (h : i < l.length) :
    (l.set i v).getD i 0 = v := by
  simp [List.getD_eq_getElem?_getD, List.getElem?_set, h]

theorem getD_set_of_ne (l : List Int) (i j : Nat) (v : Int) (h : i ≠ j) :
    (l.set i v).getD j 0 = l.getD j 0 := by
  simp [List.getD_eq_getElem?_getD, List.getElem?_set, h]

theorem getD_replicate_zero (n i : Nat) : (List.replicate n (0 : Int)).getD i 0 = 0 := by
  rw [List.getD_eq_getElem?_getD, List.getElem?_replicate]
  split_ifs <;> rfl

theorem tmod_index_range (idx : Int) (h0 : 0 ≤ idx) :
    0 ≤ Int.tmod (idx + 1) 15 ∧ Int.tmod (idx + 1) 15 < 15 ∧
    Int.tmod (idx + 1) 15 = (idx + 1) % 15 := by
  rw [Int.tmod_eq_emod (by omega) (by omega)]
  omega

/-- The reader built by `ARSTREAMING_Reader_New` has well-formed counters. -/
theorem efficiencyInvariant_new (manager : Nat) (dataBufferID ackBufferID : Int)
    (callback : Nat) (frameBuffer : FrameBuffer) (frameBufferSize : Nat) (custom : Nat)
    (env : NewEnvironment) (r : ARSTREAMING_Reader_t) (e : eARSTREAMING_ERROR)
    (h : ARSTREAMING_Reader_New manager dataBufferID ackBufferID callback frameBuffer
      frameBufferSize custom env = (some r, e)) : EfficiencyInvariant r := by
  unfold ARSTREAMING_Reader_New at h
  by_cases hbad : manager = 0 ∨ callback = 0 ∨ frameBuffer.ptr = 0 ∨ frameBufferSize = 0
  · rw [if_pos hbad] at h
    simp at h
  · rw [if_neg hbad] at h
    cases hm : env.malloc with
    | none => simp [hm] at h
    | some block =>
      simp only [hm] at h
      by_cases h1 : env.ackPacketMutexInitRet ≠ 0
      · rw [if_pos h1] at h; simp at h
      · rw [if_neg h1] at h
        by_cases h2 : env.ackSendMutexInitRet ≠ 0
        · rw [if_pos h2] at h; simp at h
        · rw [if_neg h2] at h
          by_cases h3 : env.ackSendCondInitRet ≠ 0
          · rw [if_pos h3] at h; simp at h
          · rw [if_neg h3] at h
            simp only [Prod.mk.injEq, Option.some.injEq] at h
            obtain ⟨rfl, -⟩ := h
            refine ⟨by simp [ARSTREAMING_READER_EFFICIENCY_AVERAGE_NB_FRAMES],
              by simp [ARSTREAMING_READER_EFFICIENCY_AVERAGE_NB_FRAMES], ?_, le_refl _,
              by show (0 : Int) < 15; decide⟩
            intro i _
            dsimp only
            rw [getD_replicate_zero]
            exact ⟨le_refl _, le_refl _⟩

/-- New-frame detection keeps the counters well formed. -/
theorem efficiencyInvariant_newFrameDetection (s : DataThread)
    (header : ARSTREAMING_NetworkHeaders_DataHeader_t) (h : EfficiencyInvariant s.reader) :
    EfficiencyInvariant (newFrameDetection s header).reader := by
  obtain ⟨hlu, hlt, hslots, h0, h15⟩ := h
  unfold newFrameDetection
  split_ifs with hne
  · obtain ⟨t0, t15, -⟩ := tmod_index_range s.reader.efficiency_index h0
    refine ⟨by simp [hlu], by simp [hlt], ?_, ?_, ?_⟩
    · intro i hi
      simp only [ARSTREAMING_READER_EFFICIENCY_AVERAGE_NB_FRAMES, Nat.cast_ofNat]
      by_cases hidx : (Int.tmod (s.reader.efficiency_index + 1) 15).toNat = i
      · subst hidx
        rw [getD_set_self _ _ _ (by omega), getD_set_self _ _ _ (by omega)]
        exact ⟨le_refl _, le_refl _⟩
      · rw [getD_set_of_ne _ _ _ _ hidx, getD_set_of_ne _ _ _ _ hidx]
        exact hslots i hi
    · simpa [ARSTREAMING_READER_EFFICIENCY_AVERAGE_NB_FRAMES] using t0
    · simpa [ARSTREAMING_READER_EFFICIENCY_AVERAGE_NB_FRAMES] using t15
  · exact ⟨hlu, hlt, hslots, h0, h15⟩

/-- The per-fragment increments keep the counters well formed. -/
theorem efficiencyInvariant_ackFragment (r : ARSTREAMING_Reader_t)
    (header : ARSTREAMING_NetworkHeaders_DataHeader_t) (h : EfficiencyInvariant r) :
    EfficiencyInvariant (ackFragment r header).1 := by
  obtain ⟨hlu, hlt, hslots, h0, h15⟩ := h
  have hidx : r.efficiency_index.toNat < 15 := by omega
  unfold ackFragment
  simp only []
  split_ifs with hw
  · refine ⟨by simp [hlu], by simp [hlt], ?_, h0, h15⟩
    intro i hi
    dsimp only
    by_cases hi2 : r.efficiency_index.toNat = i
    · subst hi2
      rw [getD_set_self _ _ _ (by omega), getD_set_self _ _ _ (by omega)]
      have := hslots _ hi
      omega
    · rw [getD_set_of_ne _ _ _ _ hi2, getD_set_of_ne _ _ _ _ hi2]
      exact hslots i hi
  · refine ⟨hlu, by simp [hlt], ?_, h0, h15⟩
    intro i hi
    dsimp only
    by_cases hi2 : r.efficiency_index.toNat = i
    · subst hi2
      rw [getD_set_self _ _ _ (by omega)]
      have := hslots _ hi
      omega
    · rw [getD_set_of_ne _ _ _ _ hi2]
      exact hslots i hi

/-- C12: the predicate "both arrays have their fifteen slots, `0 ≤ nbUseful[i] ≤
nbTotal[i]` for every slot, and `0 ≤ idx < 15`" holds for the reader produced by
`ARSTREAMING_Reader_New` and is preserved by the acknowledge bookkeeping of
every packet (new-frame rotation followed by the per-fragment increments) and
by every whole iteration of the data loop, for every header and every prior
state satisfying it. -/
theorem efficiency_invariant :
    (∀ (manager : Nat) (dataBufferID ackBufferID : Int) (callback : Nat)
        (frameBuffer : FrameBuffer) (frameBufferSize : Nat) (custom : Nat)
        (env : NewEnvironment) (r : ARSTREAMING_Reader_t) (e : eARSTREAMING_ERROR),
      ARSTREAMING_Reader_New manager dataBufferID ackBufferID callback frameBuffer
          frameBufferSize custom env = (some r, e) → EfficiencyInvariant r) ∧
    (∀ (s : DataThread) (header : ARSTREAMING_NetworkHeaders_DataHeader_t),
      EfficiencyInvariant s.reader → EfficiencyInvariant (afterAck s header).reader) ∧
    (∀ (cfg : NetworkHeaders) (s s1 : DataThread) (packet : Packet)
        (answers rest : List HostAnswer) (calls : List CallbackCall),
      EfficiencyInvariant s.reader →
      dataLoopIteration cfg s packet answers = some (s1, calls, rest) →
      EfficiencyInvariant s1.reader) := by
  have hstep : ∀ (s : DataThread) (header : ARSTREAMING_NetworkHeaders_DataHeader_t),
      EfficiencyInvariant s.reader → EfficiencyInvariant (afterAck s header).reader := by
    intro s header h
    exact efficiencyInvariant_ackFragment _ header
      (efficiencyInvariant_newFrameDetection s header h)
  refine ⟨efficiencyInvariant_new, hstep, ?_⟩
  intro cfg s s1 packet answers rest calls hinv h
  obtain ⟨-, hb2, hb3, hb4⟩ := dataLoopIteration_bookkeeping cfg s s1 packet answers rest calls h
  have := hstep s packet.header hinv
  unfold EfficiencyInvariant at this ⊢
  rw [hb2, hb3, hb4]
  exact this

theorem efficiency_invariant_witness :
    EfficiencyInvariant (newReader 4) ∧
    EfficiencyInvariant (afterAck (dataThreadStart (newReader 4)) (mkPacket 5 0 1 0 [1]).header).reader
      ∧ EfficiencyInvariant (iterationResult ⟨4, 1⟩ (dataThreadStart (newReader 4))
        (mkPacket 5 0 1 0 [1]) [hostGives 200 8]).1.reader :=
  have h0 : EfficiencyInvariant (dataThreadStart (newReader 4)).reader :=
    efficiency_invariant.1 1 125 13 1 (zeroBuffer 100) 4 0 goodEnvironment (newReader 4)
      eARSTREAMING_ERROR.ARSTREAMING_OK rfl
  ⟨efficiency_invariant.1 1 125 13 1 (zeroBuffer 100) 4 0 goodEnvironment (newReader 4)
      eARSTREAMING_ERROR.ARSTREAMING_OK rfl,
   efficiency_invariant.2.1 _ _ h0,
   efficiency_invariant.2.2 ⟨4, 1⟩ (dataThreadStart (newReader 4))
      (iterationResult ⟨4, 1⟩ (dataThreadStart (newReader 4)) (mkPacket 5 0 1 0 [1])
        [hostGives 200 8]).1 (mkPacket 5 0 1 0 [1]) [hostGives 200 8]
      (iterationResult ⟨4, 1⟩ (dataThreadStart (newReader 4)) (mkPacket 5 0 1 0 [1])
        [hostGives 200 8]).2.2
      (iterationResult ⟨4, 1⟩ (dataThreadStart (newReader 4)) (mkPacket 5 0 1 0 [1])
        [hostGives 200 8]).2.1 h0 rfl⟩

/-! ## New-frame rotation -/

theorem firstFragment_isSome_iff (l : List Packet) (i : Nat) :
    (firstFragment l i).isSome = true ↔ i ∈ l.map (fun p => p.header.fragmentNumber) := by
  unfold firstFragment
  rw [List.find?_isSome]
  simp only [decide_eq_true_eq, List.mem_map]

theorem distinctFragments_snoc (l : List Packet) (p : Packet) :
    distinctFragments (l ++ [p]) =
      if (firstFragment l p.header.fragmentNumber).isSome = true then distinctFragments l
      else distinctFragments l + 1 := by
  unfold distinctFragments
  rw [← List.card_toFinset, ← List.card_toFinset, List.map_append, List.toFinset_append]
  simp only [List.map_cons, List.map_nil, List.toFinset_cons, List.toFinset_nil,
    insert_emptyc_eq]
  split_ifs with h
  · rw [firstFragment_isSome_iff] at h
    congr 1
    rw [Finset.union_eq_left]
    intro x hx
    rw [Finset.mem_singleton] at hx
    subst hx
    exact List.mem_toFinset.2 h
  · rw [firstFragment_isSome_iff] at h
    rw [Finset.union_comm, ← Finset.insert_eq, Finset.card_insert_of_not_mem]
    exact fun hm => h (List.mem_toFinset.1 hm)

/-- When the bits are the fragment numbers seen and these are all below `F`,
the number of bits set in `[0, F)` is the number of distinct fragment
numbers. -/
theorem bitCount_eq_distinct (ack : ARSTREAMING_NetworkHeaders_AckPacket_t) (F : Nat)
    (seen : List Packet)
    (hbits : ∀ k, ARSTREAMING_NetworkHeaders_AckPacketFlagIsSet ack k = true ↔
      (firstFragment seen k).isSome = true)
    (hlt : ∀ p ∈ seen, p.header.fragmentNumber < F) :
    bitCount ack F = distinctFragments seen := by
  unfold bitCount distinctFragments
  rw [← List.card_toFinset,
    ← List.toFinset_card_of_nodup ((List.nodup_range F).filter _)]
  congr 1
  ext i
  simp only [List.mem_toFinset, List.mem_filter, List.mem_range]
  rw [hbits i, firstFragment_isSome_iff]
  constructor
  · exact fun h => h.2
  · intro h
    refine ⟨?_, h⟩
    obtain ⟨p, hp, rfl⟩ := List.mem_map.1 h
    exact hlt p hp

/-- The first packet of a frame, read by a reader on another frame whose
index is in range, starts the count at nothing seen. -/
theorem counting_start (f : Nat) (s : DataThread)
    (header : ARSTREAMING_NetworkHeaders_DataHeader_t)
    (hf : header.frameNumber = f) (hs : s.reader.ackPacket.frameNumber ≠ f)
    (hlen : s.reader.efficiency_nbTotal.length = 15 ∧ s.reader.efficiency_nbUseful.length = 15)
    (hidx : 0 ≤ s.reader.efficiency_index ∧ s.reader.efficiency_index < 15) :
    Counting f (newFrameDetection s header).reader [] := by
  have hne : header.frameNumber ≠ s.reader.ackPacket.frameNumber := by
    rw [hf]; exact fun h => hs h.symm
  obtain ⟨t0, t15, -⟩ := tmod_index_range s.reader.efficiency_index hidx.1
  have hin : (Int.tmod (s.reader.efficiency_index + 1) 15).toNat < 15 := by omega
  simp only [newFrameDetection, if_pos hne, ARSTREAMING_READER_EFFICIENCY_AVERAGE_NB_FRAMES,
    Nat.cast_ofNat]
  refine ⟨hf, ?_, by simp [hlen.2, hin], by simp [hlen.1, hin], ?_, ?_⟩
  · intro k
    simp only [isSet_reset, firstFragment, List.find?_nil]
    simp
  · dsimp only
    rw [getD_set_self _ _ _ (by omega)]
    rfl
  · dsimp only
    rw [getD_set_self _ _ _ (by omega)]
    rfl

/-- The acknowledge bookkeeping of a packet of the frame keeps the count. -/
theorem counting_ackFragment (f : Nat) (r : ARSTREAMING_Reader_t) (seen : List Packet)
    (p : Packet) (hi : p.header.fragmentNumber < 128) (h : Counting f r seen) :
    Counting f (ackFragment r p.header).1 (seen ++ [p]) := by
  obtain ⟨hfn, hbits, hlu, hlt, hu, ht⟩ := h
  have hwas : ARSTREAMING_NetworkHeaders_AckPacketFlagIsSet r.ackPacket p.header.fragmentNumber
      = (firstFragment seen p.header.fragmentNumber).isSome := by
    have := hbits p.header.fragmentNumber
    cases hA : ARSTREAMING_NetworkHeaders_AckPacketFlagIsSet r.ackPacket
        p.header.fragmentNumber <;>
      cases hB : (firstFragment seen p.header.fragmentNumber).isSome <;> simp_all
  refine ⟨?_, ?_, ?_, ?_, ?_, ?_⟩
  · simp only [ackFragment, setFlag_frameNumber]; exact hfn
  · intro k
    show ARSTREAMING_NetworkHeaders_AckPacketFlagIsSet
      (ARSTREAMING_NetworkHeaders_AckPacketSetFlag r.ackPacket p.header.fragmentNumber) k
        = true ↔ _
    rw [isSet_setFlag _ _ _ hi]
    by_cases hk : k = p.header.fragmentNumber
    · subst hk
      simp only [decide_True, Bool.true_or, true_iff]
      cases hfirst : firstFragment seen p.header.fragmentNumber with
      | none => rw [firstFragment_snoc_of_none seen p hfirst]; rfl
      | some q => rw [firstFragment_append_of_some seen [p] _ q hfirst]; rfl
    · rw [firstFragment_snoc_of_ne seen p k hk]
      simp only [hk, decide_False, Bool.false_or]
      exact hbits k
  · simp only [ackFragment]
    split_ifs
    · simpa using hlu
    · exact hlu
  · simp only [ackFragment]
    simpa using hlt
  · rw [distinctFragments_snoc]
    simp only [ackFragment, hwas]
    cases hB : (firstFragment seen p.header.fragmentNumber).isSome
    · simp only [if_true, Bool.false_eq_true, if_false]
      rw [getD_set_self _ _ _ hlu, hu]
      push_cast
      rfl
    · simp only [Bool.true_eq_false, if_false, if_true]
      exact hu
  · simp only [ackFragment]
    rw [getD_set_self _ _ _ hlt, ht]
    simp

/-- One iteration on a packet of the frame keeps the count. -/
theorem dataLoopIteration_counting (cfg : NetworkHeaders) (f : Nat) (s s1 : DataThread)
    (seen : List Packet) (p : Packet) (answers rest : List HostAnswer)
    (calls : List CallbackCall) (hi : p.header.fragmentNumber < 128)
    (hinv : Counting f (newFrameDetection s p.header).reader seen)
    (h : dataLoopIteration cfg s p answers = some (s1, calls, rest)) :
    Counting f s1.reader (seen ++ [p]) := by
  have hack : Counting f (afterAck s p.header).reader (seen ++ [p]) :=
    counting_ackFragment f _ seen p hi hinv
  obtain ⟨hb1, hb2, hb3, hb4⟩ := dataLoopIteration_bookkeeping cfg s s1 p answers rest calls h
  unfold Counting at hack ⊢
  rw [hb1, hb2, hb3, hb4]
  exact hack

/-- The run of the data loop over packets of one frame keeps the count. -/
theorem dataLoop_counting (cfg : NetworkHeaders) (f : Nat) :
    ∀ (packets seen : List Packet) (s : DataThread) (answers : List HostAnswer)
      (r : DataThread × List (ARSTREAMING_NetworkHeaders_DataHeader_t × CallbackCall)
        × List HostAnswer),
      (∀ p ∈ packets, p.header.frameNumber = f ∧ p.header.fragmentNumber < 128) →
      ((seen = [] ∧ s.reader.ackPacket.frameNumber ≠ f ∧
          (s.reader.efficiency_nbTotal.length = 15 ∧ s.reader.efficiency_nbUseful.length = 15) ∧
          (0 ≤ s.reader.efficiency_index ∧ s.reader.efficiency_index < 15)) ∨
        Counting f s.reader seen) →
      dataLoop cfg s packets answers = some r →
      seen ++ packets ≠ [] → Counting f r.1.reader (seen ++ packets) := by
  intro packets
  induction packets with
  | nil =>
    intro seen s answers r _ hinv h hne
    simp only [dataLoop, Option.some.injEq] at h
    subst h
    rcases hinv with ⟨rfl, -⟩ | hc
    · exact absurd rfl hne
    · simpa using hc
  | cons p ps ih =>
    intro seen s answers r hall hinv h _
    have hp := hall p (List.mem_cons_self _ _)
    have hinv0 : Counting f (newFrameDetection s p.header).reader seen := by
      rcases hinv with ⟨rfl, hne, hlen, hidx⟩ | hc
      · exact counting_start f s p.header hp.1 hne hlen hidx
      · rw [newFrameDetection_same s p.header (by rw [hp.1, hc.1])]
        exact hc
    simp only [dataLoop] at h
    cases hit : dataLoopIteration cfg s p answers with
    | none => simp [hit] at h
    | some res =>
      obtain ⟨s2, calls, rest2⟩ := res
      simp only [hit] at h
      cases hrun : dataLoop cfg s2 ps rest2 with
      | none => simp [hrun] at h
      | some res2 =>
        simp only [hrun, Option.some.injEq] at h
        have hc2 := dataLoopIteration_counting cfg f s s2 seen p answers rest2 calls hp.2 hinv0 hit
        have happ : seen ++ p :: ps = (seen ++ [p]) ++ ps := by simp
        have := ih (seen ++ [p]) s2 rest2 res2
          (fun q hq => hall q (List.mem_cons_of_mem _ hq)) (Or.inr hc2) hrun (by simp)
        rw [happ, ← h]
        exact this

theorem marking_start (f : Nat) (s : DataThread)
    (header : ARSTREAMING_NetworkHeaders_DataHeader_t)
    (hf : header.frameNumber = f) (hs : s.reader.ackPacket.frameNumber ≠ f) :
    Marking f (newFrameDetection s header).reader [] := by
  have hne : header.frameNumber ≠ s.reader.ackPacket.frameNumber := by
    rw [hf]; exact fun h => hs h.symm
  simp only [newFrameDetection, if_pos hne]
  refine ⟨hf, ?_⟩
  intro k
  simp only [isSet_reset, firstFragment, List.find?_nil]
  simp

/-- One iteration on a packet of the frame keeps the bits equal to the
fragment numbers seen. -/
theorem dataLoopIteration_marking (cfg : NetworkHeaders) (f : Nat) (s s1 : DataThread)
    (seen : List Packet) (p : Packet) (answers rest : List HostAnswer)
    (calls : List CallbackCall) (hpf : p.header.frameNumber = f)
    (hi : p.header.fragmentNumber < 128)
    (hinv : Marking f (newFrameDetection s p.header).reader seen)
    (h : dataLoopIteration cfg s p answers = some (s1, calls, rest)) :
    Marking f s1.reader (seen ++ [p]) := by
  obtain ⟨hb1, -, -, -⟩ := dataLoopIteration_bookkeeping cfg s s1 p answers rest calls h
  unfold Marking
  rw [hb1]
  exact ⟨by rw [afterAck_frameNumber]; exact hpf, afterAck_bits s seen p hi hinv.2⟩

/-- The run of the data loop over packets of one frame keeps the bits equal to
the fragment numbers seen. -/
theorem dataLoop_marking (cfg : NetworkHeaders) (f : Nat) :
    ∀ (packets seen : List Packet) (s : DataThread) (answers : List HostAnswer)
      (r : DataThread × List (ARSTREAMING_NetworkHeaders_DataHeader_t × CallbackCall)
        × List HostAnswer),
      (∀ p ∈ packets, p.header.frameNumber = f ∧ p.header.fragmentNumber < 128) →
      ((seen = [] ∧ s.reader.ackPacket.frameNumber ≠ f) ∨ Marking f s.reader seen) →
      dataLoop cfg s packets answers = some r →
      seen ++ packets ≠ [] → Marking f r.1.reader (seen ++ packets) := by
  intro packets
  induction packets with
  | nil =>
    intro seen s answers r _ hinv h hne
    simp only [dataLoop, Option.some.injEq] at h
    subst h
    rcases hinv with ⟨rfl, -⟩ | hc
    · exact absurd rfl hne
    · simpa using hc
  | cons p ps ih =>
    intro seen s answers r hall hinv h _
    have hp := hall p (List.mem_cons_self _ _)
    have hinv0 : Marking f (newFrameDetection s p.header).reader seen := by
      rcases hinv with ⟨rfl, hne⟩ | hc
      · exact marking_start f s p.header hp.1 hne
      · rw [newFrameDetection_same s p.header (by rw [hp.1, hc.1])]
        exact hc
    simp only [dataLoop] at h
    cases hit : dataLoopIteration cfg s p answers with
    | none => simp [hit] at h
    | some res =>
      obtain ⟨s2, calls, rest2⟩ := res
      simp only [hit] at h
      cases hrun : dataLoop cfg s2 ps rest2 with
      | none => simp [hrun] at h
      | some res2 =>
        simp only [hrun, Option.some.injEq] at h
        have hc2 := dataLoopIteration_marking cfg f s s2 seen p answers rest2 calls hp.1 hp.2
          hinv0 hit
        have happ : seen ++ p :: ps = (seen ++ [p]) ++ ps := by simp
        have := ih (seen ++ [p]) s2 rest2 res2
          (fun q hq => hall q (List.mem_cons_of_mem _ hq)) (Or.inr hc2) hrun (by simp)
        rw [happ, ← h]
        exact this

/-- C15, as stated, fails at the empty prefix.  The reader that has received
frame 5 is on frame 5, not on frame 7.  After the empty prefix of a stream of
fragments of frame 7 (the data loop has processed none of them) the state is
unchanged: one bit of `[0, 3)` is set, `nbUseful[idx]` is 1 and `nbTotal[idx]` is
1, while the prefix has no fragment number and its length is 0. -/
theorem counts_before_first_fragment :
    stateFrame5.reader.ackPacket.frameNumber ≠ 7 ∧
    (∀ p ∈ streamDuplicate, p.header.frameNumber = 7 ∧ p.header.fragmentNumber < 3) ∧
    (dataLoop ⟨3, 1⟩ stateFrame5 (streamDuplicate.take 0) []).map
        (fun r => (bitCount r.1.reader.ackPacket 3,
          r.1.reader.efficiency_nbUseful.getD r.1.reader.efficiency_index.toNat 0,
          r.1.reader.efficiency_nbTotal.getD r.1.reader.efficiency_index.toNat 0))
      = some (1, 1, 1) ∧
    distinctFragments (streamDuplicate.take 0) = 0 ∧
    (streamDuplicate.take 0).length = 0 := by
  decide

/-- C15, amended: for a non-empty stream of fragments that all carry frame
number `f` and fragment numbers below `F ≤ 128`, processed from a state that is
on another frame, the number of bits set in `[0, F)` equals the number of
distinct fragment numbers of the stream, `nbUseful[idx]` is that same number
and `nbTotal[idx]` is the length of the stream (the counters being read in
arrays of fifteen slots, from an index that was in `[0, 15)` at the start).
The state after a prefix of a stream is the state after the run over that
prefix, so this holds after every non-empty prefix. -/
theorem popcount_counts_distinct_fragments (cfg : NetworkHeaders) (f F : Nat) (s : DataThread)
    (packets : List Packet) (answers : List HostAnswer)
    (r : DataThread × List (ARSTREAMING_NetworkHeaders_DataHeader_t × CallbackCall)
      × List HostAnswer)
    (hF : F ≤ 128)
    (hstart : s.reader.ackPacket.frameNumber ≠ f)
    (hpackets : ∀ p ∈ packets, p.header.frameNumber = f ∧ p.header.fragmentNumber < F)
    (hne : packets ≠ [])
    (h : dataLoop cfg s packets answers = some r) :
    bitCount r.1.reader.ackPacket F = distinctFragments packets ∧
    (s.reader.efficiency_nbTotal.length = 15 ∧ s.reader.efficiency_nbUseful.length = 15 →
      0 ≤ s.reader.efficiency_index ∧ s.reader.efficiency_index < 15 →
      r.1.reader.efficiency_nbUseful.getD r.1.reader.efficiency_index.toNat 0 =
        (distinctFragments packets : Int) ∧
      r.1.reader.efficiency_nbTotal.getD r.1.reader.efficiency_index.toNat 0 =
        (packets.length : Int)) := by
  have hall : ∀ p ∈ packets, p.header.frameNumber = f ∧ p.header.fragmentNumber < 128 :=
    fun p hp => ⟨(hpackets p hp).1, by have := (hpackets p hp).2; omega⟩
  have hm := dataLoop_marking cfg f packets [] s answers r hall (Or.inl ⟨rfl, hstart⟩) h
    (by simpa using hne)
  rw [List.nil_append] at hm
  refine ⟨bitCount_eq_distinct _ F packets hm.2 (fun p hp => (hpackets p hp).2), ?_⟩
  intro hlen hidx
  have hc := dataLoop_counting cfg f packets [] s answers r hall
    (Or.inl ⟨rfl, hstart, hlen, hidx⟩) h (by simpa using hne)
  rw [List.nil_append] at hc
  obtain ⟨-, -, -, -, hu, ht⟩ := hc
  exact ⟨hu, ht⟩

theorem popcount_counts_distinct_fragments_witness :
    bitCount (loopResult ⟨3, 1⟩ 9 streamDuplicate [hostGives 200 9]).1.reader.ackPacket 3 = 3 ∧
    bitCount (loopResult ⟨3, 1⟩ 9 (streamDuplicate.take 3) []).1.reader.ackPacket 3 = 2 ∧
    (loopResult ⟨3, 1⟩ 9 (streamDuplicate.take 3) []).1.reader.efficiency_nbUseful.getD
      (loopResult ⟨3, 1⟩ 9 (streamDuplicate.take 3) []).1.reader.efficiency_index.toNat 0 = 2 ∧
    (loopResult ⟨3, 1⟩ 9 (streamDuplicate.take 3) []).1.reader.efficiency_nbTotal.getD
      (loopResult ⟨3, 1⟩ 9 (streamDuplicate.take 3) []).1.reader.efficiency_index.toNat 0 = 3 :=
  ⟨(popcount_counts_distinct_fragments ⟨3, 1⟩ 7 3 (dataThreadStart (newReader 9))
      streamDuplicate [hostGives 200 9] (loopResult ⟨3, 1⟩ 9 streamDuplicate [hostGives 200 9])
      (by decide) (by decide) (by decide) (by decide) rfl).1,
   (popcount_counts_distinct_fragments ⟨3, 1⟩ 7 3 (dataThreadStart (newReader 9))
      (streamDuplicate.take 3) [] (loopResult ⟨3, 1⟩ 9 (streamDuplicate.take 3) [])
      (by decide) (by decide) (by decide) (by decide) rfl).1,
   (popcount_counts_distinct_fragments ⟨3, 1⟩ 7 3 (dataThreadStart (newReader 9))
      (streamDuplicate.take 3) [] (loopResult ⟨3, 1⟩ 9 (streamDuplicate.take 3) [])
      (by decide) (by decide) (by decide) (by decide) rfl).2 (by decide) (by decide)⟩

/-! ## Filled size and capacity -/

theorem maxEndOffset_snoc (cfg : NetworkHeaders) (seen : List Packet) (p : Packet) :
    maxEndOffset cfg (seen ++ [p]) = max (maxEndOffset cfg seen) (endIndexOf cfg p) := by
  unfold maxEndOffset
  induction seen with
  | nil => simp
  | cons q qs ih =>
    simp only [List.cons_append, List.map_cons, List.foldr_cons, ih]
    omega

/-- When the capacity loop ends without the skip mark, a filled size that was
within the capacity is still within it. -/
theorem capacityLoop_size_le_capacity (e : Nat) :
    ∀ (answers : List HostAnswer) (s s1 : DataThread) (calls : List CallbackCall)
      (rest : List HostAnswer),
      capacityLoop e s answers = some (s1, calls, rest) → s1.skipCurrentFrame = 0 →
      s.reader.currentFrameSize ≤ s.reader.currentFrameBufferSize →
      s1.reader.currentFrameSize ≤ s1.reader.currentFrameBufferSize := by
  intro answers
  induction answers with
  | nil =>
    intro s s1 calls rest h _ hle
    simp only [capacityLoop] at h
    split_ifs at h
    simp only [Option.some.injEq, Prod.mk.injEq] at h
    obtain ⟨rfl, -, -⟩ := h
    exact hle
  | cons a as ih =>
    intro s s1 calls rest h h1 hle
    by_cases hg : e > s.reader.currentFrameBufferSize ∧ s.skipCurrentFrame = 0
    · rw [capacityLoop_round e s a as hg] at h
      cases hrec : capacityLoop e (tooSmallRound s a).1 as with
      | none => simp [hrec] at h
      | some res =>
        obtain ⟨s2, calls2, rest2⟩ := res
        simp only [hrec, Option.some.injEq, Prod.mk.injEq] at h
        obtain ⟨rfl, -, -⟩ := h
        have ht := (capacityLoop_keeps_bytes e as _ _ _ _ hrec h1).1
        apply ih _ _ _ _ hrec h1
        by_cases hcond : (a.newBufferCapacity.getD 0 ≥ s.reader.currentFrameSize ∧
            a.newBufferCapacity.getD 0 > 0)
        · simp only [tooSmallRound, if_pos hcond]
          exact hcond.1
        · exfalso
          simp only [tooSmallRound, if_neg hcond] at ht
          exact absurd ht (by decide)
    · rw [capacityLoop_of_not_guard e s (a :: as) hg] at h
      simp only [Option.some.injEq, Prod.mk.injEq] at h
      obtain ⟨rfl, -, -⟩ := h
      exact hle

/-- One iteration that raises no `FRAME_COMPLETE`, on a packet of the frame
being received, keeps the filled size within the capacity and equal to the
largest end offset. -/
theorem dataLoopIteration_filling (cfg : NetworkHeaders) (f : Nat) (s s1 : DataThread)
    (seen : List Packet) (p : Packet) (answers rest : List HostAnswer)
    (calls : List CallbackCall) (hpf : p.header.frameNumber = f)
    (hinv : Filling cfg f (newFrameDetection s p.header) seen)
    (h : dataLoopIteration cfg s p answers = some (s1, calls, rest))
    (hno : ∀ c ∈ calls, c.cause ≠ ARSTREAMING_READER_CAUSE_FRAME_COMPLETE) :
    Filling cfg f s1 (seen ++ [p]) := by
  obtain ⟨-, hfill⟩ := hinv
  have hfn := dataLoopIteration_frameNumber cfg s s1 p answers rest calls h
  refine ⟨by rw [hfn]; exact hpf, ?_⟩
  intro hskip1
  obtain ⟨s3, calls0, rest0, hcap, hcase⟩ := dataLoopIteration_cases cfg s s1 p answers rest calls h
  obtain ⟨hframe, -⟩ := capacityLoop_frame _ _ _ _ _ _ hcap
  rcases hcase with ⟨h3, rfl, -, -⟩ | ⟨h3, calls1, hrep, rfl⟩
  · exact absurd hskip1 h3
  · obtain ⟨hskip2, hfit, -⟩ := capacityLoop_keeps_bytes _ _ _ _ _ _ hcap h3
    obtain ⟨hle2, hsz2⟩ := hfill hskip2
    have hle3 := capacityLoop_size_le_capacity _ _ _ _ _ _ hcap h3 hle2
    have hsz3 : s3.reader.currentFrameSize =
        (newFrameDetection s p.header).reader.currentFrameSize := by
      rw [hframe]; rfl
    have hstore : (storeFragment s3.reader (wasAlreadyAck s p.header)
          (cfg.FRAGMENT_SIZE * p.header.fragmentNumber) p.payload).currentFrameSize ≤
          s3.reader.currentFrameBufferSize ∧
        (storeFragment s3.reader (wasAlreadyAck s p.header)
          (cfg.FRAGMENT_SIZE * p.header.fragmentNumber) p.payload).currentFrameSize =
          maxEndOffset cfg (seen ++ [p]) := by
      rw [maxEndOffset_snoc, ← hsz2, ← hsz3]
      unfold endIndexOf at hfit ⊢
      simp only [storeFragment]
      split_ifs <;> omega
    rcases reportFrame_cases cfg _ _ _ _ _ _ hrep with ⟨-, rfl, -, -⟩ | ⟨-, -, rfl, -⟩
    · exact hstore
    · exfalso
      exact hno _ (List.mem_append_right _ (List.mem_singleton_self _)) rfl

theorem filling_start (cfg : NetworkHeaders) (f : Nat) (s : DataThread)
    (header : ARSTREAMING_NetworkHeaders_DataHeader_t)
    (hf : header.frameNumber = f) (hs : s.reader.ackPacket.frameNumber ≠ f) :
    Filling cfg f (newFrameDetection s header) [] := by
  have hne : header.frameNumber ≠ s.reader.ackPacket.frameNumber := by
    rw [hf]; exact fun h => hs h.symm
  simp only [newFrameDetection, if_pos hne]
  refine ⟨hf, fun _ => ⟨Nat.zero_le _, rfl⟩⟩

/-- The run of the data loop over packets of one frame, as long as no
`FRAME_COMPLETE` is raised, keeps the filled size within the capacity and equal
to the largest end offset. -/
theorem dataLoop_filling (cfg : NetworkHeaders) (f : Nat) :
    ∀ (packets seen : List Packet) (s : DataThread) (answers : List HostAnswer)
      (r : DataThread × List (ARSTREAMING_NetworkHeaders_DataHeader_t × CallbackCall)
        × List HostAnswer),
      (∀ p ∈ packets, p.header.frameNumber = f) →
      ((seen = [] ∧ s.reader.ackPacket.frameNumber ≠ f) ∨ Filling cfg f s seen) →
      dataLoop cfg s packets answers = some r →
      (∀ e ∈ r.2.1, e.2.cause ≠ ARSTREAMING_READER_CAUSE_FRAME_COMPLETE) →
      seen ++ packets ≠ [] → Filling cfg f r.1 (seen ++ packets) := by
  intro packets
  induction packets with
  | nil =>
    intro seen s answers r _ hinv h _ hne
    simp only [dataLoop, Option.some.injEq] at h
    subst h
    rcases hinv with ⟨rfl, -⟩ | hc
    · exact absurd rfl hne
    · simpa using hc
  | cons p ps ih =>
    intro seen s answers r hall hinv h hno _
    have hp := hall p (List.mem_cons_self _ _)
    have hinv0 : Filling cfg f (newFrameDetection s p.header) seen := by
      rcases hinv with ⟨rfl, hne⟩ | hc
      · exact filling_start cfg f s p.header hp hne
      · rw [newFrameDetection_same s p.header (by rw [hp, hc.1])]
        exact hc
    simp only [dataLoop] at h
    cases hit : dataLoopIteration cfg s p answers with
    | none => simp [hit] at h
    | some res =>
      obtain ⟨s2, calls, rest2⟩ := res
      simp only [hit] at h
      cases hrun : dataLoop cfg s2 ps rest2 with
      | none => simp [hrun] at h
      | some res2 =>
        obtain ⟨s3, trace3, rest3⟩ := res2
        simp only [hrun, Option.some.injEq] at h
        subst h
        have hno1 : ∀ c ∈ calls, c.cause ≠ ARSTREAMING_READER_CAUSE_FRAME_COMPLETE := by
          intro c hc
          exact hno (p.header, c) (List.mem_append_left _ (List.mem_map.2 ⟨c, hc, rfl⟩))
        have hf2 := dataLoopIteration_filling cfg f s s2 seen p answers rest2 calls hp hinv0
          hit hno1
        have happ : seen ++ p :: ps = (seen ++ [p]) ++ ps := by simp
        rw [happ]
        exact ih (seen ++ [p]) s2 rest2 (s3, trace3, rest3)
          (fun q hq => hall q (List.mem_cons_of_mem _ hq)) (Or.inr hf2) hrun
          (fun e he => hno e (List.mem_append_right _ he)) (by simp)

/-- C16, as stated, fails.  In scenario S5 the host answers `FRAME_TOO_SMALL`
with capacity 3: after the step the filled size is 4, the capacity is 3, and
the largest end offset processed is 8.  In scenario S1 with a `FRAME_COMPLETE`
answer of capacity 2: after the step the filled size is 8 and the capacity 2. -/
theorem size_exceeds_capacity :
    (dataLoop ⟨4, 1⟩ (dataThreadStart (newReader 4)) streamS4 [hostGives 200 3]).map
        (fun r => (r.1.reader.currentFrameSize, r.1.reader.currentFrameBufferSize))
      = some (4, 3) ∧
    maxEndOffset ⟨4, 1⟩ streamS4 = 8 ∧
    (dataLoop ⟨3, 1⟩ (dataThreadStart (newReader 9)) streamS1 [hostGives 200 2]).map
        (fun r => (r.1.reader.currentFrameSize, r.1.reader.currentFrameBufferSize))
      = some (8, 2) := by
  decide

/-- One iteration on a packet of the frame being received, whatever it
raises, keeps the filled size of a frame that is not skipped equal to the
largest end offset. -/
theorem dataLoopIteration_sizing (cfg : NetworkHeaders) (f : Nat) (s s1 : DataThread)
    (seen : List Packet) (p : Packet) (answers rest : List HostAnswer)
    (calls : List CallbackCall) (hpf : p.header.frameNumber = f)
    (hinv : Sizing cfg f (newFrameDetection s p.header) seen)
    (h : dataLoopIteration cfg s p answers = some (s1, calls, rest)) :
    Sizing cfg f s1 (seen ++ [p]) := by
  obtain ⟨-, hsize⟩ := hinv
  have hfn := dataLoopIteration_frameNumber cfg s s1 p answers rest calls h
  refine ⟨by rw [hfn]; exact hpf, ?_⟩
  intro hskip1
  obtain ⟨s3, calls0, rest0, hcap, hcase⟩ := dataLoopIteration_cases cfg s s1 p answers rest calls h
  obtain ⟨hframe, -⟩ := capacityLoop_frame _ _ _ _ _ _ hcap
  have hsz3 : s3.reader.currentFrameSize =
      (newFrameDetection s p.header).reader.currentFrameSize := by
    rw [hframe]; rfl
  have hstore : s3.skipCurrentFrame = 0 →
      (storeFragment s3.reader (wasAlreadyAck s p.header)
        (cfg.FRAGMENT_SIZE * p.header.fragmentNumber) p.payload).currentFrameSize =
        maxEndOffset cfg (seen ++ [p]) := by
    intro h3
    obtain ⟨hskip2, -, -⟩ := capacityLoop_keeps_bytes _ _ _ _ _ _ hcap h3
    have hsz2 := hsize hskip2
    rw [maxEndOffset_snoc, ← hsz2, ← hsz3]
    unfold endIndexOf
    simp only [storeFragment]
    split_ifs <;> omega
  rcases hcase with ⟨h3, rfl, -, -⟩ | ⟨h3, calls1, hrep, rfl⟩
  · exact absurd hskip1 h3
  · rcases reportFrame_cases cfg _ _ _ _ _ _ hrep with ⟨-, rfl, -, -⟩ | ⟨-, -, -, a, -, rfl⟩
    · exact hstore h3
    · exact hstore h3

theorem sizing_start (cfg : NetworkHeaders) (f : Nat) (s : DataThread)
    (header : ARSTREAMING_NetworkHeaders_DataHeader_t)
    (hf : header.frameNumber = f) (hs : s.reader.ackPacket.frameNumber ≠ f) :
    Sizing cfg f (newFrameDetection s header) [] := by
  have hne : header.frameNumber ≠ s.reader.ackPacket.frameNumber := by
    rw [hf]; exact fun h => hs h.symm
  simp only [newFrameDetection, if_pos hne]
  exact ⟨hf, fun _ => rfl⟩

/-- The run of the data loop over packets of one frame, whatever it raises,
keeps the filled size of a frame that is not skipped equal to the largest end
offset. -/
theorem dataLoop_sizing (cfg : NetworkHeaders) (f : Nat) :
    ∀ (packets seen : List Packet) (s : DataThread) (answers : List HostAnswer)
      (r : DataThread × List (ARSTREAMING_NetworkHeaders_DataHeader_t × CallbackCall)
        × List HostAnswer),
      (∀ p ∈ packets, p.header.frameNumber = f) →
      ((seen = [] ∧ s.reader.ackPacket.frameNumber ≠ f) ∨ Sizing cfg f s seen) →
      dataLoop cfg s packets answers = some r →
      seen ++ packets ≠ [] → Sizing cfg f r.1 (seen ++ packets) := by
  intro packets
  induction packets with
  | nil =>
    intro seen s answers r _ hinv h hne
    simp only [dataLoop, Option.some.injEq] at h
    subst h
    rcases hinv with ⟨rfl, -⟩ | hc
    · exact absurd rfl hne
    · simpa using hc
  | cons p ps ih =>
    intro seen s answers r hall hinv h _
    have hp := hall p (List.mem_cons_self _ _)
    have hinv0 : Sizing cfg f (newFrameDetection s p.header) seen := by
      rcases hinv with ⟨rfl, hne⟩ | hc
      · exact sizing_start cfg f s p.header hp hne
      · rw [newFrameDetection_same s p.header (by rw [hp, hc.1])]
        exact hc
    simp only [dataLoop] at h
    cases hit : dataLoopIteration cfg s p answers with
    | none => simp [hit] at h
    | some res =>
      obtain ⟨s2, calls, rest2⟩ := res
      simp only [hit] at h
      cases hrun : dataLoop cfg s2 ps rest2 with
      | none => simp [hrun] at h
      | some res2 =>
        obtain ⟨s3, trace3, rest3⟩ := res2
        simp only [hrun, Option.some.injEq] at h
        subst h
        have hf2 := dataLoopIteration_sizing cfg f s s2 seen p answers rest2 calls hp hinv0 hit
        have happ : seen ++ p :: ps = (seen ++ [p]) ++ ps := by simp
        rw [happ]
        exact ih (seen ++ [p]) s2 rest2 (s3, trace3, rest3)
          (fun q hq => hall q (List.mem_cons_of_mem _ hq)) (Or.inr hf2) hrun (by simp)

/-- C16, amended: after every step of the data loop on the fragments of one
frame (received by a reader that was on another frame), whatever the host
answers: as long as the frame is not marked skipped, the filled size equals
the largest end offset among the fragments of the frame processed so far,
also after `FRAME_COMPLETE` was raised; and as long as, moreover, no
`FRAME_COMPLETE` has been raised for the frame, the filled size does not exceed
the capacity. -/
theorem size_within_capacity (cfg : NetworkHeaders) (f : Nat) (s : DataThread)
    (packets : List Packet) (answers : List HostAnswer)
    (r : DataThread × List (ARSTREAMING_NetworkHeaders_DataHeader_t × CallbackCall)
      × List HostAnswer)
    (hstart : s.reader.ackPacket.frameNumber ≠ f)
    (hpackets : ∀ p ∈ packets, p.header.frameNumber = f)
    (hne : packets ≠ [])
    (h : dataLoop cfg s packets answers = some r)
    (hskip : r.1.skipCurrentFrame = 0) :
    r.1.reader.currentFrameSize = maxEndOffset cfg packets ∧
    ((∀ e ∈ r.2.1, e.2.cause ≠ ARSTREAMING_READER_CAUSE_FRAME_COMPLETE) →
      r.1.reader.currentFrameSize ≤ r.1.reader.currentFrameBufferSize) := by
  have hs := dataLoop_sizing cfg f packets [] s answers r hpackets (Or.inl ⟨rfl, hstart⟩) h
    (by simpa using hne)
  rw [List.nil_append] at hs
  refine ⟨hs.2 hskip, ?_⟩
  intro hno
  have hf := dataLoop_filling cfg f packets [] s answers r hpackets (Or.inl ⟨rfl, hstart⟩) h hno
    (by simpa using hne)
  rw [List.nil_append] at hf
  exact (hf.2 hskip).1

theorem size_within_capacity_witness :
    ((loopResult ⟨3, 1⟩ 9 (streamS2.take 2) []).1.reader.currentFrameSize = 8 ∧
      (loopResult ⟨3, 1⟩ 9 (streamS2.take 2) []).1.reader.currentFrameSize ≤
        (loopResult ⟨3, 1⟩ 9 (streamS2.take 2) []).1.reader.currentFrameBufferSize) ∧
    (loopResult ⟨3, 1⟩ 9 streamS1 [hostGives 200 2]).1.reader.currentFrameSize = 8 :=
  ⟨⟨(size_within_capacity ⟨3, 1⟩ 7 (dataThreadStart (newReader 9)) (streamS2.take 2) []
      (loopResult ⟨3, 1⟩ 9 (streamS2.take 2) []) (by decide) (by decide) (by decide) rfl
      (by decide)).1,
    (size_within_capacity ⟨3, 1⟩ 7 (dataThreadStart (newReader 9)) (streamS2.take 2) []
      (loopResult ⟨3, 1⟩ 9 (streamS2.take 2) []) (by decide) (by decide) (by decide) rfl
      (by decide)).2 (by decide)⟩,
   (size_within_capacity ⟨3, 1⟩ 7 (dataThreadStart (newReader 9)) streamS1 [hostGives 200 2]
      (loopResult ⟨3, 1⟩ 9 streamS1 [hostGives 200 2]) (by decide) (by decide) (by decide) rfl
      (by decide)).1⟩

/-! ## Bits and stored payloads -/

theorem holding_start (cfg : NetworkHeaders) (f : Nat) (s : DataThread)
    (header : ARSTREAMING_NetworkHeaders_DataHeader_t)
    (hf : header.frameNumber = f) (hs : s.reader.ackPacket.frameNumber ≠ f) :
    Holding cfg f (newFrameDetection s header) [] := by
  have hne : header.frameNumber ≠ s.reader.ackPacket.frameNumber := by
    rw [hf]; exact fun h => hs h.symm
  refine ⟨?_, ?_, ?_⟩
  · simp only [newFrameDetection, if_pos hne, ARSTREAMING_NetworkHeaders_AckPacketReset]
    exact hf
  · intro k
    simp only [newFrameDetection, if_pos hne, isSet_reset, firstFragment, List.find?_nil]
    simp
  · intro _ k q hq
    simp [firstFragment] at hq

/-- One iteration that raises no `FRAME_COMPLETE`, on a packet of the frame
being received, keeps the bits equal to the fragment numbers seen and, when
the frame is not skipped, the first packet seen of every fragment stored. -/
theorem dataLoopIteration_holding (cfg : NetworkHeaders) (f : Nat) (s s1 : DataThread)
    (seen : List Packet) (p : Packet) (answers rest : List HostAnswer)
    (calls : List CallbackCall) (hpf : p.header.frameNumber = f)
    (hi128 : p.header.fragmentNumber < 128) (hplen : p.payload.length ≤ cfg.FRAGMENT_SIZE)
    (hinv : Holding cfg f (newFrameDetection s p.header) seen)
    (h : dataLoopIteration cfg s p answers = some (s1, calls, rest))
    (hno : ∀ c ∈ calls, c.cause ≠ ARSTREAMING_READER_CAUSE_FRAME_COMPLETE) :
    Holding cfg f s1 (seen ++ [p]) := by
  obtain ⟨-, hbits, hstored⟩ := hinv
  have hbits2 := afterAck_bits s seen p hi128 hbits
  have hfn := dataLoopIteration_frameNumber cfg s s1 p answers rest calls h
  obtain ⟨hb1, -, -, -⟩ := dataLoopIteration_bookkeeping cfg s s1 p answers rest calls h
  refine ⟨by rw [hfn]; exact hpf, by rw [hb1]; exact hbits2, ?_⟩
  intro hskip1
  have hwas : wasAlreadyAck s p.header = (firstFragment seen p.header.fragmentNumber).isSome := by
    have hw : wasAlreadyAck s p.header =
        ARSTREAMING_NetworkHeaders_AckPacketFlagIsSet
          (newFrameDetection s p.header).reader.ackPacket p.header.fragmentNumber := rfl
    rw [hw]
    have := hbits p.header.fragmentNumber
    cases hA : ARSTREAMING_NetworkHeaders_AckPacketFlagIsSet
          (newFrameDetection s p.header).reader.ackPacket p.header.fragmentNumber <;>
      cases hB : (firstFragment seen p.header.fragmentNumber).isSome <;> simp_all
  obtain ⟨s3, calls0, rest0, hcap, hcase⟩ := dataLoopIteration_cases cfg s s1 p answers rest calls h
  obtain ⟨hframe, -⟩ := capacityLoop_frame _ _ _ _ _ _ hcap
  rcases hcase with ⟨h3, rfl, -, -⟩ | ⟨h3, calls1, hrep, rfl⟩
  · exact absurd hskip1 h3
  · obtain ⟨hskip2, -, hmem⟩ := capacityLoop_keeps_bytes _ _ _ _ _ _ hcap h3
    have hstored4 : ∀ k q, firstFragment (seen ++ [p]) k = some q →
        Stored cfg (storeFragment s3.reader (wasAlreadyAck s p.header)
          (cfg.FRAGMENT_SIZE * p.header.fragmentNumber) p.payload) k q := by
      apply stored_after_store cfg s3.reader seen p _ hplen hwas
      intro k q hq
      have hst0 : Stored cfg (afterAck s p.header).reader k q := hstored hskip2 k q hq
      have hsizeA : s3.reader.currentFrameSize =
          (afterAck s p.header).reader.currentFrameSize := by rw [hframe]
      exact stored_of_same_bytes cfg (afterAck s p.header).reader s3.reader k q
        (by rw [hsizeA]) hmem hst0
    rcases reportFrame_cases cfg _ _ _ _ _ _ hrep with ⟨-, rfl, -, -⟩ | ⟨-, -, rfl, -⟩
    · exact hstored4
    · exfalso
      exact hno _ (List.mem_append_right _ (List.mem_singleton_self _)) rfl

/-- The run of the data loop over packets of one frame, as long as no
`FRAME_COMPLETE` is raised: the bits are the fragment numbers seen and, when
the frame is not skipped, the first packet seen of every fragment is
stored. -/
theorem dataLoop_holding (cfg : NetworkHeaders) (f : Nat) :
    ∀ (packets seen : List Packet) (s : DataThread) (answers : List HostAnswer)
      (r : DataThread × List (ARSTREAMING_NetworkHeaders_DataHeader_t × CallbackCall)
        × List HostAnswer),
      (∀ p ∈ packets, p.header.frameNumber = f ∧ p.header.fragmentNumber < 128 ∧
        p.payload.length ≤ cfg.FRAGMENT_SIZE) →
      ((seen = [] ∧ s.reader.ackPacket.frameNumber ≠ f) ∨ Holding cfg f s seen) →
      dataLoop cfg s packets answers = some r →
      (∀ e ∈ r.2.1, e.2.cause ≠ ARSTREAMING_READER_CAUSE_FRAME_COMPLETE) →
      seen ++ packets ≠ [] → Holding cfg f r.1 (seen ++ packets) := by
  intro packets
  induction packets with
  | nil =>
    intro seen s answers r _ hinv h _ hne
    simp only [dataLoop, Option.some.injEq] at h
    subst h
    rcases hinv with ⟨rfl, -⟩ | hc
    · exact absurd rfl hne
    · simpa using hc
  | cons p ps ih =>
    intro seen s answers r hall hinv h hno _
    obtain ⟨hpf, hpi, hpl⟩ := hall p (List.mem_cons_self _ _)
    have hinv0 : Holding cfg f (newFrameDetection s p.header) seen := by
      rcases hinv with ⟨rfl, hne⟩ | hc
      · exact holding_start cfg f s p.header hpf hne
      · rw [newFrameDetection_same s p.header (by rw [hpf, hc.1])]
        exact hc
    simp only [dataLoop] at h
    cases hit : dataLoopIteration cfg s p answers with
    | none => simp [hit] at h
    | some res =>
      obtain ⟨s2, calls, rest2⟩ := res
      simp only [hit] at h
      cases hrun : dataLoop cfg s2 ps rest2 with
      | none => simp [hrun] at h
      | some res2 =>
        obtain ⟨s3, trace3, rest3⟩ := res2
        simp only [hrun, Option.some.injEq] at h
        subst h
        have hno1 : ∀ c ∈ calls, c.cause ≠ ARSTREAMING_READER_CAUSE_FRAME_COMPLETE := by
          intro c hc
          exact hno (p.header, c) (List.mem_append_left _ (List.mem_map.2 ⟨c, hc, rfl⟩))
        have hh2 := dataLoopIteration_holding cfg f s s2 seen p answers rest2 calls hpf hpi hpl
          hinv0 hit hno1
        have happ : seen ++ p :: ps = (seen ++ [p]) ++ ps := by simp
        rw [happ]
        exact ih (seen ++ [p]) s2 rest2 (s3, trace3, rest3)
          (fun q hq => hall q (List.mem_cons_of_mem _ hq)) (Or.inr hh2) hrun
          (fun e he => hno e (List.mem_append_right _ he)) (by simp)

/-- C14, as stated, fails.  In scenario S5 the host answers `FRAME_TOO_SMALL`
with capacity 3 and the frame is skipped: bit 1 is set, yet offset 4 of the
current buffer holds 0, not the first byte 69 of the only fragment 1 received.
In scenario S1, after `FRAME_COMPLETE` the current buffer is the one given by
the host: bit 0 is still set, yet offset 0 holds 0, not 65. -/
theorem bit_set_without_payload :
    (dataLoop ⟨4, 1⟩ (dataThreadStart (newReader 4)) streamS4 [hostGives 200 3]).map
        (fun r => (ARSTREAMING_NetworkHeaders_AckPacketFlagIsSet r.1.reader.ackPacket 1,
          r.1.reader.ackPacket.frameNumber, r.1.reader.currentFrameBuffer.mem 4,
          r.1.skipCurrentFrame))
      = some (true, 9, 0, 1) ∧
    (streamS4.filter (fun p => decide (p.header.fragmentNumber = 1))).map
        (fun p => p.payload.getD 0 0) = [69] ∧
    (dataLoop ⟨3, 1⟩ (dataThreadStart (newReader 9)) streamS1 [hostGives 200 9]).map
        (fun r => (ARSTREAMING_NetworkHeaders_AckPacketFlagIsSet r.1.reader.ackPacket 0,
          r.1.reader.ackPacket.frameNumber, r.1.reader.currentFrameBuffer.mem 0))
      = some (true, 7, 0) ∧
    (streamS1.filter (fun p => decide (p.header.fragmentNumber = 0))).map
        (fun p => p.payload.getD 0 0) = [65] := by
  decide

/-- C14, amended: in every state reached by the data loop on the fragments of
one frame (fragment numbers below 128, payloads of at most `FRAGMENT_SIZE`
bytes, received by a reader that was on another frame), whatever the host
answers, as long as the frame is not marked skipped and no `FRAME_COMPLETE` has
been raised for it: if bit `i` of the bitmap is set, then the payload of the
first-received fragment `i` of the frame is in the current frame buffer at
offset `i * FRAGMENT_SIZE`. -/
theorem bit_set_implies_payload_stored (cfg : NetworkHeaders) (f : Nat) (s : DataThread)
    (packets : List Packet) (answers : List HostAnswer)
    (r : DataThread × List (ARSTREAMING_NetworkHeaders_DataHeader_t × CallbackCall)
      × List HostAnswer)
    (hstart : s.reader.ackPacket.frameNumber ≠ f)
    (hpackets : ∀ p ∈ packets, p.header.frameNumber = f ∧ p.header.fragmentNumber < 128 ∧
      p.payload.length ≤ cfg.FRAGMENT_SIZE)
    (hne : packets ≠ [])
    (h : dataLoop cfg s packets answers = some r)
    (hno : ∀ e ∈ r.2.1, e.2.cause ≠ ARSTREAMING_READER_CAUSE_FRAME_COMPLETE)
    (hskip : r.1.skipCurrentFrame = 0) :
    ∀ i, i < 128 →
      ARSTREAMING_NetworkHeaders_AckPacketFlagIsSet r.1.reader.ackPacket i = true →
      ∃ q, firstFragment packets i = some q ∧
        ∀ j, j < q.payload.length →
          r.1.reader.currentFrameBuffer.mem (i * cfg.FRAGMENT_SIZE + j) = q.payload.getD j 0 := by
  have hh := dataLoop_holding cfg f packets [] s answers r hpackets (Or.inl ⟨rfl, hstart⟩) h hno
    (by simpa using hne)
  rw [List.nil_append] at hh
  obtain ⟨-, hbits, hstored⟩ := hh
  intro i _ hbit
  obtain ⟨q, hq⟩ := Option.isSome_iff_exists.1 ((hbits i).1 hbit)
  refine ⟨q, hq, ?_⟩
  intro j hj
  rw [Nat.mul_comm]
  exact (hstored hskip i q hq).2.2 j hj

theorem bit_set_implies_payload_stored_witness :
    ∃ q, firstFragment (streamS2.take 2) 2 = some q ∧
      ∀ j, j < q.payload.length →
        (loopResult ⟨3, 1⟩ 9 (streamS2.take 2) []).1.reader.currentFrameBuffer.mem
          (2 * 3 + j) = q.payload.getD j 0 :=
  bit_set_implies_payload_stored ⟨3, 1⟩ 7 (dataThreadStart (newReader 9)) (streamS2.take 2) []
    (loopResult ⟨3, 1⟩ 9 (streamS2.take 2) []) (by decide) (by decide) (by decide) rfl
    (by decide) (by decide) 2 (by decide) (by decide)

/-! ## The copies stay within the buffers -/

theorem capacityLoopCopies_within (e : Nat) :
    ∀ (answers : List HostAnswer) (s : DataThread),
      ∀ c ∈ capacityLoopCopies e s answers, c.offset + c.length ≤ c.capacity := by
  intro answers
  induction answers with
  | nil =>
    intro s c hc
    simp [capacityLoopCopies] at hc
  | cons a as ih =>
    intro s c hc
    simp only [capacityLoopCopies] at hc
    split_ifs at hc with hg
    · rw [List.mem_append] at hc
      rcases hc with hc | hc
      · unfold tooSmallRoundCopies at hc
        split_ifs at hc with hcond
        · simp only [List.mem_singleton] at hc
          subst hc
          show 0 + s.reader.currentFrameSize ≤ a.newBufferCapacity.getD 0
          omega
        · simp at hc
      · exact ih _ c hc
    · simp at hc

/-- In scenario S4 the second fragment makes two copies: the four bytes
received go to the buffer of capacity 8 given by the host, then the payload
goes to offset 4 of that buffer. -/
theorem iterationCopies_S4 :
    iterationCopies ⟨4, 1⟩ stateS4 (mkPacket 9 1 2 1 [69, 70, 71, 72]) [hostGives 200 8] =
      [⟨8, 0, 4⟩, ⟨8, 4, 4⟩] := by
  decide

/-- C17: every copy made by an iteration of the data loop stays within its
destination: the payload is written in `[cpIndex, cpIndex + cpSize)` with
`cpIndex + cpSize ≤ currentFrameBufferSize`, and the bytes copied into a
replacement buffer, `currentFrameSize` of them, do not exceed the capacity the
host reported for it.  This holds for every state, every packet (the payload
has a length, so the received size is at least the header size) and every
list of host answers. -/
theorem copies_within_capacity (cfg : NetworkHeaders) (s : DataThread) (packet : Packet)
    (answers : List HostAnswer) :
    ∀ c ∈ iterationCopies cfg s packet answers, c.offset + c.length ≤ c.capacity := by
  intro c hc
  unfold iterationCopies at hc
  rw [List.mem_append] at hc
  rcases hc with hc | hc
  · exact capacityLoopCopies_within _ _ _ c hc
  · cases hcap : capacityLoop (endIndexOf cfg packet) (afterAck s packet.header) answers with
    | none => simp [hcap] at hc
    | some res =>
      obtain ⟨s3, calls, rest⟩ := res
      simp only [hcap] at hc
      split_ifs at hc with hcond
      · simp only [List.mem_singleton] at hc
        subst hc
        have hfit := (capacityLoop_keeps_bytes _ _ _ _ _ _ hcap hcond.1).2.1
        exact hfit
      · simp at hc

theorem copies_within_capacity_witness :
    (⟨8, 4, 4⟩ : CopyRecord).offset + (⟨8, 4, 4⟩ : CopyRecord).length ≤
      (⟨8, 4, 4⟩ : CopyRecord).capacity :=
  copies_within_capacity ⟨4, 1⟩ stateS4 (mkPacket 9 1 2 1 [69, 70, 71, 72]) [hostGives 200 8]
    ⟨8, 4, 4⟩ (by decide)

end ARStream
